import Mathlib

/-!
Verification of zmk-driver-animation: frame scheduler, composition
combinator, leaf effects

Shallow embedding of `src/animation.c` (frame counter, render pass, pixel
distance table), `src/animation_compose.c`, the `stop` / `is_finished` pairs
of the leaf effects and the countdown of the battery status effect, the
controller of `src/animation_control.c`, and the stop work of
`src/behaviors/animation_trigger.c`, and theorems about them.

Conventions
* C `uint32_t` / `uint8_t` values are `Nat`; where the C code can wrap, the
  wrap is written out with `% 2^w`.
* A device pointer is a `Nat` (device id); `NULL` is `none`.
* Array reads `a[i]` are `a[i]?`: an out-of-bounds read makes the operation
  return `none`.
* `CONFIG_ZMK_ANIMATION_FPS` is a build-time constant that is not part of the
  sources; it is the parameter `fps`.
-/

namespace ZmkAnimation

/-! ## Frame scheduler (`src/animation.c`) -/

/-- Mutable globals of `animation.c` that drive the periodic tick:
`animation_timer_countdown` and whether the `animation_tick` k_timer is
running. -/
structure Sched where
  animation_timer_countdown : Nat
  timer_running : Bool
deriving DecidableEq, Repr

/-- Static initialisation: `animation_timer_countdown = 0`, timer defined but
not started. -/
def Sched.init : Sched := ⟨0, false⟩

/-- Modulus of `uint32_t`. -/
def UINT32_MOD : Nat := 2 ^ 32

/-- Source: `zmk_animation_request_frames` (animation.c:149-160). -/
def zmk_animation_request_frames (frames : Nat) (s : Sched) : Sched :=
  if frames ≤ s.animation_timer_countdown then s
  else
    { animation_timer_countdown := frames
      timer_running :=
        if s.animation_timer_countdown = 0 then true else s.timer_running }

/-- Source: `zmk_animation_request_frames_if_required` (animation.c:162-172). -/
def zmk_animation_request_frames_if_required (fps : Nat)
    (decrenetal_counter : Nat) (initial : Bool) (s : Sched) : Sched :=
  if initial then
    zmk_animation_request_frames
      (if decrenetal_counter > fps then fps else decrenetal_counter) s
  else if decrenetal_counter % fps = 0 then
    zmk_animation_request_frames fps s
  else s

/-- Source: `zmk_animation_tick_handler` (animation.c:139-145), its effect on
the counter and the timer: `--animation_timer_countdown` on a `uint32_t`,
then `k_timer_stop` when the result is 0. (The work item it submits is the
render pass, which is a separate event.) -/
def zmk_animation_tick_handler (s : Sched) : Sched :=
  let c := (s.animation_timer_countdown + (UINT32_MOD - 1)) % UINT32_MOD
  { animation_timer_countdown := c
    timer_running := if c = 0 then false else s.timer_running }

/-- Source: `zmk_animation_on_activity_state_changed`, case
`ZMK_ACTIVITY_SLEEP` (and `ZMK_ACTIVITY_IDLE` when stop-on-idle is
configured), animation.c:190-194: after `animation_stop(animation_root)` the
timer is stopped and the counter is overwritten with 0. -/
def activity_sleep_reset (_s : Sched) : Sched :=
  { animation_timer_countdown := 0, timer_running := false }

/-- Events that act on the scheduler globals. -/
inductive SchedEvent where
  | request_frames (n : Nat)
  | tick
  | sleep
deriving DecidableEq, Repr

/-- One scheduler event. The timer callback only fires while the timer is
running, so a `tick` on a stopped timer does not happen. -/
def sched_step (s : Sched) : SchedEvent → Sched
  | .request_frames n => zmk_animation_request_frames n s
  | .tick => if s.timer_running then zmk_animation_tick_handler s else s
  | .sleep => activity_sleep_reset s

/-- Run a sequence of events from a state. -/
def sched_run (s : Sched) (evs : List SchedEvent) : Sched :=
  evs.foldl sched_step s

/-- Scheduler invariant: counter positive exactly when the timer runs. -/
def Sched.inv (s : Sched) : Prop :=
  0 < s.animation_timer_countdown ↔ s.timer_running = true

/-! ## Animation contract (`include/zmk_driver_animation/drivers/animation.h`) -/

/-- `ANIMATION_DURATION_FOREVER` is `UINT32_MAX`. -/
def ANIMATION_DURATION_FOREVER : Nat := UINT32_MOD - 1

/-- Colour of a pixel (`struct zmk_color_rgb`; `color.h` is not part of the
sources). Channels are kept as exact rationals. -/
structure zmk_color_rgb where
  r : ℚ
  g : ℚ
  b : ℚ
deriving DecidableEq

/-- HSL colour (`struct zmk_color_hsl`; `color.h` is not part of the
sources): hue, saturation, lightness as unsigned integers. -/
structure zmk_color_hsl where
  h : Nat
  s : Nat
  l : Nat
deriving DecidableEq

/-- Source: `struct animation_pixel` (drivers/animation.h:27-32). -/
structure animation_pixel where
  position_x : Nat
  position_y : Nat
  value : zmk_color_rgb
deriving DecidableEq

/-- What an animation callback can reach besides its own device data: the
scheduler globals (through `zmk_animation_request_frames*`) and the shared
pixel buffer it is handed. -/
structure Env where
  sched : Sched
  pixels : List animation_pixel
deriving DecidableEq

/-- Source: `struct animation_api` (drivers/animation.h:67-72). A callback
reads and writes the device data `σ` of its own device and the environment.
`is_finished` is a read-only query in every implementation of the
repository. -/
structure animation_api (σ : Type) where
  on_start : Nat → σ → Env → σ × Env
  on_stop : σ → Env → σ × Env
  render_frame : σ → Env → σ × Env
  is_finished : σ → Bool

/-- Calls that an aggregator makes on its collaborators, recorded in call
order (ghost instrumentation; no C counterpart). -/
inductive Call where
  | start (dev : Nat) (request_duration_ms : Nat)
  | stop (dev : Nat)
  | render_frame (dev : Nat)
  | request_frames (frames : Nat)
  | ext_power (enable : Bool)
deriving DecidableEq, Repr

/-- Everything outside the aggregator's own `data`: the device data of every
animation device (indexed by device id), the environment, and the record of
calls made so far. -/
structure World (σ : Type) where
  devs : Nat → σ
  env : Env
  trace : List Call

/-- Source: `animation_start` (drivers/animation.h:79-84). -/
def animation_start {σ : Type} (api : Nat → animation_api σ) (dev : Nat)
    (request_duration_ms : Nat) (w : World σ) : World σ :=
  let r := (api dev).on_start request_duration_ms (w.devs dev) w.env
  { devs := Function.update w.devs dev r.1
    env := r.2
    trace := w.trace ++ [Call.start dev request_duration_ms] }

/-- Source: `animation_stop` (drivers/animation.h:86-90). -/
def animation_stop {σ : Type} (api : Nat → animation_api σ) (dev : Nat)
    (w : World σ) : World σ :=
  let r := (api dev).on_stop (w.devs dev) w.env
  { devs := Function.update w.devs dev r.1
    env := r.2
    trace := w.trace ++ [Call.stop dev] }

/-- Source: `animation_render_frame` (drivers/animation.h:92-98). -/
def animation_render_frame {σ : Type} (api : Nat → animation_api σ) (dev : Nat)
    (w : World σ) : World σ :=
  let r := (api dev).render_frame (w.devs dev) w.env
  { devs := Function.update w.devs dev r.1
    env := r.2
    trace := w.trace ++ [Call.render_frame dev] }

/-- Source: `animation_is_finished` (drivers/animation.h:100-104). -/
def animation_is_finished {σ : Type} (api : Nat → animation_api σ) (dev : Nat)
    (w : World σ) : Bool :=
  (api dev).is_finished (w.devs dev)

/-- A call of `zmk_animation_request_frames` made by an aggregator. -/
def World.request_frames {σ : Type} (frames : Nat) (w : World σ) : World σ :=
  { w with
    env := { w.env with sched := zmk_animation_request_frames frames w.env.sched }
    trace := w.trace ++ [Call.request_frames frames] }

/-! ## Composition combinator (`src/animation_compose.c`)

`k_mutex_lock(.., K_FOREVER)` / `k_mutex_unlock` are taken to succeed; the
embedding is of one thread of control. -/

/-- Source: `struct animation_compose_config` (animation_compose.c:19-24).
`num_animations` is generated as the length of `animations`
(animation_compose.c:227) and is kept as a derived value. -/
structure animation_compose_config where
  animations : List Nat
  durations : List Nat
  parallel : Bool
deriving DecidableEq, Repr

/-- The `uint8_t num_animations` field: the length of the `animations`
array. -/
def animation_compose_config.num_animations (config : animation_compose_config) : Nat :=
  config.animations.length % 256

/-- Source: `struct animation_compose_data` (animation_compose.c:26-30),
without the mutex. -/
structure animation_compose_data where
  running : Bool
  current_index : Nat
deriving DecidableEq, Repr

/-- A combinator device together with the world it acts on. The children are
devices of the world, named by id in `config.animations` (one device may be
listed more than once); their callbacks do not reach the combinator's own
`data`. -/
structure Compose (σ : Type) where
  data : animation_compose_data
  world : World σ

/-- The `for` loop of `render_frame_for_parallel` (animation_compose.c:38-44)
from index `i` with `k` iterations left; the accumulator carries
`still_running`. -/
def render_frame_for_parallel_loop {σ : Type} (api : Nat → animation_api σ)
    (config : animation_compose_config) :
    Nat → Nat → World σ × Bool → Option (World σ × Bool)
  | _, 0, acc => some acc
  | i, k + 1, (w, still_running) =>
    match config.animations[i]? with
    | none => none
    | some a =>
      if !animation_is_finished api a w then
        let w1 := animation_render_frame api a w
        render_frame_for_parallel_loop api config (i + 1) k
          (w1, !animation_is_finished api a w1)
      else
        render_frame_for_parallel_loop api config (i + 1) k (w, still_running)

/-- Source: `render_frame_for_parallel` (animation_compose.c:32-60). -/
def render_frame_for_parallel {σ : Type} (api : Nat → animation_api σ)
    (config : animation_compose_config) (st : Compose σ) : Option (Compose σ) :=
  match render_frame_for_parallel_loop api config 0 config.num_animations
      (st.world, false) with
  | none => none
  | some (w, still_running) =>
    if !still_running then
      some { data := { st.data with running := false }, world := w }
    else
      some { data := st.data, world := w }

/-- Source: `render_frame_for_sequential` (animation_compose.c:62-100). -/
def render_frame_for_sequential {σ : Type} (api : Nat → animation_api σ)
    (config : animation_compose_config) (st : Compose σ) : Option (Compose σ) :=
  let current := st.data.current_index
  match config.animations[current]? with
  | none => none
  | some a =>
    let w1 := animation_render_frame api a st.world
    if animation_is_finished api a w1 then
      if st.data.running && st.data.current_index == current then
        let next := current + 1
        if next ≥ config.num_animations then
          some { data := { running := false, current_index := 0 }, world := w1 }
        else
          match config.animations[next]?, config.durations[next]? with
          | some b, some d =>
            some { data := { st.data with current_index := next % 256 }
                   world := World.request_frames 1 (animation_start api b d w1) }
          | _, _ => none
      else
        some { data := st.data, world := w1 }
    else
      some { data := st.data, world := w1 }

/-- Source: `animation_compose_render_frame` (animation_compose.c:102-116). -/
def animation_compose_render_frame {σ : Type} (api : Nat → animation_api σ)
    (config : animation_compose_config) (st : Compose σ) : Option (Compose σ) :=
  if !st.data.running then some st
  else if config.parallel then render_frame_for_parallel api config st
  else render_frame_for_sequential api config st

/-- The `for` loop of `animation_compose_start` (animation_compose.c:137-144)
from index `i` with `k` iterations left. -/
def animation_compose_start_loop {σ : Type} (api : Nat → animation_api σ)
    (config : animation_compose_config) (request_duration_ms : Nat) :
    Nat → Nat → World σ → Option (World σ)
  | _, 0, w => some w
  | i, k + 1, w =>
    match config.animations[i]?, config.durations[i]? with
    | some a, some duration =>
      let duration :=
        if request_duration_ms > 0 && duration > request_duration_ms
        then request_duration_ms else duration
      animation_compose_start_loop api config request_duration_ms (i + 1) k
        (animation_start api a duration w)
    | _, _ => none

/-- Source: `animation_compose_start` (animation_compose.c:118-154). -/
def animation_compose_start {σ : Type} (api : Nat → animation_api σ)
    (config : animation_compose_config) (request_duration_ms : Nat)
    (st : Compose σ) : Option (Compose σ) :=
  if st.data.running then some st
  else if !st.data.running then
    let ub := if config.parallel then config.num_animations else 1
    match animation_compose_start_loop api config request_duration_ms 0 ub
        st.world with
    | none => none
    | some w =>
      some { data := { current_index := 0, running := true }
             world := World.request_frames 1 w }
  else some st

/-- The `for` loop of `animation_compose_stop` (animation_compose.c:169-173)
from index `i` with `k` iterations left. -/
def animation_compose_stop_loop {σ : Type} (api : Nat → animation_api σ)
    (config : animation_compose_config) : Nat → Nat → World σ → Option (World σ)
  | _, 0, w => some w
  | i, k + 1, w =>
    match config.animations[i]? with
    | none => none
    | some a =>
      animation_compose_stop_loop api config (i + 1) k (animation_stop api a w)

/-- Source: `animation_compose_stop` (animation_compose.c:156-186). -/
def animation_compose_stop {σ : Type} (api : Nat → animation_api σ)
    (config : animation_compose_config) (st : Compose σ) : Option (Compose σ) :=
  if !st.data.running then some st
  else
    let stopped : Option (World σ) :=
      if st.data.running then
        if config.parallel then
          animation_compose_stop_loop api config 0 config.num_animations st.world
        else
          match config.animations[st.data.current_index]? with
          | none => none
          | some a => some (animation_stop api a st.world)
      else some st.world
    match stopped with
    | none => none
    | some w => some { data := { current_index := 0, running := false }, world := w }

/-- Source: `animation_compose_is_finished` (animation_compose.c:188-191). -/
def animation_compose_is_finished {σ : Type} (st : Compose σ) : Bool :=
  !st.data.running

/-- A number of consecutive render passes on the combinator. -/
def compose_render_passes {σ : Type} (api : Nat → animation_api σ)
    (config : animation_compose_config) : Nat → Compose σ → Option (Compose σ)
  | 0, st => some st
  | k + 1, st =>
    match animation_compose_render_frame api config st with
    | none => none
    | some st1 => compose_render_passes api config k st1

/-- The child index that a render pass from `st` observes finished: the
combinator is running and its current child reports finished right after
being rendered. -/
def seq_observed_finished {σ : Type} (api : Nat → animation_api σ)
    (config : animation_compose_config) (st : Compose σ) : Option Nat :=
  if st.data.running then
    match config.animations[st.data.current_index]? with
    | none => none
    | some a =>
      if animation_is_finished api a (animation_render_frame api a st.world)
      then some st.data.current_index else none
  else none

/-- The child indices observed finished, in order, over a number of
consecutive render passes from `st`. -/
def seq_observed {σ : Type} (api : Nat → animation_api σ)
    (config : animation_compose_config) : Nat → Compose σ → List Nat
  | 0, _ => []
  | k + 1, st =>
    (seq_observed_finished api config st).toList ++
      (match animation_compose_render_frame api config st with
       | none => []
       | some st1 => seq_observed api config k st1)

/-- Example leaf device for concrete inputs: a frame countdown that `start`
loads with the requested duration, `render_frame` decrements, `stop` clears,
and that is finished at 0. It never touches the environment. -/
def countdown_api : animation_api Nat where
  on_start := fun ms _ env => (ms, env)
  on_stop := fun _ env => (0, env)
  render_frame := fun d env => (d - 1, env)
  is_finished := fun d => d == 0

/-- An idle environment: scheduler in its initial state, no pixels. -/
def Env.idle : Env := { sched := Sched.init, pixels := [] }

/-! ## Leaf effects: `stop` and `is_finished` -/

/-- Source: `struct animation_solid_data` (animation_solid.c:28-34). -/
structure animation_solid_data where
  counter : Nat
  animation_counter : Nat
  current_hsl : zmk_color_hsl
  current_rgb : zmk_color_rgb
deriving DecidableEq

/-- Source: `animation_solid_stop` (animation_solid.c:102-106). -/
def animation_solid_stop (data : animation_solid_data) : animation_solid_data :=
  { data with counter := 0 }

/-- Source: `animation_solid_is_finished` (animation_solid.c:108-111). -/
def animation_solid_is_finished (data : animation_solid_data) : Bool :=
  data.counter == 0

/-- Source: `struct animation_battery_status_data`
(animation_battery_level.c:44-48). -/
structure animation_battery_status_data where
  running : Bool
  counter : Nat
  last_alert_time : Nat
deriving DecidableEq, Repr

/-- Source: `animation_battery_status_stop`
(animation_battery_level.c:112-119); `uptime` is the value returned by
`k_uptime_get()`. -/
def animation_battery_status_stop (uptime : Nat)
    (data : animation_battery_status_data) : animation_battery_status_data :=
  { data with last_alert_time := uptime, running := false, counter := 0 }

/-- Source: `animation_battery_status_is_finished`
(animation_battery_level.c:121-125). -/
def animation_battery_status_is_finished
    (data : animation_battery_status_data) : Bool :=
  !data.running

/-- Source: `enum ble_connection_status` (animation_endpoint.c:42-46). -/
inductive ble_connection_status where
  | BLE_STATUS_OPEN
  | BLE_STATUS_DISCONNECTED
  | BLE_STATUS_CONNECTED
deriving DecidableEq, Repr

/-- Source: `struct animation_endpoint_data` (animation_endpoint.c:61-71).
`status` is `active_profile_status` on a central and `central_status` on a
split peripheral; `active_index` exists on a central only. -/
structure animation_endpoint_data where
  running : Bool
  counter : Nat
  blink_counter : Nat
  active_index : Int
  status : ble_connection_status
deriving DecidableEq, Repr

/-- Source: `animation_endpoint_stop` (animation_endpoint.c:279-285). -/
def animation_endpoint_stop (data : animation_endpoint_data) :
    animation_endpoint_data :=
  { data with running := false, counter := 0 }

/-- Source: `animation_endpoint_is_finished` (animation_endpoint.c:287-290). -/
def animation_endpoint_is_finished (data : animation_endpoint_data) : Bool :=
  !data.running

/-- Source: `struct animation_layer_status_data`
(animation_layer_status.c:48-53). -/
structure animation_layer_status_data where
  running : Bool
  counter : Nat
  layer_status : Nat
  last_set : Nat
deriving DecidableEq, Repr

/-- Source: `animation_layer_status_stop` (animation_layer_status.c:174-181). -/
def animation_layer_status_stop (data : animation_layer_status_data) :
    animation_layer_status_data :=
  { data with layer_status := 0, running := false, counter := 0 }

/-- Source: `animation_layer_status_is_finished`
(animation_layer_status.c:183-187). -/
def animation_layer_status_is_finished
    (data : animation_layer_status_data) : Bool :=
  !data.running

/-! ## Animation controller (`src/animation_control.c`): `stop`, `is_finished`

`lock_for_updating_animation` / `unlock_after_updating_animation` are taken
to succeed (they wait with `K_FOREVER`). -/

/-- Source: `struct animation_queue_record` (animation_control.c:29-33). -/
structure animation_queue_record where
  animation : Option Nat
  cancelable : Bool
  duration_ms : Nat
deriving DecidableEq, Repr

/-- Source: `struct animation_control_config` (animation_control.c:48-66),
without the work, settings and queue-buffer pointers; `que_size` is the
capacity of the message queue. -/
structure animation_control_config where
  powered_animations : List Nat
  battery_animations : List Nat
  behavior_animations : List Nat
  init_animation : Option Nat
  init_animation_duration_ms : Nat
  init_animation_delay_ms : Nat
  activation_animation : Option Nat
  activation_animation_duration_ms : Nat
  ext_power : Option Nat
  brightness_steps : Nat
  max_brightness : Nat
  que_size : Nat
deriving DecidableEq, Repr

/-- Source: `struct animation_control_save_data` (animation_control.c:68-74). -/
structure animation_control_save_data where
  active : Bool
  powered_brightness : Nat
  battery_brightness : Nat
  current_powered_animation : Nat
  current_battery_animation : Nat
deriving DecidableEq, Repr

/-- Source: `struct animation_control_data` (animation_control.c:76-92),
without the mutex. -/
structure animation_control_data where
  s : animation_control_save_data
  running : Bool
  running_animation : animation_queue_record
  change_animation_if_cancelable : Bool
  last_powered : Bool
  playing_adhoc_animation : Bool
deriving DecidableEq, Repr

/-- A controller device together with what it acts on: its message queue
(oldest record first), the state of the external power rail, and the
world. -/
structure Control (σ : Type) where
  data : animation_control_data
  que : List animation_queue_record
  ext_power_on : Bool
  world : World σ

/-- Zephyr `device_is_ready` on a possibly-NULL device pointer: `ready` tells
which devices initialised successfully; `NULL` is not ready. -/
def device_is_ready (ready : Nat → Bool) : Option Nat → Bool
  | none => false
  | some dev => ready dev

/-- Source: `set_power` (animation_control.c:191-202); `ext_power_enable` /
`ext_power_disable` are taken to succeed. -/
def set_power {σ : Type} (ready : Nat → Bool) (config : animation_control_config)
    (enable : Bool) (st : Control σ) : Control σ :=
  if device_is_ready ready config.ext_power then
    { st with
      ext_power_on := enable
      world := { st.world with trace := st.world.trace ++ [Call.ext_power enable] } }
  else st

/-- The record `{ .cancelable = true }` with every other field zero. -/
def animation_queue_record.empty : animation_queue_record :=
  { animation := none, cancelable := true, duration_ms := 0 }

/-- Source: `animation_control_api_impl_is_finished`
(animation_control.c:310-313). -/
def animation_control_api_impl_is_finished {σ : Type} (st : Control σ) : Bool :=
  !st.data.running

/-- Source: `animation_control_api_impl_stop` (animation_control.c:332-363). -/
def animation_control_api_impl_stop {σ : Type} (api : Nat → animation_api σ)
    (ready : Nat → Bool) (config : animation_control_config)
    (st : Control σ) : Control σ :=
  if !st.data.running then st
  else if st.data.running then
    let current := st.data.running_animation
    let w1 :=
      match current.animation with
      | some a => animation_stop api a st.world
      | none => st.world
    let st1 : Control σ :=
      { st with
        world := w1
        data := { st.data with running_animation := animation_queue_record.empty } }
    let st2 := set_power ready config false st1
    { st2 with data := { st2.data with running := false } }
  else st

/-- Whether a recorded call is a `render_frame` call. -/
def Call.is_render_frame : Call → Bool
  | .render_frame _ => true
  | _ => false

/-- Whether a recorded call is a `start` call. -/
def Call.is_start : Call → Bool
  | .start _ _ => true
  | _ => false

/-- A world with the given device data, an idle environment and no calls
recorded. -/
def World.ofDevs {σ : Type} (devs : Nat → σ) : World σ :=
  { devs := devs, env := Env.idle, trace := [] }

/-- Example configuration: sequential combinator over devices 0 and 1 with
configured durations 10 and 5. -/
def example_sequential : animation_compose_config :=
  { animations := [0, 1], durations := [10, 5], parallel := false }

/-- Example configuration: parallel combinator over devices 0 and 1 with
configured durations 10 and 5. -/
def example_parallel : animation_compose_config :=
  { animations := [0, 1], durations := [10, 5], parallel := true }

/-- Example state: a stopped combinator over idle countdown devices. -/
def example_stopped : Compose Nat :=
  { data := { running := false, current_index := 0 }
    world := World.ofDevs (fun _ => 0) }

/-- Example state: a running controller whose current animation is device 0,
with an empty queue and the power rail on. -/
def example_control : Control Nat :=
  { data :=
      { s := { active := true, powered_brightness := 1, battery_brightness := 1
               current_powered_animation := 0, current_battery_animation := 0 }
        running := true
        running_animation := { animation := some 0, cancelable := true
                               duration_ms := ANIMATION_DURATION_FOREVER }
        change_animation_if_cancelable := false
        last_powered := true
        playing_adhoc_animation := false }
    que := []
    ext_power_on := true
    world := World.ofDevs (fun _ => 3) }

/-- Example controller configuration: one animation per power source, a power
rail on device 9, four brightness steps, queue capacity 2. -/
def example_control_config : animation_control_config :=
  { powered_animations := [0], battery_animations := [1], behavior_animations := []
    init_animation := none, init_animation_duration_ms := 0
    init_animation_delay_ms := 0
    activation_animation := none, activation_animation_duration_ms := 0
    ext_power := some 9, brightness_steps := 4, max_brightness := 255
    que_size := 2 }

/-! ## Animation controller (`src/animation_control.c`): operations

The value of `is_powered()` (the USB connection state, an input from outside)
is the parameter `usb_powered` of every operation that reads it. Saving the
settings (`animation_control_save_settings`) writes `data.s` out later and
changes no controller state; it is not represented. -/

/-- Source: `enum animation_control_power_source`
(drivers/animation_control.h:18-22). -/
inductive animation_control_power_source where
  | ANIMATION_CONTROL_POWER_SOURCE_USB
  | ANIMATION_CONTROL_POWER_SOURCE_BATTERY
  | ANIMATION_CONTROL_POWER_SOURCE_CURRENT
deriving DecidableEq, Repr

/-- Source: `select_powered` (animation_control.c:484-489). -/
def select_powered (usb_powered : Bool) :
    animation_control_power_source → Bool
  | .ANIMATION_CONTROL_POWER_SOURCE_USB => true
  | .ANIMATION_CONTROL_POWER_SOURCE_BATTERY => false
  | .ANIMATION_CONTROL_POWER_SOURCE_CURRENT => usb_powered

/-- Source: `get_animation_for_current_power_state`
(animation_control.c:164-173). `none` is an out-of-bounds array read. -/
def get_animation_for_current_power_state (config : animation_control_config)
    (data : animation_control_data) : Option Nat :=
  if data.last_powered then
    config.powered_animations[data.s.current_powered_animation]?
  else
    config.battery_animations[data.s.current_battery_animation]?

/-- The lock section of `change_animation` (animation_control.c:269-307):
stop the current animation, then either go idle with the power rail off or
install and start `next`. -/
def change_animation_set {σ : Type} (api : Nat → animation_api σ)
    (ready : Nat → Bool) (config : animation_control_config)
    (next : animation_queue_record) (st : Control σ) : Control σ :=
  if st.data.running then
    let current := st.data.running_animation
    let st1 : Control σ :=
      match current.animation with
      | some a => { st with world := animation_stop api a st.world }
      | none => st
    if !device_is_ready ready next.animation then
      let st2 := set_power ready config false st1
      { st2 with
        data := { st2.data with running_animation := animation_queue_record.empty } }
    else
      match next.animation with
      | none => st1
      | some a =>
        let st2 : Control σ :=
          { st1 with data := { st1.data with running_animation := next } }
        let st3 := set_power ready config true st2
        { st3 with
          world := World.request_frames 1
            (animation_start api a next.duration_ms st3.world) }
  else st

/-- The part of `change_animation` shared by a record taken from the
parameter and a record taken from the queue (animation_control.c:234-240 and
247-253), followed by the lock section. -/
def change_animation_adhoc {σ : Type} (api : Nat → animation_api σ)
    (ready : Nat → Bool) (config : animation_control_config)
    (next : animation_queue_record) (st : Control σ) : Control σ :=
  let st1 : Control σ :=
    if device_is_ready ready next.animation then st
    else { st with world := World.request_frames 1 st.world }
  let st2 : Control σ :=
    { st1 with data := { st1.data with playing_adhoc_animation := true } }
  change_animation_set api ready config next st2

/-- Source: `change_animation` (animation_control.c:213-308). `k_msgq_get`
on a non-empty queue removes and returns the oldest record. -/
def change_animation {σ : Type} (api : Nat → animation_api σ)
    (ready : Nat → Bool) (config : animation_control_config)
    (usb_powered : Bool)
    (next_animation_optional : Option animation_queue_record)
    (st : Control σ) : Option (Control σ) :=
  if !st.data.s.active then some st
  else if !st.data.running then some st
  else
    let st0 : Control σ :=
      { st with
        data := { st.data with
                  change_animation_if_cancelable := false
                  last_powered := usb_powered } }
    let current := st0.data.running_animation
    match next_animation_optional with
    | some next => some (change_animation_adhoc api ready config next st0)
    | none =>
      match st0.que with
      | next :: rest =>
        some (change_animation_adhoc api ready config next { st0 with que := rest })
      | [] =>
        match get_animation_for_current_power_state config st0.data with
        | none => none
        | some a =>
          let next : animation_queue_record :=
            { animation := some a, cancelable := true
              duration_ms := ANIMATION_DURATION_FOREVER }
          if current.animation == next.animation
              && !st0.data.playing_adhoc_animation then
            some st0
          else
            some (change_animation_set api ready config next
              { st0 with data := { st0.data with playing_adhoc_animation := false } })

/-- Source: `animation_control_api_impl_start` (animation_control.c:315-330). -/
def animation_control_api_impl_start {σ : Type} (api : Nat → animation_api σ)
    (ready : Nat → Bool) (config : animation_control_config)
    (usb_powered : Bool) (st : Control σ) : Option (Control σ) :=
  if !st.data.s.active then some st
  else if st.data.running then some st
  else
    change_animation api ready config usb_powered none
      { st with data := { st.data with running := true } }

/-- The brightness scaling of `animation_control_api_impl_render_frame`
(animation_control.c:386-397) on one pixel, with exact rationals in place of
`float`. -/
def scale_pixel (multiplier : ℚ) (p : animation_pixel) : animation_pixel :=
  { p with value := { r := p.value.r * multiplier
                      g := p.value.g * multiplier
                      b := p.value.b * multiplier } }

/-- Source: `animation_control_api_impl_render_frame`
(animation_control.c:365-409). -/
def animation_control_api_impl_render_frame {σ : Type}
    (api : Nat → animation_api σ) (ready : Nat → Bool)
    (config : animation_control_config) (usb_powered : Bool)
    (st : Control σ) : Option (Control σ) :=
  if !st.data.s.active then some st
  else if !st.data.running then some st
  else
    let current := st.data.running_animation
    let st1 : Control σ :=
      match current.animation with
      | none => st
      | some a =>
        let w := animation_render_frame api a st.world
        let brightness :=
          if st.data.last_powered then st.data.s.powered_brightness
          else st.data.s.battery_brightness
        if brightness < config.brightness_steps then
          let fbrightness : ℚ := (brightness : ℚ) / (config.brightness_steps : ℚ)
          let fmax_brightness : ℚ := (config.max_brightness : ℚ) / 255
          let multiplier := fbrightness * fmax_brightness
          { st with
            world := { w with
                       env := { w.env with
                                pixels := w.env.pixels.map (scale_pixel multiplier) } } }
        else { st with world := w }
    let animation_finished :=
      match current.animation with
      | some a => animation_is_finished api a st1.world
      | none => true
    let should_cancel :=
      current.cancelable
        && (st1.data.change_animation_if_cancelable || decide (st1.que.length > 0))
    if animation_finished || should_cancel then
      change_animation api ready config usb_powered none st1
    else some st1

/-- Zephyr errno `ENOMSG`, returned negated by `k_msgq_put(.., K_NO_WAIT)` on
a full queue. -/
def ENOMSG : Int := 35

/-- Source: `animation_control_api_impl_enqueue_animation`
(animation_control.c:411-440). The result is the new state and the returned
status. `k_msgq_put(.., K_NO_WAIT)` appends when fewer than `que_size`
records are queued and fails with `-ENOMSG` otherwise. -/
def animation_control_api_impl_enqueue_animation {σ : Type}
    (config : animation_control_config) (animation : Option Nat)
    (cancelable : Bool) (duration_ms : Nat) (st : Control σ) : Control σ × Int :=
  if !st.data.s.active then (st, 0)
  else if !st.data.running then (st, 0)
  else
    let record : animation_queue_record :=
      { animation := animation, cancelable := cancelable, duration_ms := duration_ms }
    if st.que.length < config.que_size then
      ({ st with que := st.que ++ [record]
                 world := World.request_frames 1 st.world }, 0)
    else (st, -ENOMSG)

/-- Source: `animation_control_api_impl_play_now`
(animation_control.c:442-465). -/
def animation_control_api_impl_play_now {σ : Type} (api : Nat → animation_api σ)
    (ready : Nat → Bool) (config : animation_control_config)
    (usb_powered : Bool) (animation : Option Nat) (cancelable : Bool)
    (duration_ms : Nat) (st : Control σ) : Option (Control σ × Int) :=
  if !st.data.s.active then some (st, 0)
  else if !st.data.running then some (st, 0)
  else
    let record : animation_queue_record :=
      { animation := animation, cancelable := cancelable, duration_ms := duration_ms }
    match change_animation api ready config usb_powered (some record) st with
    | none => none
    | some st1 => some (st1, 0)

/-- Source: `animation_control_api_impl_set_enabled`
(animation_control.c:467-482); `animation_start(dev, ..)` and
`animation_stop(dev)` on the controller itself dispatch to its own `start`
and `stop`. -/
def animation_control_api_impl_set_enabled {σ : Type}
    (api : Nat → animation_api σ) (ready : Nat → Bool)
    (config : animation_control_config) (usb_powered : Bool) (enabled : Bool)
    (st : Control σ) : Option (Control σ) :=
  if st.data.s.active == enabled then some st
  else
    let st1 : Control σ :=
      { st with data := { st.data with s := { st.data.s with active := enabled } } }
    if st1.data.s.active then
      animation_control_api_impl_start api ready config usb_powered st1
    else
      some (animation_control_api_impl_stop api ready config st1)

/-- The loop `while (index_offset < 0) index_offset += (int)num_animations;`
of `animation_control_api_impl_set_next_animation` (animation_control.c:506)
with a bound on the number of iterations; `none` when the bound is used up
with the offset still negative. -/
def set_next_animation_loop (num_animations : Nat) : Nat → Int → Option Int
  | 0, index_offset => if index_offset < 0 then none else some index_offset
  | fuel + 1, index_offset =>
    if index_offset < 0 then
      set_next_animation_loop num_animations fuel (index_offset + num_animations)
    else some index_offset

/-- Source: `animation_control_api_impl_set_next_animation`
(animation_control.c:491-518). The loop gets `|index_offset|` iterations,
which is enough whenever `num_animations ≥ 1`; with `num_animations = 0` the
C loop does not terminate on a negative offset and `%` divides by zero on a
positive one: both are `none`. -/
def animation_control_api_impl_set_next_animation {σ : Type}
    (config : animation_control_config) (usb_powered : Bool)
    (index_offset : Int) (power_source : animation_control_power_source)
    (st : Control σ) : Option (Control σ) :=
  if index_offset = 0 then some st
  else
    let powered := select_powered usb_powered power_source
    let current_animation :=
      if powered then st.data.s.current_powered_animation
      else st.data.s.current_battery_animation
    let num_animations :=
      if powered then config.powered_animations.length
      else config.battery_animations.length
    match set_next_animation_loop num_animations index_offset.natAbs index_offset with
    | none => none
    | some index_offset =>
      if num_animations = 0 then none
      else
        let index_offset := index_offset.toNat % num_animations
        let next_animation := ((current_animation + index_offset) % num_animations) % 256
        let s1 : animation_control_save_data :=
          if powered then { st.data.s with current_powered_animation := next_animation }
          else { st.data.s with current_battery_animation := next_animation }
        some { st with
               data := { st.data with s := s1, change_animation_if_cancelable := true }
               world := World.request_frames 1 st.world }

/-- Byte `offset` of the object representation of
`struct animation_control_data` (animation_control.c:68-92) on the target
ABI (32-bit, little-endian, `uint8_t` and `bool` members byte-aligned):
`s.active` 0, `s.powered_brightness` 1, `s.battery_brightness` 2,
`s.current_powered_animation` 3, `s.current_battery_animation` 4, `running`
5, padding 6-7 (static storage, zero), `running_animation` from 8 on. Only
offsets 0-7 are used. -/
def control_data_byte (data : animation_control_data) (offset : Nat) : Nat :=
  match offset with
  | 0 => if data.s.active then 1 else 0
  | 1 => data.s.powered_brightness % 256
  | 2 => data.s.battery_brightness % 256
  | 3 => data.s.current_powered_animation % 256
  | 4 => data.s.current_battery_animation % 256
  | 5 => if data.running then 1 else 0
  | _ => 0

/-- Store one byte at `offset` (0-7) of `struct animation_control_data`; a
non-zero byte in a `bool` reads as true; the padding stays zero. -/
def control_data_set_byte (data : animation_control_data) (offset : Nat)
    (v : Nat) : animation_control_data :=
  match offset with
  | 0 => { data with s := { data.s with active := v % 256 != 0 } }
  | 1 => { data with s := { data.s with powered_brightness := v % 256 } }
  | 2 => { data with s := { data.s with battery_brightness := v % 256 } }
  | 3 => { data with s := { data.s with current_powered_animation := v % 256 } }
  | 4 => { data with s := { data.s with current_battery_animation := v % 256 } }
  | 5 => { data with running := v % 256 != 0 }
  | _ => data

/-- Read through a `size_t *` (4 bytes, little-endian) that points at byte
`offset` of `struct animation_control_data`. -/
def control_data_load_size_t (data : animation_control_data) (offset : Nat) : Nat :=
  control_data_byte data offset
    + 256 * control_data_byte data (offset + 1)
    + 65536 * control_data_byte data (offset + 2)
    + 16777216 * control_data_byte data (offset + 3)

/-- Write through a `size_t *` (4 bytes, little-endian) that points at byte
`offset` of `struct animation_control_data`. -/
def control_data_store_size_t (data : animation_control_data) (offset : Nat)
    (v : Nat) : animation_control_data :=
  control_data_set_byte
    (control_data_set_byte
      (control_data_set_byte
        (control_data_set_byte data offset v)
        (offset + 1) (v / 256))
      (offset + 2) (v / 65536))
    (offset + 3) (v / 16777216)

/-- Source: `animation_control_api_impl_set_animation`
(animation_control.c:520-541). `current_animation` is declared `size_t *`
and is pointed at the `uint8_t` member
`s.current_powered_animation` (offset 3) or `s.current_battery_animation`
(offset 4), so the comparison and the assignment go through four bytes.
`none` is `index % 0`. -/
def animation_control_api_impl_set_animation {σ : Type}
    (config : animation_control_config) (usb_powered : Bool) (index : Nat)
    (power_source : animation_control_power_source) (st : Control σ) :
    Option (Control σ) :=
  let powered := select_powered usb_powered power_source
  let current_animation := if powered then 3 else 4
  let num_animations :=
    if powered then config.powered_animations.length
    else config.battery_animations.length
  if num_animations = 0 then none
  else
    let index := index % num_animations
    if control_data_load_size_t st.data current_animation ≠ index then
      let data1 := control_data_store_size_t st.data current_animation index
      some { st with
             data := { data1 with change_animation_if_cancelable := true }
             world := World.request_frames 1 st.world }
    else some st

/-- Source: `animation_control_api_impl_change_brightness`
(animation_control.c:543-573). `int` arithmetic is exact integer arithmetic
(no overflow when `current + offset` is representable). -/
def animation_control_api_impl_change_brightness {σ : Type}
    (api : Nat → animation_api σ) (ready : Nat → Bool)
    (config : animation_control_config) (usb_powered : Bool)
    (brightness_offset : Int) (power_source : animation_control_power_source)
    (st : Control σ) : Option (Control σ) :=
  let powered := select_powered usb_powered power_source
  let current_brightness : Int :=
    if powered then st.data.s.powered_brightness else st.data.s.battery_brightness
  let next_brightness : Int := current_brightness + brightness_offset
  let next_brightness : Int := if next_brightness < 0 then 0 else next_brightness
  let next_brightness : Int :=
    if next_brightness > config.brightness_steps then config.brightness_steps
    else next_brightness
  if current_brightness ≠ next_brightness then
    let stored := next_brightness.toNat % 256
    let s1 : animation_control_save_data :=
      if powered then { st.data.s with powered_brightness := stored }
      else { st.data.s with battery_brightness := stored }
    let st1 : Control σ := { st with data := { st.data with s := s1 } }
    if next_brightness = 0 then
      some (animation_control_api_impl_stop api ready config st1)
    else if current_brightness = 0 then
      animation_control_api_impl_start api ready config usb_powered st1
    else some st1
  else some st

/-- The brightness of the power source in use (the one `render_frame`
scales with). -/
def brightness_in_use (data : animation_control_data) : Nat :=
  if data.last_powered then data.s.powered_brightness else data.s.battery_brightness

/-- Example controller configuration: two animations per power source
(devices 0, 1 on USB power and 2, 3 on battery), a power rail on device 9,
four brightness steps, queue capacity 2. -/
def example_control_config2 : animation_control_config :=
  { powered_animations := [0, 1], battery_animations := [2, 3]
    behavior_animations := [4, 5, 6]
    init_animation := none, init_animation_duration_ms := 0
    init_animation_delay_ms := 0
    activation_animation := none, activation_animation_duration_ms := 0
    ext_power := some 9, brightness_steps := 4, max_brightness := 255
    que_size := 2 }

/-- Example state: the controller as statically initialised
(animation_control.c:792-801): active, both brightness values 1, both indices
0, not running, nothing current, queue empty, power rail off. -/
def example_control_init : Control Nat :=
  { data :=
      { s := { active := true, powered_brightness := 1, battery_brightness := 1
               current_powered_animation := 0, current_battery_animation := 0 }
        running := false
        running_animation := { animation := none, cancelable := false, duration_ms := 0 }
        change_animation_if_cancelable := false
        last_powered := false
        playing_adhoc_animation := false }
    que := []
    ext_power_on := false
    world := World.ofDevs (fun _ => 0) }

/-- The brightness field that an operation aimed at `powered` reads and
writes (`powered ? &data->s.powered_brightness : &data->s.battery_brightness`). -/
def selected_brightness (powered : Bool) (s : animation_control_save_data) : Nat :=
  if powered then s.powered_brightness else s.battery_brightness

/-- The animation index field that an operation aimed at `powered` reads and
writes. -/
def selected_index (powered : Bool) (s : animation_control_save_data) : Nat :=
  if powered then s.current_powered_animation else s.current_battery_animation

/-- The number of animations configured for a power source
(`powered ? config->powered_animations_size : config->battery_animations_size`). -/
def animation_count (config : animation_control_config) (powered : Bool) : Nat :=
  if powered then config.powered_animations.length
  else config.battery_animations.length

/-- Example state: an active controller stopped by brightness: USB
brightness 0 (of 4 steps), not running, nothing current, power rail off. -/
def example_control_dark : Control Nat :=
  { data :=
      { s := { active := true, powered_brightness := 0, battery_brightness := 1
               current_powered_animation := 0, current_battery_animation := 0 }
        running := false
        running_animation := animation_queue_record.empty
        change_animation_if_cancelable := false
        last_powered := true
        playing_adhoc_animation := false }
    que := []
    ext_power_on := false
    world := World.ofDevs (fun _ => 0) }

/-- Example ad-hoc requests A, B, C: devices 4, 5, 6, not cancelable. -/
def example_record_A : animation_queue_record :=
  { animation := some 4, cancelable := false, duration_ms := 100 }

/-- Example ad-hoc request B. -/
def example_record_B : animation_queue_record :=
  { animation := some 5, cancelable := false, duration_ms := 200 }

/-- Example ad-hoc request C. -/
def example_record_C : animation_queue_record :=
  { animation := some 6, cancelable := false, duration_ms := 300 }

/-- `enqueue` of a record on a controller with the two-animation example
configuration (queue capacity 2). -/
def example_enqueue (record : animation_queue_record) (st : Control Nat) :
    Control Nat × Int :=
  animation_control_api_impl_enqueue_animation example_control_config2
    record.animation record.cancelable record.duration_ms st

/-! ## Animation controller: index entry points, public wrappers, runs -/

/-- Zephyr errno `EINVAL`. -/
def EINVAL : Int := 22

/-- Source: `animation_control_api_impl_enqueue_by_index`
(animation_control.c:575-588). -/
def animation_control_api_impl_enqueue_by_index {σ : Type}
    (config : animation_control_config) (index : Nat) (cancelable : Bool)
    (duration_ms : Nat) (st : Control σ) : Control σ × Int :=
  if h : index ≥ config.behavior_animations.length then (st, -EINVAL)
  else
    let animation := config.behavior_animations[index]
    animation_control_api_impl_enqueue_animation config (some animation) cancelable
      duration_ms st

/-- Source: `animation_control_api_impl_play_now_by_index`
(animation_control.c:590-602). -/
def animation_control_api_impl_play_now_by_index {σ : Type}
    (api : Nat → animation_api σ) (ready : Nat → Bool)
    (config : animation_control_config) (usb_powered : Bool) (index : Nat)
    (cancelable : Bool) (duration_ms : Nat) (st : Control σ) :
    Option (Control σ × Int) :=
  if h : index ≥ config.behavior_animations.length then some (st, -EINVAL)
  else
    let animation := config.behavior_animations[index]
    animation_control_api_impl_play_now api ready config usb_powered (some animation)
      cancelable duration_ms st

/-- Source: `animation_control_api_impl_stop_by_index`
(animation_control.c:604-618). -/
def animation_control_api_impl_stop_by_index {σ : Type}
    (api : Nat → animation_api σ) (config : animation_control_config)
    (index : Nat) (st : Control σ) : Control σ × Int :=
  if h : index ≥ config.behavior_animations.length then (st, -EINVAL)
  else
    let animation := config.behavior_animations[index]
    ({ st with world := World.request_frames 1 (animation_stop api animation st.world) }, 0)

/-- Source: `animation_control_enqueue_animation`
(drivers/animation_control.h:132-138): calls `api->enqueue_animation`, which
the controller's api table (animation_control.c:696-713) binds to
`animation_control_api_impl_enqueue_animation`. -/
def animation_control_enqueue_animation {σ : Type}
    (config : animation_control_config) (animation : Option Nat)
    (cancelable : Bool) (duration_ms : Nat) (st : Control σ) : Control σ × Int :=
  animation_control_api_impl_enqueue_animation config animation cancelable
    duration_ms st

/-- Source: `animation_control_play_now`
(drivers/animation_control.h:140-147): the body calls
`api->enqueue_animation(dev, animation, cancelable, duration_ms)`. -/
def animation_control_play_now {σ : Type}
    (config : animation_control_config) (animation : Option Nat)
    (cancelable : Bool) (duration_ms : Nat) (st : Control σ) : Control σ × Int :=
  animation_control_api_impl_enqueue_animation config animation cancelable
    duration_ms st

/-- The first half of `animation_control_api_impl_render_frame`
(animation_control.c:379-398) on a running controller: render the current
animation, if any, and scale the pixels by the brightness in use. -/
def control_render_current {σ : Type} (api : Nat → animation_api σ)
    (config : animation_control_config) (st : Control σ) : Control σ :=
  match st.data.running_animation.animation with
  | none => st
  | some a =>
    let w := animation_render_frame api a st.world
    let brightness :=
      if st.data.last_powered then st.data.s.powered_brightness
      else st.data.s.battery_brightness
    if brightness < config.brightness_steps then
      let fbrightness : ℚ := (brightness : ℚ) / (config.brightness_steps : ℚ)
      let fmax_brightness : ℚ := (config.max_brightness : ℚ) / 255
      let multiplier := fbrightness * fmax_brightness
      { st with
        world := { w with
                   env := { w.env with
                            pixels := w.env.pixels.map (scale_pixel multiplier) } } }
    else { st with world := w }

/-- Follows the spec's words (§4.4 `change_animation`, priority order): the
record selected next is the override if one is given, else the head of the
ad-hoc queue if it is non-empty, else the animation assigned to the current
power source, infinite-duration and cancelable. `none` when the stored index
names no animation. -/
def spec_selected_record {σ : Type} (config : animation_control_config)
    (usb_powered : Bool) (override : Option animation_queue_record)
    (st : Control σ) : Option animation_queue_record :=
  match override with
  | some r => some r
  | none =>
    match st.que with
    | r :: _ => some r
    | [] =>
      (if usb_powered then
          config.powered_animations[st.data.s.current_powered_animation]?
        else
          config.battery_animations[st.data.s.current_battery_animation]?).map
        (fun a => { animation := some a, cancelable := true
                    duration_ms := ANIMATION_DURATION_FOREVER })

/-- Follows the spec's words: the queue after a selection; only a selection
from the queue consumes a record, its head. -/
def spec_remaining_queue {σ : Type} (override : Option animation_queue_record)
    (st : Control σ) : List animation_queue_record :=
  match override with
  | some _ => st.que
  | none => st.que.tail

/-- Whether `change_animation` takes its record from the parameter or from
the queue (an ad-hoc record) rather than from the power state. -/
def selects_adhoc {σ : Type} (override : Option animation_queue_record)
    (st : Control σ) : Bool :=
  override.isSome || !st.que.isEmpty

/-- The `animation_stop` call made on the current record, if it has an
animation. -/
def stop_calls (current : animation_queue_record) : List Call :=
  match current.animation with
  | some a => [Call.stop a]
  | none => []

/-- The power-rail call made by `set_power`, if the rail device is ready. -/
def power_calls (ready : Nat → Bool) (config : animation_control_config)
    (enable : Bool) : List Call :=
  if device_is_ready ready config.ext_power then [Call.ext_power enable] else []

/-- Operations on the controller, with their arguments and the USB power
state they find. -/
inductive ControlOp where
  | start (usb_powered : Bool)
  | stop
  | set_enabled (usb_powered : Bool) (enabled : Bool)
  | change_brightness (usb_powered : Bool) (brightness_offset : Int)
      (power_source : animation_control_power_source)
  | change_animation (usb_powered : Bool)
      (next_animation_optional : Option animation_queue_record)
  | render_frame (usb_powered : Bool)
  | enqueue (animation : Option Nat) (cancelable : Bool) (duration_ms : Nat)
  | play_now (usb_powered : Bool) (animation : Option Nat) (cancelable : Bool)
      (duration_ms : Nat)
deriving DecidableEq, Repr

/-- One controller operation. -/
def control_step {σ : Type} (api : Nat → animation_api σ) (ready : Nat → Bool)
    (config : animation_control_config) (st : Control σ) :
    ControlOp → Option (Control σ)
  | .start usb => animation_control_api_impl_start api ready config usb st
  | .stop => some (animation_control_api_impl_stop api ready config st)
  | .set_enabled usb e => animation_control_api_impl_set_enabled api ready config usb e st
  | .change_brightness usb o src =>
    animation_control_api_impl_change_brightness api ready config usb o src st
  | .change_animation usb next => change_animation api ready config usb next st
  | .render_frame usb => animation_control_api_impl_render_frame api ready config usb st
  | .enqueue a c d =>
    some (animation_control_api_impl_enqueue_animation config a c d st).1
  | .play_now usb a c d =>
    (animation_control_api_impl_play_now api ready config usb a c d st).map Prod.fst

/-- A sequence of controller operations; `none` when one of them reads an
array out of bounds. -/
def control_run {σ : Type} (api : Nat → animation_api σ) (ready : Nat → Bool)
    (config : animation_control_config) : Control σ → List ControlOp → Option (Control σ)
  | st, [] => some st
  | st, op :: ops =>
    match control_step api ready config st op with
    | none => none
    | some st1 => control_run api ready config st1 ops

/-- The controller invariant "not running implies no current animation". -/
def Control.idle_when_stopped {σ : Type} (st : Control σ) : Prop :=
  st.data.running = false → st.data.running_animation.animation = none

/-- Example state: a running controller on USB power at full brightness
(4 of 4 steps) whose current animation is device 0, with one white pixel in
the shared buffer. -/
def example_control_bright : Control Nat :=
  { data :=
      { s := { active := true, powered_brightness := 4, battery_brightness := 1
               current_powered_animation := 0, current_battery_animation := 0 }
        running := true
        running_animation := { animation := some 0, cancelable := false
                               duration_ms := ANIMATION_DURATION_FOREVER }
        change_animation_if_cancelable := false
        last_powered := true
        playing_adhoc_animation := false }
    que := []
    ext_power_on := true
    world := { devs := fun _ => 3
               env := { sched := Sched.init
                        pixels := [{ position_x := 0, position_y := 0
                                     value := { r := 1, g := 1, b := 1 } }] }
               trace := [] } }

/-- Example controller configuration: as `example_control_config`, with
`max_brightness` 128. -/
def example_control_config_capped : animation_control_config :=
  { example_control_config with max_brightness := 128 }

/-- Follows the spec's words (§4.4 `render_frame`): the factor every colour
channel is multiplied by, `min(1, brightness/steps) * (max_brightness/255)`,
as an exact rational. -/
def spec_brightness_multiplier (config : animation_control_config)
    (brightness : Nat) : ℚ :=
  min 1 ((brightness : ℚ) / (config.brightness_steps : ℚ))
    * ((config.max_brightness : ℚ) / 255)

/-! ## Frame scheduler: render pass and pixel distance (`src/animation.c`) -/

/-- The reset of one pixel at the end of a render pass
(animation.c:121-124). -/
def reset_pixel (p : animation_pixel) : animation_pixel :=
  { p with value := { r := 0, g := 0, b := 0 } }

/-- The `for` loop of `zmk_animation_tick` over the pixel buffer
(animation.c:118-125) from index `i` with `k` iterations left. The conversion
of each pixel into `px_buffer` (`zmk_rgb_to_led_rgb`) and the hand-over to
the LED strips write output buffers only and are not represented. -/
def zmk_animation_tick_loop :
    Nat → Nat → List animation_pixel → Option (List animation_pixel)
  | _, 0, pixels => some pixels
  | i, k + 1, pixels =>
    match pixels[i]? with
    | none => none
    | some p => zmk_animation_tick_loop (i + 1) k (pixels.set i (reset_pixel p))

/-- Source: `zmk_animation_tick` (animation.c:115-135), the render pass.
`pixels_size` is the length of the static `pixels` array. -/
def zmk_animation_tick {σ : Type} (api : Nat → animation_api σ)
    (animation_root : Nat) (w : World σ) : Option (World σ) :=
  let pixels_size := w.env.pixels.length
  let w1 := animation_render_frame api animation_root w
  match zmk_animation_tick_loop 0 pixels_size w1.env.pixels with
  | none => none
  | some pixels => some { w1 with env := { w1.env with pixels := pixels } }

/-- The position of a pixel. -/
def animation_pixel.position (p : animation_pixel) : Nat × Nat :=
  (p.position_x, p.position_y)

/-- Modulus of `size_t` on the 32-bit target. -/
def SIZE_MOD : Nat := 2 ^ 32

/-- Source: `zmk_animation_get_pixel_distance` (animation.c:103-111) on the
table `pixel_distance`. `fuel` bounds the depth of the recursion (the call
with swapped arguments). -/
def zmk_animation_get_pixel_distance (pixel_distance : List Nat) :
    Nat → Nat → Nat → Option Nat
  | 0, _, _ => none
  | fuel + 1, pixel_idx, other_pixel_idx =>
    if pixel_idx < other_pixel_idx then
      zmk_animation_get_pixel_distance pixel_distance fuel other_pixel_idx pixel_idx
    else
      pixel_distance[((((pixel_idx + 1) * pixel_idx) % SIZE_MOD) >>> 1
        + other_pixel_idx) % SIZE_MOD]?

/-- The inner `for` loop of the prefill in `zmk_animation_init`
(animation.c:206-213) for row `i`, from column `j` with `m` iterations left.
The state is the running cell index `k` and the table; `distance i j` is the
`uint8_t` value the square-root expression yields for the pair (`sqrt` and
`pow` are library functions). -/
def zmk_animation_init_inner (distance : Nat → Nat → Nat) (i : Nat) :
    Nat → Nat → Nat × List Nat → Option (Nat × List Nat)
  | _, 0, acc => some acc
  | j, m + 1, (k, table) =>
    if k < table.length then
      zmk_animation_init_inner distance i (j + 1) m (k + 1, table.set k (distance i j))
    else none

/-- The outer `for` loop of the prefill in `zmk_animation_init`
(animation.c:205-214) from row `i` with `m` rows left; the inner loop runs
`j = 0 .. i`. -/
def zmk_animation_init_outer (distance : Nat → Nat → Nat) :
    Nat → Nat → Nat × List Nat → Option (Nat × List Nat)
  | _, 0, acc => some acc
  | i, m + 1, acc =>
    match zmk_animation_init_inner distance i 0 (i + 1) acc with
    | none => none
    | some acc1 => zmk_animation_init_outer distance (i + 1) m acc1

/-- Source: the prefill of the distance table in `zmk_animation_init`
(animation.c:203-214) for `pixels_size` pixels, starting from the
zero-initialised static array of `((pixels_size + 1) * pixels_size) / 2`
cells (animation.c:99-101). -/
def zmk_animation_init_pixel_distance (distance : Nat → Nat → Nat)
    (pixels_size : Nat) : Option (List Nat) :=
  (zmk_animation_init_outer distance 0 pixels_size
    (0, List.replicate (((pixels_size + 1) * pixels_size) / 2) 0)).map Prod.snd

/-! ## Leaf effect countdown (`src/animation_battery_level.c`) -/

/-- Source: `animation_battery_status_start`
(animation_battery_level.c:98-110). `counter` is the frame count the
function derives from the requested duration (`ANIMATION_DURATION_FOREVER`
for 0, else `ANIMATION_DURATION_MS_TO_FRAMES(request_duration_ms)`,
drivers/animation.h:22-25), taken as it is so that every value is covered;
`uptime` is the value returned by `k_uptime_get()`. -/
def animation_battery_status_start (fps counter uptime : Nat)
    (data : animation_battery_status_data) (s : Sched) :
    animation_battery_status_data × Sched :=
  let data1 : animation_battery_status_data :=
    { data with last_alert_time := uptime, counter := counter, running := true }
  (data1, zmk_animation_request_frames_if_required fps data1.counter true s)

/-- Source: `animation_battery_status_render_frame`
(animation_battery_level.c:50-96), its effect on the device data and the
scheduler; the pixel writes in between touch neither. `animation_stop(dev)`
dispatches to `animation_battery_status_stop`. -/
def animation_battery_status_render_frame (fps uptime : Nat)
    (data : animation_battery_status_data) (s : Sched) :
    animation_battery_status_data × Sched :=
  let counter := data.counter
  if counter = 0 then (data, s)
  else
    let data1 : animation_battery_status_data := { data with counter := counter - 1 }
    let s1 := zmk_animation_request_frames_if_required fps data1.counter false s
    if data1.counter = 0 then (animation_battery_status_stop uptime data1, s1)
    else (data1, s1)

/-- One frame of the effect: the tick handler fires, then the submitted
render pass renders the effect. -/
def battery_status_frame (fps uptime : Nat)
    (st : animation_battery_status_data × Sched) :
    animation_battery_status_data × Sched :=
  animation_battery_status_render_frame fps uptime st.1 (zmk_animation_tick_handler st.2)

/-- A number of consecutive frames of the effect. -/
def battery_status_frames (fps uptime : Nat) :
    Nat → animation_battery_status_data × Sched → animation_battery_status_data × Sched
  | 0, st => st
  | k + 1, st => battery_status_frames fps uptime k (battery_status_frame fps uptime st)

/-! ## Composition combinator: runs -/

/-- Operations on the combinator. -/
inductive ComposeOp where
  | start (request_duration_ms : Nat)
  | stop
  | render_frame
deriving DecidableEq, Repr

/-- One combinator operation. -/
def compose_step {σ : Type} (api : Nat → animation_api σ)
    (config : animation_compose_config) (st : Compose σ) :
    ComposeOp → Option (Compose σ)
  | .start request_duration_ms => animation_compose_start api config request_duration_ms st
  | .stop => animation_compose_stop api config st
  | .render_frame => animation_compose_render_frame api config st

/-- A sequence of combinator operations; `none` when one of them reads an
array out of bounds. -/
def compose_run {σ : Type} (api : Nat → animation_api σ)
    (config : animation_compose_config) : Compose σ → List ComposeOp → Option (Compose σ)
  | st, [] => some st
  | st, op :: ops =>
    match compose_step api config st op with
    | none => none
    | some st1 => compose_run api config st1 ops

/-! ## Trigger behaviour (`src/behaviors/animation_trigger.c`) -/

/-- Source: `struct trigger_status` (animation_trigger.c:25-30). -/
structure trigger_status where
  triggered : Bool
  index : Nat
  num_pressed : Nat
  remaining_duration_ms : Nat
deriving DecidableEq, Repr

/-- The file-scope state of the trigger behaviour (animation_trigger.c:32-36)
and what the handler hands to the kernel and the controller: `scheduled` is
the delay of the pending `animation_stop_work`, if any; `stopped` records the
calls of `animation_control_stop_by_index0` in order. -/
structure TriggerState where
  trigger_statuses : List trigger_status
  last_work_time : Nat
  scheduled : Option Nat
  stopped : List Nat
deriving DecidableEq, Repr

/-- The `for` loop of `animation_stop_work_handler`
(animation_trigger.c:62-99) over the slots still to visit; the accumulator
is `min_remaining` and the list of stop calls. `extend_ms` is
`CONFIG_ZMK_ANIMATION_TRIGGER_EXTEND_MS_ON_HOLD`. -/
def animation_stop_work_handler_loop (elapsed extend_ms : Nat) :
    List trigger_status → Nat × List Nat → List trigger_status × Nat × List Nat
  | [], (min_remaining, stopped) => ([], min_remaining, stopped)
  | s :: rest, (min_remaining, stopped) =>
    if !s.triggered then
      let r := animation_stop_work_handler_loop elapsed extend_ms rest (min_remaining, stopped)
      (s :: r.1, r.2)
    else if s.remaining_duration_ms > elapsed then
      let s1 : trigger_status :=
        { s with remaining_duration_ms := s.remaining_duration_ms - elapsed }
      let min1 :=
        if min_remaining < s1.remaining_duration_ms then s1.remaining_duration_ms
        else min_remaining
      let r := animation_stop_work_handler_loop elapsed extend_ms rest (min1, stopped)
      (s1 :: r.1, r.2)
    else if s.num_pressed > 0 then
      let s1 : trigger_status := { s with remaining_duration_ms := extend_ms }
      let min1 :=
        if min_remaining < s1.remaining_duration_ms then s1.remaining_duration_ms
        else min_remaining
      let r := animation_stop_work_handler_loop elapsed extend_ms rest (min1, stopped)
      (s1 :: r.1, r.2)
    else
      let reset : trigger_status :=
        { triggered := false, index := 0, num_pressed := 0, remaining_duration_ms := 0 }
      let r := animation_stop_work_handler_loop elapsed extend_ms rest
        (min_remaining, stopped ++ [s.index])
      (reset :: r.1, r.2)

/-- Source: `animation_stop_work_handler` (animation_trigger.c:57-110).
`now` is the value of `k_uptime_get()`; `elapsed` and `last_work_time` are
`uint32_t`. -/
def animation_stop_work_handler (extend_ms now : Nat) (st : TriggerState) :
    TriggerState :=
  let elapsed := (((now : Int) - (st.last_work_time : Int)) % (UINT32_MOD : Int)).toNat
  let r := animation_stop_work_handler_loop elapsed extend_ms st.trigger_statuses
    (0, st.stopped)
  { trigger_statuses := r.1
    last_work_time := now % UINT32_MOD
    scheduled := if r.2.1 > 0 then some r.2.1 else none
    stopped := r.2.2 }

/-- Follows the spec's words: the delay after which the stop work is
scheduled again, the minimum remaining duration over the slots that are
still triggered, and no rescheduling when no slot is triggered. -/
def spec_reschedule (slots : List trigger_status) : Option Nat :=
  ((slots.filter (fun s => s.triggered)).map (fun s => s.remaining_duration_ms)).min?

/-- Example state of the trigger behaviour: two triggered slots, keys
released, with 300 ms and 100 ms left; last handler run at time 0. -/
def example_trigger : TriggerState :=
  { trigger_statuses :=
      [ { triggered := true, index := 0, num_pressed := 0, remaining_duration_ms := 300 },
        { triggered := true, index := 1, num_pressed := 0, remaining_duration_ms := 100 } ]
    last_work_time := 0
    scheduled := none
    stopped := [] }

/-- Example state: a running sequential combinator on its second child. -/
def example_running : Compose Nat :=
  { data := { running := true, current_index := 1 }
    world := World.ofDevs (fun _ => 3) }

/-! ## Theorems: frame scheduler -/

theorem sched_step_inv (s : Sched) (e : SchedEvent) (h : s.inv) :
    (sched_step s e).inv := by
  unfold Sched.inv at *
  cases e with
  | request_frames n =>
    simp only [sched_step, zmk_animation_request_frames]
    split
    · exact h
    · rename_i hn
      simp only
      split
      · constructor
        · intro _; rfl
        · intro _; omega
      · constructor
        · intro _; exact h.mp (by omega)
        · intro _; omega
  | tick =>
    simp only [sched_step]
    split
    · rename_i hr
      simp only [zmk_animation_tick_handler]
      split
      · rename_i hc
        simp [hc]
      · rename_i hc
        simp only [hr, iff_true]
        omega
    · exact h
  | sleep =>
    simp [sched_step, activity_sleep_reset]

theorem sched_run_inv (evs : List SchedEvent) (s : Sched) (h : s.inv) :
    (sched_run s evs).inv := by
  induction evs generalizing s with
  | nil => exact h
  | cons e es ih =>
    simp only [sched_run, List.foldl_cons]
    exact ih _ (sched_step_inv s e h)

/-- C1: for every counter value `c` (and timer state) and every requested
`n`, `zmk_animation_request_frames n` leaves the counter equal to
`max c n`; the counter is never lowered. -/
theorem C1_request_frames_max (c n : Nat) (t : Bool) :
    (zmk_animation_request_frames n ⟨c, t⟩).animation_timer_countdown = max c n
    ∧ c ≤ (zmk_animation_request_frames n ⟨c, t⟩).animation_timer_countdown := by
  unfold zmk_animation_request_frames
  by_cases h : n ≤ c
  · simp [h]
  · simp only [h, if_false]
    omega

/-- C2: in every scheduler state reached from the initial state (counter 0,
timer stopped) by any sequence of `request_frames` calls, tick-handler
firings (which only happen while the timer runs) and sleep/idle resets, the
counter is positive if and only if the timer is running. -/
theorem C2_counter_pos_iff_armed (evs : List SchedEvent) :
    0 < (sched_run Sched.init evs).animation_timer_countdown
      ↔ (sched_run Sched.init evs).timer_running = true :=
  sched_run_inv evs Sched.init (by simp [Sched.inv, Sched.init])

/-- C3: with `fps > 0`, `request_frames_if_required r true` is
`request_frames (min r fps)`; `request_frames_if_required r false` is
`request_frames fps` when `fps` divides `r` and leaves the scheduler
unchanged otherwise. -/
theorem C3_if_required_cases (fps r : Nat) (s : Sched) (_hfps : 0 < fps) :
    zmk_animation_request_frames_if_required fps r true s
        = zmk_animation_request_frames (min r fps) s
    ∧ (fps ∣ r → zmk_animation_request_frames_if_required fps r false s
        = zmk_animation_request_frames fps s)
    ∧ (¬ fps ∣ r → zmk_animation_request_frames_if_required fps r false s = s) := by
  refine ⟨?_, ?_, ?_⟩
  · unfold zmk_animation_request_frames_if_required
    simp only [if_true]
    by_cases h : r > fps
    · rw [if_pos h, Nat.min_eq_right (Nat.le_of_lt h)]
    · rw [if_neg h, Nat.min_eq_left (Nat.le_of_not_gt h)]
  · intro hd
    have : r % fps = 0 := Nat.mod_eq_zero_of_dvd hd
    simp [zmk_animation_request_frames_if_required, this]
  · intro hd
    have : r % fps ≠ 0 := fun h => hd (Nat.dvd_of_mod_eq_zero h)
    simp [zmk_animation_request_frames_if_required, this]

theorem C3_if_required_cases_witness :
    zmk_animation_request_frames_if_required 30 45 true ⟨0, false⟩
        = zmk_animation_request_frames (min 45 30) ⟨0, false⟩
    ∧ (30 ∣ 60 → zmk_animation_request_frames_if_required 30 60 false ⟨0, false⟩
        = zmk_animation_request_frames 30 ⟨0, false⟩)
    ∧ (¬ 30 ∣ 45 → zmk_animation_request_frames_if_required 30 45 false ⟨7, true⟩
        = ⟨7, true⟩) :=
  ⟨(C3_if_required_cases 30 45 ⟨0, false⟩ (by decide)).1,
   (C3_if_required_cases 30 60 ⟨0, false⟩ (by decide)).2.1,
   (C3_if_required_cases 30 45 ⟨7, true⟩ (by decide)).2.2⟩

/-- With at least one frame remaining (`r ≥ 1`, `fps ≥ 1`) and a scheduler
state in which the invariant "counter > 0 iff timer running" holds,
`request_frames_if_required r true` leaves the counter at least 1 and the
timer running. -/
theorem request_frames_if_required_initial_pos (fps r : Nat) (s : Sched)
    (hfps : 0 < fps) (hr : 1 ≤ r) (hinv : s.inv) :
    1 ≤ (zmk_animation_request_frames_if_required fps r true
            s).animation_timer_countdown
    ∧ (zmk_animation_request_frames_if_required fps r true
            s).timer_running = true := by
  have hrun : (zmk_animation_request_frames_if_required fps r true s).inv := by
    unfold zmk_animation_request_frames_if_required
    simp only [if_true]
    exact sched_step_inv s (.request_frames _) hinv
  have hpos : 1 ≤ (zmk_animation_request_frames_if_required fps r true
            s).animation_timer_countdown := by
    have hm : 1 ≤ (if r > fps then fps else r) := by split <;> omega
    unfold zmk_animation_request_frames_if_required zmk_animation_request_frames
    simp only [if_true]
    by_cases hle : (if r > fps then fps else r) ≤ s.animation_timer_countdown
    · rw [if_pos hle]
      exact Nat.le_trans hm hle
    · rw [if_neg hle]
      exact hm
  exact ⟨hpos, hrun.mp hpos⟩

/-- C4 as stated fails: with nothing left (`r = 0`), `initial = true` and an
idle scheduler (counter 0, timer stopped), the helper passes
`min(0, fps) = 0` to `request_frames`, which returns at once: the counter is
still 0 and the timer is still stopped. -/
theorem C4_initial_zero_requests_nothing :
    zmk_animation_request_frames_if_required 30 0 true Sched.init = Sched.init
    ∧ (zmk_animation_request_frames_if_required 30 0 true
          Sched.init).animation_timer_countdown = 0
    ∧ (zmk_animation_request_frames_if_required 30 0 true
          Sched.init).timer_running = false := by
  decide

/-- C4 (amended): with `initial = true`, `fps ≥ 1` and at least one frame
left (`r ≥ 1`), for every scheduler state reached from the initial one, after
`request_frames_if_required r true` the frame counter is at least
`min(r, fps)`, hence at least 1, and the tick is armed. With nothing left
(`r = 0`) the helper passes 0 frames and the scheduler is as before. -/
theorem C4_initial_requests_frame (fps r : Nat) (evs : List SchedEvent)
    (hfps : 0 < fps) (hr : 1 ≤ r) :
    min r fps ≤ (zmk_animation_request_frames_if_required fps r true
        (sched_run Sched.init evs)).animation_timer_countdown
    ∧ 1 ≤ (zmk_animation_request_frames_if_required fps r true
        (sched_run Sched.init evs)).animation_timer_countdown
    ∧ (zmk_animation_request_frames_if_required fps r true
        (sched_run Sched.init evs)).timer_running = true
    ∧ zmk_animation_request_frames_if_required fps 0 true (sched_run Sched.init evs)
        = sched_run Sched.init evs := by
  have hinv : (sched_run Sched.init evs).inv :=
    sched_run_inv evs Sched.init (by simp [Sched.inv, Sched.init])
  obtain ⟨h1, h2⟩ := request_frames_if_required_initial_pos fps r
    (sched_run Sched.init evs) hfps hr hinv
  refine ⟨?_, h1, h2, ?_⟩
  · unfold zmk_animation_request_frames_if_required zmk_animation_request_frames
    simp only [if_true]
    have hm : (if r > fps then fps else r) = min r fps := by
      split
      · exact (min_eq_right (by omega)).symm
      · exact (min_eq_left (by omega)).symm
    rw [hm]
    by_cases hle : min r fps ≤ (sched_run Sched.init evs).animation_timer_countdown
    · rw [if_pos hle]; exact hle
    · rw [if_neg hle]
  · unfold zmk_animation_request_frames_if_required zmk_animation_request_frames
    have h0 : ¬ (0 > fps) := by omega
    simp only [if_true, h0, if_false, Nat.zero_le]

theorem C4_initial_requests_frame_witness :
    min 45 30 ≤ (zmk_animation_request_frames_if_required 30 45 true
        (sched_run Sched.init [SchedEvent.request_frames 2, SchedEvent.tick]
          )).animation_timer_countdown
    ∧ 1 ≤ (zmk_animation_request_frames_if_required 30 45 true
        (sched_run Sched.init [SchedEvent.request_frames 2, SchedEvent.tick]
          )).animation_timer_countdown
    ∧ (zmk_animation_request_frames_if_required 30 45 true
        (sched_run Sched.init [SchedEvent.request_frames 2, SchedEvent.tick]
          )).timer_running = true
    ∧ zmk_animation_request_frames_if_required 30 0 true
        (sched_run Sched.init [SchedEvent.request_frames 2, SchedEvent.tick])
        = sched_run Sched.init [SchedEvent.request_frames 2, SchedEvent.tick] :=
  C4_initial_requests_frame 30 45 [SchedEvent.request_frames 2, SchedEvent.tick]
    (by decide) (by decide)

/-! ## Theorems: composition combinator -/

theorem num_animations_le (config : animation_compose_config) :
    config.num_animations ≤ config.animations.length :=
  Nat.mod_le _ _

theorem num_animations_lt (config : animation_compose_config) :
    config.num_animations < 256 :=
  Nat.mod_lt _ (by decide)

/-- One sequential render pass from a running state with a valid index,
split by what the current child reports after being rendered. -/
theorem render_frame_for_sequential_cases {σ : Type}
    (api : Nat → animation_api σ) (config : animation_compose_config)
    (st : Compose σ) (hrun : st.data.running = true)
    (hidx : st.data.current_index < config.num_animations)
    (hdur : config.num_animations ≤ config.durations.length) :
    ∃ a, config.animations[st.data.current_index]? = some a ∧
      (animation_is_finished api a (animation_render_frame api a st.world) = false →
        render_frame_for_sequential api config st
          = some { data := st.data, world := animation_render_frame api a st.world }) ∧
      (animation_is_finished api a (animation_render_frame api a st.world) = true →
        config.num_animations ≤ st.data.current_index + 1 →
        render_frame_for_sequential api config st
          = some { data := { running := false, current_index := 0 }
                   world := animation_render_frame api a st.world }) ∧
      (animation_is_finished api a (animation_render_frame api a st.world) = true →
        st.data.current_index + 1 < config.num_animations →
        ∃ b d, config.animations[st.data.current_index + 1]? = some b ∧
          config.durations[st.data.current_index + 1]? = some d ∧
          render_frame_for_sequential api config st
            = some { data := { running := true
                               current_index := st.data.current_index + 1 }
                     world := World.request_frames 1
                       (animation_start api b d
                         (animation_render_frame api a st.world)) }) := by
  have hN := num_animations_le config
  have hN256 := num_animations_lt config
  have hlt : st.data.current_index < config.animations.length := by omega
  refine ⟨config.animations[st.data.current_index], List.getElem?_eq_getElem hlt, ?_, ?_, ?_⟩
  · intro hfin
    simp [render_frame_for_sequential, List.getElem?_eq_getElem hlt, hfin]
  · intro hfin hlast
    simp [render_frame_for_sequential, List.getElem?_eq_getElem hlt, hfin, hrun, hlast]
  · intro hfin hnext
    have h1 : st.data.current_index + 1 < config.animations.length := by omega
    have h2 : st.data.current_index + 1 < config.durations.length := by omega
    refine ⟨config.animations[st.data.current_index + 1],
      config.durations[st.data.current_index + 1],
      List.getElem?_eq_getElem h1, List.getElem?_eq_getElem h2, ?_⟩
    have hmod : (st.data.current_index + 1) % 256 = st.data.current_index + 1 :=
      Nat.mod_eq_of_lt (by omega)
    have hnl : ¬ config.num_animations ≤ st.data.current_index + 1 := by omega
    simp [render_frame_for_sequential, List.getElem?_eq_getElem hlt, hfin, hrun, hnl,
      List.getElem?_eq_getElem h1, List.getElem?_eq_getElem h2, hmod]

/-- C5 (failing input): parallel combinator over two countdown children,
child 0 with 5 frames left and child 1 with 1 frame left. After one render
pass child 1 is finished and child 0 is not, yet the combinator has set
`running = false`, i.e. reports finished. -/
theorem C5_parallel_finished_with_unfinished_child :
    ∃ st1,
      animation_compose_render_frame (fun _ => countdown_api)
          { animations := [0, 1], durations := [100, 100], parallel := true }
          { data := { running := true, current_index := 0 }
            world := World.ofDevs (fun dev => if dev = 0 then 5 else 1) }
        = some st1
      ∧ animation_compose_is_finished st1 = true
      ∧ animation_is_finished (fun _ => countdown_api) 0 st1.world = false
      ∧ animation_is_finished (fun _ => countdown_api) 1 st1.world = true
      ∧ st1.world.trace = [Call.render_frame 0, Call.render_frame 1] :=
  ⟨_, rfl, rfl, rfl, rfl, rfl⟩

/-- C6: a render pass of a running sequential combinator whose current index
is a valid child index makes exactly one `render_frame` call, on the child at
`current_index`. -/
theorem C6_sequential_renders_only_current {σ : Type}
    (api : Nat → animation_api σ) (config : animation_compose_config)
    (st : Compose σ) (hseq : config.parallel = false)
    (hrun : st.data.running = true)
    (hidx : st.data.current_index < config.num_animations)
    (hdur : config.num_animations ≤ config.durations.length) :
    ∃ a st1 added,
      config.animations[st.data.current_index]? = some a ∧
      animation_compose_render_frame api config st = some st1 ∧
      st1.world.trace = st.world.trace ++ added ∧
      added.filter Call.is_render_frame = [Call.render_frame a] := by
  obtain ⟨a, ha, hnot, hlast, hnext⟩ :=
    render_frame_for_sequential_cases api config st hrun hidx hdur
  have hdisp : animation_compose_render_frame api config st
      = render_frame_for_sequential api config st := by
    simp [animation_compose_render_frame, hrun, hseq]
  rw [hdisp]
  cases hfin : animation_is_finished api a (animation_render_frame api a st.world) with
  | false =>
    exact ⟨a, _, [Call.render_frame a], ha, hnot hfin, rfl, rfl⟩
  | true =>
    by_cases hl : config.num_animations ≤ st.data.current_index + 1
    · exact ⟨a, _, [Call.render_frame a], ha, hlast hfin hl, rfl, rfl⟩
    · obtain ⟨b, d, _, _, hr⟩ := hnext hfin (by omega)
      refine ⟨a, _, [Call.render_frame a, Call.start b d, Call.request_frames 1],
        ha, hr, ?_, rfl⟩
      simp [World.request_frames, animation_start, animation_render_frame]

theorem C6_sequential_renders_only_current_witness :
    ∃ a st1 added,
      ([0, 1] : List Nat)[0]? = some a ∧
      animation_compose_render_frame (fun _ => countdown_api)
          { animations := [0, 1], durations := [10, 5], parallel := false }
          { data := { running := true, current_index := 0 }
            world := World.ofDevs (fun _ => 1) }
        = some st1 ∧
      st1.world.trace = (World.ofDevs (fun _ => (1 : Nat))).trace ++ added ∧
      added.filter Call.is_render_frame = [Call.render_frame a] :=
  C6_sequential_renders_only_current (fun _ => countdown_api)
    { animations := [0, 1], durations := [10, 5], parallel := false }
    { data := { running := true, current_index := 0 }
      world := World.ofDevs (fun _ => 1) }
    rfl rfl (by decide) (by decide)

/-- C8: in a running sequential combinator at child `i` with `i + 1 < N`,
when child `i` reports finished after being rendered, the render pass sets
`current_index` to `i + 1`, calls `start` on child `i + 1` with that child's
own configured duration `durations[i + 1]`, then calls `request_frames(1)`;
these are the only calls after the render of child `i`, and the frame counter
is at least 1 afterwards whatever the started child did. -/
theorem C8_sequential_advance {σ : Type}
    (api : Nat → animation_api σ) (config : animation_compose_config)
    (st : Compose σ) (a b d : Nat) (hseq : config.parallel = false)
    (hrun : st.data.running = true)
    (hnext : st.data.current_index + 1 < config.num_animations)
    (ha : config.animations[st.data.current_index]? = some a)
    (hb : config.animations[st.data.current_index + 1]? = some b)
    (hd : config.durations[st.data.current_index + 1]? = some d)
    (hfin : animation_is_finished api a (animation_render_frame api a st.world) = true) :
    ∃ st1,
      animation_compose_render_frame api config st = some st1 ∧
      st1.data.running = true ∧
      st1.data.current_index = st.data.current_index + 1 ∧
      st1.world = World.request_frames 1
        (animation_start api b d (animation_render_frame api a st.world)) ∧
      st1.world.trace = st.world.trace ++
        [Call.render_frame a, Call.start b d, Call.request_frames 1] ∧
      1 ≤ st1.world.env.sched.animation_timer_countdown := by
  have hN256 := num_animations_lt config
  have hmod : (st.data.current_index + 1) % 256 = st.data.current_index + 1 :=
    Nat.mod_eq_of_lt (by omega)
  have hnl : ¬ config.num_animations ≤ st.data.current_index + 1 := by omega
  refine ⟨{ data := { running := true, current_index := st.data.current_index + 1 }
            world := World.request_frames 1
              (animation_start api b d (animation_render_frame api a st.world)) },
    ?_, rfl, rfl, rfl, ?_, ?_⟩
  · simp [animation_compose_render_frame, render_frame_for_sequential, hrun, hseq, ha,
      hb, hd, hfin, hnl, hmod]
  · simp [World.request_frames, animation_start, animation_render_frame]
  · simp only [World.request_frames, zmk_animation_request_frames]
    split
    · assumption
    · exact Nat.le_refl 1

theorem C8_sequential_advance_witness :
    ∃ st1,
      animation_compose_render_frame (fun _ => countdown_api)
          { animations := [0, 1], durations := [10, 5], parallel := false }
          { data := { running := true, current_index := 0 }
            world := World.ofDevs (fun _ => 1) }
        = some st1 ∧
      st1.data.running = true ∧
      st1.data.current_index = 0 + 1 ∧
      st1.world = World.request_frames 1
        (animation_start (fun _ => countdown_api) 1 5
          (animation_render_frame (fun _ => countdown_api) 0
            (World.ofDevs (fun _ => 1)))) ∧
      st1.world.trace = (World.ofDevs (fun _ => (1 : Nat))).trace ++
        [Call.render_frame 0, Call.start 1 5, Call.request_frames 1] ∧
      1 ≤ st1.world.env.sched.animation_timer_countdown :=
  C8_sequential_advance (fun _ => countdown_api)
    { animations := [0, 1], durations := [10, 5], parallel := false }
    { data := { running := true, current_index := 0 }
      world := World.ofDevs (fun _ => 1) }
    0 1 5 rfl rfl (by decide) rfl rfl rfl rfl

theorem start_clamp_eq (req duration : Nat) :
    (if (decide (req > 0) && decide (duration > req)) = true then req else duration)
      = if req > 0 then min duration req else duration := by
  by_cases h1 : req > 0 <;> by_cases h2 : duration > req <;> simp [h1, h2] <;> omega

theorem animation_compose_start_loop_trace {σ : Type}
    (api : Nat → animation_api σ) (config : animation_compose_config) (req : Nat) :
    ∀ (k i : Nat) (w : World σ),
      i + k ≤ config.animations.length → i + k ≤ config.durations.length →
      ∃ w1, animation_compose_start_loop api config req i k w = some w1 ∧
        w1.trace = w.trace ++
          (((config.animations.zip config.durations).drop i).take k).map
            (fun p => Call.start p.1 (if req > 0 then min p.2 req else p.2)) := by
  intro k
  induction k with
  | zero =>
    intro i w _ _
    exact ⟨w, rfl, by simp⟩
  | succ k ih =>
    intro i w h1 h2
    have ha : i < config.animations.length := by omega
    have hd : i < config.durations.length := by omega
    have hz : i < (config.animations.zip config.durations).length := by
      simp [List.length_zip]; omega
    obtain ⟨w1, hw1, ht⟩ := ih (i + 1)
      (animation_start api config.animations[i]
        (if req > 0 then min config.durations[i] req else config.durations[i]) w)
      (by omega) (by omega)
    refine ⟨w1, ?_, ?_⟩
    · simp only [animation_compose_start_loop, List.getElem?_eq_getElem ha,
        List.getElem?_eq_getElem hd, start_clamp_eq]
      exact hw1
    · rw [ht, List.drop_eq_getElem_cons hz]
      simp [animation_start, List.getElem_zip]

theorem compose_render_passes_stopped {σ : Type}
    (api : Nat → animation_api σ) (config : animation_compose_config) :
    ∀ (k : Nat) (st : Compose σ), st.data.running = false →
      compose_render_passes api config k st = some st ∧
      seq_observed api config k st = [] := by
  intro k
  induction k with
  | zero => intro st _; exact ⟨rfl, rfl⟩
  | succ k ih =>
    intro st h
    have hr : animation_compose_render_frame api config st = some st := by
      simp [animation_compose_render_frame, h]
    have ho : seq_observed_finished api config st = none := by
      simp [seq_observed_finished, h]
    obtain ⟨h1, h2⟩ := ih st h
    constructor
    · simp only [compose_render_passes, hr]; exact h1
    · simp only [seq_observed, hr, ho]; simpa using h2

theorem seq_passes_observed {σ : Type}
    (api : Nat → animation_api σ) (config : animation_compose_config)
    (hseq : config.parallel = false)
    (hdur : config.num_animations ≤ config.durations.length) :
    ∀ (k : Nat) (st : Compose σ), st.data.running = true →
      st.data.current_index < config.num_animations →
      ∃ st1, compose_render_passes api config k st = some st1 ∧
        ((st1.data.running = true ∧ st.data.current_index ≤ st1.data.current_index ∧
            st1.data.current_index < config.num_animations ∧
            seq_observed api config k st
              = List.range' st.data.current_index
                  (st1.data.current_index - st.data.current_index)) ∨
         (st1.data.running = false ∧ st1.data.current_index = 0 ∧
            seq_observed api config k st
              = List.range' st.data.current_index
                  (config.num_animations - st.data.current_index))) := by
  intro k
  induction k with
  | zero =>
    intro st hrun hidx
    exact ⟨st, rfl, Or.inl ⟨hrun, Nat.le_refl _, hidx, by simp [seq_observed]⟩⟩
  | succ k ih =>
    intro st hrun hidx
    obtain ⟨a, ha, hnot, hlast, hnext⟩ :=
      render_frame_for_sequential_cases api config st hrun hidx hdur
    have hdisp : animation_compose_render_frame api config st
        = render_frame_for_sequential api config st := by
      simp [animation_compose_render_frame, hrun, hseq]
    cases hfin : animation_is_finished api a (animation_render_frame api a st.world) with
    | false =>
      have ho : seq_observed_finished api config st = none := by
        simp [seq_observed_finished, hrun, ha, hfin]
      have hr := hnot hfin
      obtain ⟨st1, hp, hcase⟩ :=
        ih { data := st.data, world := animation_render_frame api a st.world } hrun hidx
      refine ⟨st1, ?_, ?_⟩
      · simp only [compose_render_passes, hdisp, hr]; exact hp
      · simp only [seq_observed, hdisp, hr, ho, Option.toList, List.nil_append]
        exact hcase
    | true =>
      have ho : seq_observed_finished api config st = some st.data.current_index := by
        simp [seq_observed_finished, hrun, ha, hfin]
      by_cases hl : config.num_animations ≤ st.data.current_index + 1
      · have hr := hlast hfin hl
        obtain ⟨hp, hobs⟩ := compose_render_passes_stopped api config k
          { data := { running := false, current_index := 0 }
            world := animation_render_frame api a st.world } rfl
        refine ⟨{ data := { running := false, current_index := 0 }
                  world := animation_render_frame api a st.world }, ?_,
          Or.inr ⟨rfl, rfl, ?_⟩⟩
        · simp only [compose_render_passes, hdisp, hr]; exact hp
        · simp only [seq_observed, hdisp, hr, ho, hobs, Option.toList]
          have : config.num_animations - st.data.current_index = 1 := by omega
          rw [this]; rfl
      · obtain ⟨b, d, _, _, hr⟩ := hnext hfin (by omega)
        obtain ⟨st1, hp, hcase⟩ := ih
          { data := { running := true, current_index := st.data.current_index + 1 }
            world := World.request_frames 1
              (animation_start api b d (animation_render_frame api a st.world)) }
          rfl (by simpa using Nat.lt_of_not_le hl)
        refine ⟨st1, ?_, ?_⟩
        · simp only [compose_render_passes, hdisp, hr]; exact hp
        · simp only [seq_observed, hdisp, hr, ho, Option.toList]
          rcases hcase with ⟨h1, h2, h3, h4⟩ | ⟨h1, h2, h4⟩
          · refine Or.inl ⟨h1, by simp at h2; omega, h3, ?_⟩
            simp only at h2 h4
            rw [h4]
            have : st1.data.current_index - st.data.current_index
                = (st1.data.current_index - (st.data.current_index + 1)) + 1 := by omega
            rw [this, List.range'_succ]; rfl
          · refine Or.inr ⟨h1, h2, ?_⟩
            simp only at h4
            rw [h4]
            have : config.num_animations - st.data.current_index
                = (config.num_animations - (st.data.current_index + 1)) + 1 := by omega
            rw [this, List.range'_succ]; rfl

theorem animation_compose_stop_loop_total {σ : Type}
    (api : Nat → animation_api σ) (config : animation_compose_config) :
    ∀ (k i : Nat) (w : World σ), i + k ≤ config.animations.length →
      ∃ w1, animation_compose_stop_loop api config i k w = some w1 := by
  intro k
  induction k with
  | zero => intro i w _; exact ⟨w, rfl⟩
  | succ k ih =>
    intro i w h
    have ha : i < config.animations.length := by omega
    obtain ⟨w1, hw1⟩ := ih (i + 1) (animation_stop api config.animations[i] w) (by omega)
    exact ⟨w1, by
      simp only [animation_compose_stop_loop, List.getElem?_eq_getElem ha]; exact hw1⟩

theorem animation_compose_stop_finished {σ : Type}
    (api : Nat → animation_api σ) (config : animation_compose_config)
    (st st1 : Compose σ) (h : animation_compose_stop api config st = some st1) :
    animation_compose_is_finished st1 = true := by
  unfold animation_compose_stop at h
  by_cases hrun : st.data.running = true
  · simp only [hrun, Bool.not_true, Bool.false_eq_true, if_false, if_true] at h
    split at h
    · cases h
    · cases h; rfl
  · simp only [Bool.not_eq_true] at hrun
    simp only [hrun, Bool.not_false, if_true] at h
    cases h
    simp [animation_compose_is_finished, hrun]

/-- C7: a stopped sequential combinator with N >= 1 children is started and
then rendered any number of times. After the passes it reports finished if
and only if the children observed finished while current, in order, are
exactly 0, 1, .., N-1 (the index was advanced past the last child); then
`running = false` and `current_index = 0`. While it is not finished the
children observed finished are exactly 0 .. current_index - 1 and
`current_index < N`. -/
theorem C7_sequential_finished_iff_advanced_past_last {σ : Type}
    (api : Nat → animation_api σ) (config : animation_compose_config)
    (request_duration_ms : Nat) (st0 : Compose σ)
    (hseq : config.parallel = false) (hN : 0 < config.num_animations)
    (hdur : config.num_animations ≤ config.durations.length)
    (hstopped : st0.data.running = false) :
    ∃ st1, animation_compose_start api config request_duration_ms st0 = some st1 ∧
      ∀ k, ∃ st2, compose_render_passes api config k st1 = some st2 ∧
        (animation_compose_is_finished st2 = true
          ↔ seq_observed api config k st1 = List.range config.num_animations) ∧
        (animation_compose_is_finished st2 = true →
          st2.data.running = false ∧ st2.data.current_index = 0) ∧
        (animation_compose_is_finished st2 = false →
          st2.data.current_index < config.num_animations ∧
          seq_observed api config k st1 = List.range st2.data.current_index) := by
  have hlen := num_animations_le config
  obtain ⟨w1, hw1, _⟩ := animation_compose_start_loop_trace api config
    request_duration_ms 1 0 st0.world (by omega) (by omega)
  refine ⟨{ data := { current_index := 0, running := true }
            world := World.request_frames 1 w1 }, ?_, ?_⟩
  · simp [animation_compose_start, hstopped, hseq, hw1]
  · intro k
    obtain ⟨st2, hp, hcase⟩ := seq_passes_observed api config hseq hdur k
      { data := { current_index := 0, running := true }
        world := World.request_frames 1 w1 } rfl hN
    refine ⟨st2, hp, ?_⟩
    simp only [Nat.sub_zero] at hcase
    rcases hcase with ⟨h1, _, h3, h4⟩ | ⟨h1, h2, h4⟩
    · have hne : List.range st2.data.current_index ≠ List.range config.num_animations := by
        intro he
        have := congrArg List.length he
        simp at this
        omega
      rw [h4, ← List.range_eq_range']
      simp [animation_compose_is_finished, h1, hne, h3]
    · rw [h4, ← List.range_eq_range']
      simp [animation_compose_is_finished, h1, h2]

/-- C9: starting a stopped combinator with requested duration `d` sets
`running = true` and `current_index = 0`, calls `start` on children
0 .. N-1 in order when parallel and on child 0 only when sequential, each
with `min durations[i] d` when `d > 0` and `durations[i]` when `d = 0`, and
then calls `request_frames(1)`; no other call is made. -/
theorem C9_compose_start {σ : Type}
    (api : Nat → animation_api σ) (config : animation_compose_config)
    (request_duration_ms : Nat) (st : Compose σ)
    (hstopped : st.data.running = false)
    (hlen : (if config.parallel then config.num_animations else 1)
              ≤ config.animations.length)
    (hdur : (if config.parallel then config.num_animations else 1)
              ≤ config.durations.length) :
    ∃ st1, animation_compose_start api config request_duration_ms st = some st1 ∧
      st1.data.running = true ∧ st1.data.current_index = 0 ∧
      st1.world.trace = st.world.trace ++
        (((config.animations.zip config.durations).take
            (if config.parallel then config.num_animations else 1)).map
          (fun p => Call.start p.1
            (if request_duration_ms > 0 then min p.2 request_duration_ms else p.2)))
        ++ [Call.request_frames 1] := by
  obtain ⟨w1, hw1, ht⟩ := animation_compose_start_loop_trace api config
    request_duration_ms (if config.parallel then config.num_animations else 1) 0
    st.world (by omega) (by omega)
  refine ⟨{ data := { current_index := 0, running := true }
            world := World.request_frames 1 w1 }, ?_, rfl, rfl, ?_⟩
  · simp [animation_compose_start, hstopped, hw1]
  · simp only [World.request_frames, ht, List.drop_zero]

/-- C10: for the combinator, the controller and the solid, battery-level,
endpoint and layer-status effects, in every state, `stop` followed by
`is_finished` gives true. For the combinator, `stop` returns whenever a
running sequential combinator has a valid current index, and in any state
whatever, when it returns, `is_finished` is true. -/
theorem C10_stop_then_is_finished {σ : Type}
    (api : Nat → animation_api σ) (ready : Nat → Bool)
    (compose_config : animation_compose_config)
    (control_config : animation_control_config)
    (compose : Compose σ) (control : Control σ)
    (solid : animation_solid_data) (battery : animation_battery_status_data)
    (uptime : Nat) (endpoint : animation_endpoint_data)
    (layer : animation_layer_status_data)
    (hidx : compose.data.running = true → compose_config.parallel = false →
      compose.data.current_index < compose_config.animations.length) :
    (∃ compose1, animation_compose_stop api compose_config compose = some compose1 ∧
        animation_compose_is_finished compose1 = true)
    ∧ (∀ (other : Compose σ) (compose1 : Compose σ),
        animation_compose_stop api compose_config other = some compose1 →
        animation_compose_is_finished compose1 = true)
    ∧ animation_control_api_impl_is_finished
        (animation_control_api_impl_stop api ready control_config control) = true
    ∧ animation_solid_is_finished (animation_solid_stop solid) = true
    ∧ animation_battery_status_is_finished
        (animation_battery_status_stop uptime battery) = true
    ∧ animation_endpoint_is_finished (animation_endpoint_stop endpoint) = true
    ∧ animation_layer_status_is_finished (animation_layer_status_stop layer) = true := by
  refine ⟨?_, fun other compose1 h =>
    animation_compose_stop_finished api compose_config other compose1 h, ?_, ?_, ?_, ?_, ?_⟩
  · have hsome : ∃ compose1,
        animation_compose_stop api compose_config compose = some compose1 := by
      unfold animation_compose_stop
      by_cases hrun : compose.data.running = true
      · simp only [hrun, Bool.not_true, Bool.false_eq_true, if_false, if_true]
        by_cases hpar : compose_config.parallel = true
        · obtain ⟨w1, hw1⟩ := animation_compose_stop_loop_total api compose_config
            compose_config.num_animations 0 compose.world
            (by have := num_animations_le compose_config; omega)
          simp [hpar, hw1]
        · simp only [Bool.not_eq_true] at hpar
          have hlt := hidx hrun hpar
          simp [hpar, List.getElem?_eq_getElem hlt]
      · simp only [Bool.not_eq_true] at hrun
        simp [hrun]
    obtain ⟨compose1, h⟩ := hsome
    exact ⟨compose1, h, animation_compose_stop_finished api compose_config _ _ h⟩
  · unfold animation_control_api_impl_stop animation_control_api_impl_is_finished
    by_cases hrun : control.data.running = true
    · simp only [hrun, Bool.not_true, Bool.false_eq_true, if_false, if_true]
      rfl
    · simp only [Bool.not_eq_true] at hrun
      simp [hrun]
  · simp [animation_solid_is_finished, animation_solid_stop]
  · simp [animation_battery_status_is_finished, animation_battery_status_stop]
  · simp [animation_endpoint_is_finished, animation_endpoint_stop]
  · simp [animation_layer_status_is_finished, animation_layer_status_stop]


theorem C7_sequential_finished_iff_advanced_past_last_witness :
    ∃ st1, animation_compose_start (fun _ => countdown_api) example_sequential 3
        example_stopped = some st1 ∧
      ∃ st2, compose_render_passes (fun _ => countdown_api) example_sequential 10 st1
          = some st2 ∧
        (animation_compose_is_finished st2 = true
          ↔ seq_observed (fun _ => countdown_api) example_sequential 10 st1
              = List.range example_sequential.num_animations) ∧
        (animation_compose_is_finished st2 = true →
          st2.data.running = false ∧ st2.data.current_index = 0) ∧
        (animation_compose_is_finished st2 = false →
          st2.data.current_index < example_sequential.num_animations ∧
          seq_observed (fun _ => countdown_api) example_sequential 10 st1
            = List.range st2.data.current_index) :=
  (C7_sequential_finished_iff_advanced_past_last (fun _ => countdown_api)
    example_sequential 3 example_stopped rfl (by decide) (by decide) rfl).imp
    (fun _ h => ⟨h.1, h.2 10⟩)

theorem C9_compose_start_witness :
    ∃ st1, animation_compose_start (fun _ => countdown_api) example_parallel 7
        example_stopped = some st1 ∧
      st1.data.running = true ∧ st1.data.current_index = 0 ∧
      st1.world.trace = example_stopped.world.trace ++
        (((example_parallel.animations.zip example_parallel.durations).take
            (if example_parallel.parallel then example_parallel.num_animations else 1)).map
          (fun p => Call.start p.1 (if 7 > 0 then min p.2 7 else p.2)))
        ++ [Call.request_frames 1] :=
  C9_compose_start (fun _ => countdown_api) example_parallel 7 example_stopped rfl
    (by decide) (by decide)

theorem C10_stop_then_is_finished_witness :
    (∃ compose1, animation_compose_stop (fun _ => countdown_api) example_sequential
          { data := { running := true, current_index := 1 }
            world := World.ofDevs (fun _ => 3) } = some compose1 ∧
        animation_compose_is_finished compose1 = true)
    ∧ animation_control_api_impl_is_finished
        (animation_control_api_impl_stop (fun _ => countdown_api) (fun _ => true)
          example_control_config example_control) = true
    ∧ animation_solid_is_finished
        (animation_solid_stop ⟨5, 2, ⟨0, 0, 0⟩, ⟨0, 0, 0⟩⟩) = true
    ∧ animation_battery_status_is_finished
        (animation_battery_status_stop 1000 ⟨true, 5, 0⟩) = true
    ∧ animation_endpoint_is_finished
        (animation_endpoint_stop ⟨true, 5, 2, 0, .BLE_STATUS_OPEN⟩) = true
    ∧ animation_layer_status_is_finished
        (animation_layer_status_stop ⟨true, 5, 3, 0⟩) = true :=
  have h := C10_stop_then_is_finished (fun _ => countdown_api) (fun _ => true)
    example_sequential example_control_config
    { data := { running := true, current_index := 1 }
      world := World.ofDevs (fun _ => 3) }
    example_control ⟨5, 2, ⟨0, 0, 0⟩, ⟨0, 0, 0⟩⟩ ⟨true, 5, 0⟩ 1000
    ⟨true, 5, 2, 0, .BLE_STATUS_OPEN⟩ ⟨true, 5, 3, 0⟩
    (fun _ _ => by decide)
  ⟨h.1, h.2.2⟩

/-! ## Theorems: animation controller -/

theorem set_power_data {σ : Type} (ready : Nat → Bool)
    (config : animation_control_config) (enable : Bool) (st : Control σ) :
    (set_power ready config enable st).data = st.data
    ∧ (set_power ready config enable st).que = st.que := by
  unfold set_power
  split <;> exact ⟨rfl, rfl⟩

theorem control_stop_running {σ : Type} (api : Nat → animation_api σ)
    (ready : Nat → Bool) (config : animation_control_config) (st : Control σ) :
    (animation_control_api_impl_stop api ready config st).data.running = false := by
  unfold animation_control_api_impl_stop
  by_cases h : st.data.running = true
  · simp [h]
  · simp only [Bool.not_eq_true] at h
    simp [h]

theorem control_stop_of_stopped {σ : Type} (api : Nat → animation_api σ)
    (ready : Nat → Bool) (config : animation_control_config) (st : Control σ)
    (h : st.data.running = false) :
    animation_control_api_impl_stop api ready config st = st := by
  simp [animation_control_api_impl_stop, h]

theorem control_stop_frame {σ : Type} (api : Nat → animation_api σ)
    (ready : Nat → Bool) (config : animation_control_config) (st : Control σ) :
    (animation_control_api_impl_stop api ready config st).data.s = st.data.s
    ∧ (st.data.running = true →
        (animation_control_api_impl_stop api ready config
          st).data.running_animation.animation = none) := by
  unfold animation_control_api_impl_stop
  by_cases h : st.data.running = true
  · simp [h, (set_power_data ready config false _).1, animation_queue_record.empty]
  · simp only [Bool.not_eq_true] at h
    simp [h]

theorem compose_stop_of_stopped {σ : Type} (api : Nat → animation_api σ)
    (config : animation_compose_config) (st : Compose σ)
    (h : st.data.running = false) :
    animation_compose_stop api config st = some st := by
  simp [animation_compose_stop, h]

/-- C11: `stop` on an already-stopped controller or combinator returns the
state unchanged (no child is stopped, the power rail is not touched, no call
is recorded), and a second `stop` right after a first one changes nothing:
`stop; stop` ends in the same state, with the same recorded calls, as one
`stop`. -/
theorem C11_stop_idempotent {σ : Type} (api : Nat → animation_api σ)
    (ready : Nat → Bool) (control_config : animation_control_config)
    (compose_config : animation_compose_config)
    (control control0 : Control σ) (compose compose0 compose1 : Compose σ)
    (hcontrol0 : control0.data.running = false)
    (hcompose0 : compose0.data.running = false)
    (hstop : animation_compose_stop api compose_config compose = some compose1) :
    animation_control_api_impl_stop api ready control_config control0 = control0
    ∧ animation_control_api_impl_stop api ready control_config
        (animation_control_api_impl_stop api ready control_config control)
      = animation_control_api_impl_stop api ready control_config control
    ∧ animation_compose_stop api compose_config compose0 = some compose0
    ∧ animation_compose_stop api compose_config compose1 = some compose1
    ∧ (animation_compose_stop api compose_config compose).bind
        (animation_compose_stop api compose_config)
      = animation_compose_stop api compose_config compose := by
  have h1 : compose1.data.running = false := by
    have := animation_compose_stop_finished api compose_config compose compose1 hstop
    simpa [animation_compose_is_finished] using this
  refine ⟨control_stop_of_stopped api ready control_config control0 hcontrol0,
    control_stop_of_stopped api ready control_config _
      (control_stop_running api ready control_config control),
    compose_stop_of_stopped api compose_config compose0 hcompose0,
    compose_stop_of_stopped api compose_config compose1 h1, ?_⟩
  rw [hstop]
  exact compose_stop_of_stopped api compose_config compose1 h1

theorem C11_stop_idempotent_witness :
    animation_control_api_impl_stop (fun _ => countdown_api) (fun _ => true)
        example_control_config example_control_init = example_control_init
    ∧ animation_control_api_impl_stop (fun _ => countdown_api) (fun _ => true)
        example_control_config
        (animation_control_api_impl_stop (fun _ => countdown_api) (fun _ => true)
          example_control_config example_control)
      = animation_control_api_impl_stop (fun _ => countdown_api) (fun _ => true)
          example_control_config example_control
    ∧ animation_compose_stop (fun _ => countdown_api) example_sequential
        example_stopped = some example_stopped
    ∧ animation_compose_stop (fun _ => countdown_api) example_sequential
        { data := { running := false, current_index := 0 }
          world := animation_stop (fun _ => countdown_api) 1
            (World.ofDevs (fun _ => 3)) }
      = some { data := { running := false, current_index := 0 }
               world := animation_stop (fun _ => countdown_api) 1
                 (World.ofDevs (fun _ => 3)) }
    ∧ (animation_compose_stop (fun _ => countdown_api) example_sequential
          { data := { running := true, current_index := 1 }
            world := World.ofDevs (fun _ => 3) }).bind
        (animation_compose_stop (fun _ => countdown_api) example_sequential)
      = animation_compose_stop (fun _ => countdown_api) example_sequential
          { data := { running := true, current_index := 1 }
            world := World.ofDevs (fun _ => 3) } :=
  C11_stop_idempotent (fun _ => countdown_api) (fun _ => true)
    example_control_config example_sequential example_control example_control_init
    { data := { running := true, current_index := 1 }
      world := World.ofDevs (fun _ => 3) }
    example_stopped
    { data := { running := false, current_index := 0 }
      world := animation_stop (fun _ => countdown_api) 1 (World.ofDevs (fun _ => 3)) }
    rfl rfl rfl

theorem change_animation_set_frame {σ : Type} (api : Nat → animation_api σ)
    (ready : Nat → Bool) (config : animation_control_config)
    (next : animation_queue_record) (st : Control σ) :
    (change_animation_set api ready config next st).data.s = st.data.s
    ∧ (change_animation_set api ready config next st).data.running = st.data.running := by
  unfold change_animation_set
  by_cases hrun : st.data.running = true
  · simp only [hrun, if_true]
    cases hcur : st.data.running_animation.animation <;>
      cases hn : next.animation <;>
      simp only [device_is_ready] <;>
      (try split) <;>
      simp [hrun, (set_power_data ready config _ _).1]
  · simp only [Bool.not_eq_true] at hrun
    simp [hrun]

theorem change_animation_adhoc_frame {σ : Type} (api : Nat → animation_api σ)
    (ready : Nat → Bool) (config : animation_control_config)
    (next : animation_queue_record) (st : Control σ) :
    (change_animation_adhoc api ready config next st).data.s = st.data.s
    ∧ (change_animation_adhoc api ready config next st).data.running
        = st.data.running := by
  unfold change_animation_adhoc
  obtain ⟨h1, h2⟩ := change_animation_set_frame api ready config next
    { (if device_is_ready ready next.animation = true then st
        else { st with world := World.request_frames 1 st.world }) with
      data := { (if device_is_ready ready next.animation = true then st
        else { st with world := World.request_frames 1 st.world }).data with
        playing_adhoc_animation := true } }
  constructor
  · rw [h1]; split <;> rfl
  · rw [h2]; split <;> rfl

/-- `change_animation` never touches the save-state or the running flag. -/
theorem change_animation_frame {σ : Type} (api : Nat → animation_api σ)
    (ready : Nat → Bool) (config : animation_control_config)
    (usb_powered : Bool) (next : Option animation_queue_record)
    (st st1 : Control σ)
    (h : change_animation api ready config usb_powered next st = some st1) :
    st1.data.s = st.data.s ∧ st1.data.running = st.data.running := by
  unfold change_animation at h
  by_cases hact : st.data.s.active = true
  · by_cases hrun : st.data.running = true
    · simp only [hact, hrun, Bool.not_true, Bool.false_eq_true, if_false] at h
      cases next with
      | some n =>
        simp only [Option.some.injEq] at h
        rw [← h]
        constructor
        · exact (change_animation_adhoc_frame api ready config n _).1
        · exact (change_animation_adhoc_frame api ready config n _).2.trans hrun.symm
      | none =>
        simp only at h
        cases hq : st.que with
        | cons n rest =>
          simp only [hq, Option.some.injEq] at h
          rw [← h]
          constructor
          · exact (change_animation_adhoc_frame api ready config n _).1
          · exact (change_animation_adhoc_frame api ready config n _).2.trans hrun.symm
        | nil =>
          simp only [hq] at h
          split at h
          · cases h
          · split at h
            · cases h; exact ⟨rfl, hrun.symm⟩
            · simp only [Option.some.injEq] at h
              rw [← h]
              constructor
              · exact (change_animation_set_frame api ready config _ _).1
              · exact (change_animation_set_frame api ready config _ _).2.trans hrun.symm
    · simp only [Bool.not_eq_true] at hrun
      simp only [hact, hrun, Bool.not_true, Bool.not_false, Bool.false_eq_true, if_false,
        if_true, Option.some.injEq] at h
      rw [← h]; exact ⟨rfl, rfl⟩
  · simp only [Bool.not_eq_true] at hact
    simp only [hact, Bool.not_false, if_true, Option.some.injEq] at h
    rw [← h]; exact ⟨rfl, rfl⟩

/-- `change_animation` returns whenever both stored animation indices are
valid for their lists. -/
theorem change_animation_total {σ : Type} (api : Nat → animation_api σ)
    (ready : Nat → Bool) (config : animation_control_config)
    (usb_powered : Bool) (next : Option animation_queue_record) (st : Control σ)
    (hp : st.data.s.current_powered_animation < config.powered_animations.length)
    (hb : st.data.s.current_battery_animation < config.battery_animations.length) :
    ∃ st1, change_animation api ready config usb_powered next st = some st1 := by
  unfold change_animation
  by_cases hact : st.data.s.active = true
  · by_cases hrun : st.data.running = true
    · simp only [hact, hrun, Bool.not_true, Bool.false_eq_true, if_false]
      cases next with
      | some n => exact ⟨_, rfl⟩
      | none =>
        simp only
        cases hq : st.que with
        | cons n rest => exact ⟨_, rfl⟩
        | nil =>
          simp only [get_animation_for_current_power_state]
          cases usb_powered
          · simp only [Bool.false_eq_true, if_false, List.getElem?_eq_getElem hb]
            split <;> exact ⟨_, rfl⟩
          · simp only [if_true, List.getElem?_eq_getElem hp]
            split <;> exact ⟨_, rfl⟩
    · simp only [Bool.not_eq_true] at hrun
      exact ⟨st, by simp [hact, hrun]⟩
  · simp only [Bool.not_eq_true] at hact
    exact ⟨st, by simp [hact]⟩

theorem control_start_total {σ : Type} (api : Nat → animation_api σ)
    (ready : Nat → Bool) (config : animation_control_config)
    (usb_powered : Bool) (st : Control σ)
    (hp : st.data.s.current_powered_animation < config.powered_animations.length)
    (hb : st.data.s.current_battery_animation < config.battery_animations.length) :
    ∃ st1, animation_control_api_impl_start api ready config usb_powered st = some st1 := by
  unfold animation_control_api_impl_start
  by_cases hact : st.data.s.active = true
  · by_cases hrun : st.data.running = true
    · exact ⟨st, by simp [hact, hrun]⟩
    · simp only [Bool.not_eq_true] at hrun
      simp only [hact, hrun, Bool.not_true, Bool.false_eq_true, if_false]
      exact change_animation_total api ready config usb_powered none _ hp hb
  · simp only [Bool.not_eq_true] at hact
    exact ⟨st, by simp [hact]⟩

theorem control_start_frame {σ : Type} (api : Nat → animation_api σ)
    (ready : Nat → Bool) (config : animation_control_config)
    (usb_powered : Bool) (st st1 : Control σ)
    (h : animation_control_api_impl_start api ready config usb_powered st = some st1) :
    st1.data.s = st.data.s ∧ (st.data.s.active = true → st1.data.running = true) := by
  unfold animation_control_api_impl_start at h
  by_cases hact : st.data.s.active = true
  · by_cases hrun : st.data.running = true
    · simp only [hact, hrun, Bool.not_true, Bool.false_eq_true, if_false, if_true,
        Option.some.injEq] at h
      rw [← h]; exact ⟨rfl, fun _ => hrun⟩
    · simp only [Bool.not_eq_true] at hrun
      simp only [hact, hrun, Bool.not_true, Bool.false_eq_true, if_false] at h
      obtain ⟨h1, h2⟩ := change_animation_frame api ready config usb_powered none _ _ h
      exact ⟨h1, fun _ => h2⟩
  · simp only [Bool.not_eq_true] at hact
    simp only [hact, Bool.not_false, if_true, Option.some.injEq] at h
    rw [← h]; exact ⟨rfl, fun h' => by rw [hact] at h'; cases h'⟩

/-- The clamped value that `change_brightness` computes. -/
theorem brightness_clamp_eq (b steps : Nat) (o : Int) :
    (if (if (b : Int) + o < 0 then 0 else (b : Int) + o) > (steps : Int) then (steps : Int)
      else (if (b : Int) + o < 0 then 0 else (b : Int) + o))
      = min (steps : Int) (max 0 ((b : Int) + o)) := by
  by_cases h1 : (b : Int) + o < 0
  · simp only [h1, if_true]
    split <;> omega
  · simp only [h1, if_false]
    split <;> omega

/-- Result of `change_brightness`, by cases on the clamped value `n`. -/
theorem change_brightness_result {σ : Type} (api : Nat → animation_api σ)
    (ready : Nat → Bool) (config : animation_control_config)
    (usb_powered : Bool) (o : Int) (power_source : animation_control_power_source)
    (st : Control σ) (hsteps : config.brightness_steps < 256) :
    ∃ n : Nat,
      (n : Int) = min (config.brightness_steps : Int)
        (max 0 ((selected_brightness (select_powered usb_powered power_source)
          st.data.s : Int) + o)) ∧
      ((selected_brightness (select_powered usb_powered power_source) st.data.s = n ∧
          animation_control_api_impl_change_brightness api ready config usb_powered o
            power_source st = some st) ∨
       (selected_brightness (select_powered usb_powered power_source) st.data.s ≠ n ∧
          ∃ st0 : Control σ,
            st0.data.s.active = st.data.s.active ∧
            st0.data.running = st.data.running ∧
            st0.data.running_animation = st.data.running_animation ∧
            st0.data.s.current_powered_animation = st.data.s.current_powered_animation ∧
            st0.data.s.current_battery_animation = st.data.s.current_battery_animation ∧
            selected_brightness (select_powered usb_powered power_source) st0.data.s = n ∧
            animation_control_api_impl_change_brightness api ready config usb_powered o
              power_source st
              = if n = 0 then some (animation_control_api_impl_stop api ready config st0)
                else if selected_brightness (select_powered usb_powered power_source)
                    st.data.s = 0
                then animation_control_api_impl_start api ready config usb_powered st0
                else some st0)) := by
  have hc := brightness_clamp_eq
    (selected_brightness (select_powered usb_powered power_source) st.data.s)
    config.brightness_steps o
  generalize hm : min (config.brightness_steps : Int)
    (max 0 ((selected_brightness (select_powered usb_powered power_source)
      st.data.s : Int) + o)) = m at hc
  have hm0 : 0 ≤ m := by omega
  have hms : m ≤ config.brightness_steps := by omega
  refine ⟨m.toNat, by omega, ?_⟩
  have hmod : m.toNat % 256 = m.toNat := Nat.mod_eq_of_lt (by omega)
  unfold animation_control_api_impl_change_brightness
  unfold selected_brightness at hc ⊢
  cases hp : select_powered usb_powered power_source
  · simp only [hp, Bool.false_eq_true, if_false] at hc ⊢
    rw [hc]
    by_cases hbn : (st.data.s.battery_brightness : Int) = m
    · left
      refine ⟨by omega, ?_⟩
      simp [hbn]
    · right
      refine ⟨by omega, { st with data := { st.data with
          s := { st.data.s with battery_brightness := m.toNat } } },
        rfl, rfl, rfl, rfl, rfl, rfl, ?_⟩
      simp only [ne_eq, hbn, not_false_eq_true, if_true, hmod]
      by_cases hz : m = 0
      · simp [hz]
      · have : m.toNat ≠ 0 := by omega
        simp only [hz, this, if_false]
        by_cases hb0 : st.data.s.battery_brightness = 0
        · simp [hb0]
        · have : ¬ (st.data.s.battery_brightness : Int) = 0 := by omega
          simp [hb0, this]
  · simp only [hp, if_true] at hc ⊢
    rw [hc]
    by_cases hbn : (st.data.s.powered_brightness : Int) = m
    · left
      refine ⟨by omega, ?_⟩
      simp [hbn]
    · right
      refine ⟨by omega, { st with data := { st.data with
          s := { st.data.s with powered_brightness := m.toNat } } },
        rfl, rfl, rfl, rfl, rfl, rfl, ?_⟩
      simp only [ne_eq, hbn, not_false_eq_true, if_true, hmod]
      by_cases hz : m = 0
      · simp [hz]
      · have : m.toNat ≠ 0 := by omega
        simp only [hz, this, if_false]
        by_cases hb0 : st.data.s.powered_brightness = 0
        · simp [hb0]
        · have : ¬ (st.data.s.powered_brightness : Int) = 0 := by omega
          simp [hb0, this]

/-- C12: for every stored brightness `b` of the selected power source and
every offset `o`, `change_brightness(o, source)` returns and leaves that
source's brightness equal to `min(steps, max(0, b + o))`, which lies in
`[0, steps]` (the controller's stored animation indices being valid and
`brightness_steps` a `uint8_t`). -/
theorem C12_change_brightness_clamped {σ : Type} (api : Nat → animation_api σ)
    (ready : Nat → Bool) (config : animation_control_config)
    (usb_powered : Bool) (o : Int) (power_source : animation_control_power_source)
    (st : Control σ) (hsteps : config.brightness_steps < 256)
    (hp : st.data.s.current_powered_animation < config.powered_animations.length)
    (hb : st.data.s.current_battery_animation < config.battery_animations.length) :
    ∃ st1,
      animation_control_api_impl_change_brightness api ready config usb_powered o
        power_source st = some st1 ∧
      (selected_brightness (select_powered usb_powered power_source) st1.data.s : Int)
        = min (config.brightness_steps : Int)
            (max 0 ((selected_brightness (select_powered usb_powered power_source)
              st.data.s : Int) + o)) ∧
      selected_brightness (select_powered usb_powered power_source) st1.data.s
        ≤ config.brightness_steps := by
  obtain ⟨n, hn, hcase⟩ := change_brightness_result api ready config usb_powered o
    power_source st hsteps
  have hle : n ≤ config.brightness_steps := by omega
  rcases hcase with ⟨hsame, hres⟩ | ⟨_, st0, _, _, _, hp0, hb0, hsel, hres⟩
  · exact ⟨st, hres, (congrArg Nat.cast hsame).trans hn, by rw [hsame]; exact hle⟩
  · by_cases hz : n = 0
    · rw [if_pos hz] at hres
      refine ⟨_, hres, ?_, ?_⟩ <;>
        rw [(control_stop_frame api ready config st0).1, hsel]
      · exact hn
      · exact hle
    · rw [if_neg hz] at hres
      by_cases hb0' : selected_brightness (select_powered usb_powered power_source)
          st.data.s = 0
      · rw [if_pos hb0'] at hres
        obtain ⟨st1, hst1⟩ := control_start_total api ready config usb_powered st0
          (by rw [hp0]; exact hp) (by rw [hb0]; exact hb)
        have hs := (control_start_frame api ready config usb_powered st0 st1 hst1).1
        refine ⟨st1, hres.trans hst1, ?_, ?_⟩ <;> rw [hs, hsel]
        · exact hn
        · exact hle
      · rw [if_neg hb0'] at hres
        refine ⟨st0, hres, ?_, ?_⟩ <;> rw [hsel]
        · exact hn
        · exact hle

theorem C12_change_brightness_clamped_witness :
    ∃ st1,
      animation_control_api_impl_change_brightness (fun _ => countdown_api)
        (fun _ => true) example_control_config true (-3)
        .ANIMATION_CONTROL_POWER_SOURCE_CURRENT example_control = some st1 ∧
      (selected_brightness
          (select_powered true .ANIMATION_CONTROL_POWER_SOURCE_CURRENT) st1.data.s : Int)
        = min (example_control_config.brightness_steps : Int)
            (max 0 ((selected_brightness
              (select_powered true .ANIMATION_CONTROL_POWER_SOURCE_CURRENT)
              example_control.data.s : Int) + (-3))) ∧
      selected_brightness (select_powered true .ANIMATION_CONTROL_POWER_SOURCE_CURRENT)
          st1.data.s
        ≤ example_control_config.brightness_steps :=
  C12_change_brightness_clamped (fun _ => countdown_api) (fun _ => true)
    example_control_config true (-3) .ANIMATION_CONTROL_POWER_SOURCE_CURRENT
    example_control (by decide) (by decide) (by decide)

/-- C13: a `change_brightness(o, source)` call returns with the selected
brightness at the clamped value `min(steps, max(0, b + o))` of the brightness
`b` before. When that takes the brightness from a non-zero `b` to 0 the
controller is left stopped (`running = false`, no current animation); when
it takes it from `b = 0` to a non-zero value an active controller is left
started (`running = true`). The state before satisfies "not running implies
no current animation". -/
theorem C13_change_brightness_stops_and_starts {σ : Type}
    (api : Nat → animation_api σ) (ready : Nat → Bool)
    (config : animation_control_config) (usb_powered : Bool) (o : Int)
    (power_source : animation_control_power_source) (st : Control σ)
    (hsteps : config.brightness_steps < 256)
    (hp : st.data.s.current_powered_animation < config.powered_animations.length)
    (hb : st.data.s.current_battery_animation < config.battery_animations.length)
    (hinv : st.data.running = false → st.data.running_animation.animation = none) :
    ∃ st1,
      animation_control_api_impl_change_brightness api ready config usb_powered o
        power_source st = some st1 ∧
      (selected_brightness (select_powered usb_powered power_source) st1.data.s : Int)
        = min (config.brightness_steps : Int)
            (max 0 ((selected_brightness (select_powered usb_powered power_source)
              st.data.s : Int) + o)) ∧
      (selected_brightness (select_powered usb_powered power_source) st.data.s ≠ 0 →
        min (config.brightness_steps : Int)
            (max 0 ((selected_brightness (select_powered usb_powered power_source)
              st.data.s : Int) + o)) = 0 →
        st1.data.running = false ∧ st1.data.running_animation.animation = none) ∧
      (selected_brightness (select_powered usb_powered power_source) st.data.s = 0 →
        min (config.brightness_steps : Int)
            (max 0 ((selected_brightness (select_powered usb_powered power_source)
              st.data.s : Int) + o)) ≠ 0 →
        st.data.s.active = true → st1.data.running = true) := by
  obtain ⟨n, hn, hcase⟩ := change_brightness_result api ready config usb_powered o
    power_source st hsteps
  rw [← hn]
  rcases hcase with ⟨hsame, hres⟩ | ⟨hne, st0, hact0, hrun0, hra0, hp0, hb0, hsel, hres⟩
  · refine ⟨st, hres, by rw [hsame], fun h1 h2 => ?_, fun h1 h2 => ?_⟩
    · rw [hsame] at h1
      exact absurd (by exact_mod_cast h2) h1
    · rw [hsame] at h1
      rw [h1] at h2
      exact absurd rfl h2
  · by_cases hz : n = 0
    · rw [if_pos hz] at hres
      refine ⟨_, hres, ?_, fun _ _ => ⟨control_stop_running api ready config st0, ?_⟩, ?_⟩
      · rw [(control_stop_frame api ready config st0).1, hsel]
      · by_cases hr : st0.data.running = true
        · exact (control_stop_frame api ready config st0).2 hr
        · simp only [Bool.not_eq_true] at hr
          rw [control_stop_of_stopped api ready config st0 hr, hra0]
          exact hinv (hrun0 ▸ hr)
      · intro _ h2
        rw [hz] at h2
        exact absurd rfl h2
    · rw [if_neg hz] at hres
      have hnz : ¬ ((n : Int) = 0) := by exact_mod_cast hz
      by_cases hb0' : selected_brightness (select_powered usb_powered power_source)
          st.data.s = 0
      · rw [if_pos hb0'] at hres
        obtain ⟨st1, hst1⟩ := control_start_total api ready config usb_powered st0
          (by rw [hp0]; exact hp) (by rw [hb0]; exact hb)
        obtain ⟨hs, hstarted⟩ :=
          control_start_frame api ready config usb_powered st0 st1 hst1
        refine ⟨st1, hres.trans hst1, by rw [hs, hsel],
          fun h1 _ => absurd hb0' h1, fun _ _ hact => ?_⟩
        exact hstarted (hact0.trans hact)
      · rw [if_neg hb0'] at hres
        exact ⟨st0, hres, by rw [hsel], fun _ h2 => absurd h2 hnz,
          fun h1 _ _ => absurd h1 hb0'⟩

theorem C13_change_brightness_stops_and_starts_witness :
    ∃ st1,
      animation_control_api_impl_change_brightness (fun _ => countdown_api)
        (fun _ => true) example_control_config true 1
        .ANIMATION_CONTROL_POWER_SOURCE_USB example_control_dark = some st1 ∧
      st1.data.s.powered_brightness = 1 ∧ st1.data.running = true := by
  obtain ⟨st1, h, _, _, hstart⟩ :=
    C13_change_brightness_stops_and_starts (fun _ => countdown_api) (fun _ => true)
      example_control_config true 1 .ANIMATION_CONTROL_POWER_SOURCE_USB
      example_control_dark (by decide) (by decide) (by decide) (fun _ => rfl)
  have e := h.symm.trans (show animation_control_api_impl_change_brightness
      (fun _ => countdown_api) (fun _ => true) example_control_config true 1
      .ANIMATION_CONTROL_POWER_SOURCE_USB example_control_dark = some _ from rfl)
  have hb : st1.data.s.powered_brightness = 1 := by
    rw [Option.some.inj e]
    rfl
  exact ⟨st1, h, hb, hstart rfl (by decide) rfl⟩

/-- C14 (failing input): an active, running controller on USB power with USB
brightness 1. `change_brightness(-1, USB)` takes the brightness to 0 and stops
the controller; a following `start` (as issued on every return to the active
state) does not look at the brightness: the controller runs again, with the
brightness in use still 0, an animation current and the power rail enabled. -/
theorem C14_running_at_zero_brightness :
    ∃ st1 st2,
      animation_control_api_impl_change_brightness (fun _ => countdown_api)
        (fun _ => true) example_control_config true (-1)
        .ANIMATION_CONTROL_POWER_SOURCE_USB example_control = some st1 ∧
      st1.data.running = false ∧
      animation_control_api_impl_start (fun _ => countdown_api) (fun _ => true)
        example_control_config true st1 = some st2 ∧
      brightness_in_use st2.data = 0 ∧
      st2.data.running = true ∧
      st2.data.running_animation.animation = some 0 ∧
      st2.ext_power_on = true :=
  ⟨_, _, rfl, rfl, rfl, rfl, rfl, rfl, rfl⟩

theorem control_data_load_small (data : animation_control_data) (offset index : Nat)
    (hidx : index < 256)
    (h : control_data_load_size_t data offset = index) :
    control_data_byte data offset = index := by
  unfold control_data_load_size_t at h
  omega

/-- C15: for a power source with `1 ≤ count ≤ 256` animations (indices are
stored in a `uint8_t`) and every index `i`, `set_animation(i, source)`
returns and leaves the stored index of that source equal to `i mod count`;
`set_animation(count + 2, source)` has the same result as
`set_animation(2, source)`. -/
theorem C15_set_animation_modulo {σ : Type} (config : animation_control_config)
    (usb_powered : Bool) (i : Nat) (power_source : animation_control_power_source)
    (st : Control σ)
    (hcount : 1 ≤ animation_count config (select_powered usb_powered power_source))
    (hcount256 : animation_count config (select_powered usb_powered power_source) ≤ 256)
    (hu8 : selected_index (select_powered usb_powered power_source) st.data.s < 256) :
    (∃ st1,
      animation_control_api_impl_set_animation config usb_powered i power_source st
        = some st1 ∧
      selected_index (select_powered usb_powered power_source) st1.data.s
        = i % animation_count config (select_powered usb_powered power_source)) ∧
    animation_control_api_impl_set_animation config usb_powered
        (animation_count config (select_powered usb_powered power_source) + 2)
        power_source st
      = animation_control_api_impl_set_animation config usb_powered 2 power_source st := by
  constructor
  · unfold animation_control_api_impl_set_animation
    unfold animation_count at hcount hcount256
    unfold selected_index at hu8
    unfold animation_count selected_index
    cases hp : select_powered usb_powered power_source
    · simp only [hp, Bool.false_eq_true, if_false] at hcount hcount256 hu8 ⊢
      have hne : config.battery_animations.length ≠ 0 := by omega
      have hlt : i % config.battery_animations.length < 256 :=
        Nat.lt_of_lt_of_le (Nat.mod_lt _ (by omega)) hcount256
      simp only [hne, if_false]
      by_cases hl : control_data_load_size_t st.data 4 = i % config.battery_animations.length
      · refine ⟨st, by simp [hl], ?_⟩
        have := control_data_load_small st.data 4 _ hlt hl
        simp only [control_data_byte] at this
        rw [← this, Nat.mod_eq_of_lt hu8]
      · refine ⟨_, if_pos hl, ?_⟩
        simp [control_data_store_size_t, control_data_set_byte, Nat.mod_eq_of_lt hlt]
    · simp only [hp, if_true] at hcount hcount256 hu8 ⊢
      have hne : config.powered_animations.length ≠ 0 := by omega
      have hlt : i % config.powered_animations.length < 256 :=
        Nat.lt_of_lt_of_le (Nat.mod_lt _ (by omega)) hcount256
      simp only [hne, if_false]
      by_cases hl : control_data_load_size_t st.data 3 = i % config.powered_animations.length
      · refine ⟨st, by simp [hl], ?_⟩
        have := control_data_load_small st.data 3 _ hlt hl
        simp only [control_data_byte] at this
        rw [← this, Nat.mod_eq_of_lt hu8]
      · refine ⟨_, if_pos hl, ?_⟩
        simp [control_data_store_size_t, control_data_set_byte, Nat.mod_eq_of_lt hlt]
  · unfold animation_control_api_impl_set_animation animation_count
    cases hp : select_powered usb_powered power_source <;>
      simp only [Bool.false_eq_true, if_false, if_true, Nat.add_mod_left]

theorem C15_set_animation_modulo_witness :
    (∃ st1,
      animation_control_api_impl_set_animation example_control_config2 true 5
        .ANIMATION_CONTROL_POWER_SOURCE_BATTERY example_control_init = some st1 ∧
      selected_index (select_powered true .ANIMATION_CONTROL_POWER_SOURCE_BATTERY)
          st1.data.s
        = 5 % animation_count example_control_config2
            (select_powered true .ANIMATION_CONTROL_POWER_SOURCE_BATTERY)) ∧
    animation_control_api_impl_set_animation example_control_config2 true
        (animation_count example_control_config2
          (select_powered true .ANIMATION_CONTROL_POWER_SOURCE_BATTERY) + 2)
        .ANIMATION_CONTROL_POWER_SOURCE_BATTERY example_control_init
      = animation_control_api_impl_set_animation example_control_config2 true 2
          .ANIMATION_CONTROL_POWER_SOURCE_BATTERY example_control_init :=
  C15_set_animation_modulo example_control_config2 true 5
    .ANIMATION_CONTROL_POWER_SOURCE_BATTERY example_control_init
    (by decide) (by decide) (by decide)

/-- With at least one animation the wrap-around loop of `set_next_animation`
terminates within `|offset|` iterations, on a non-negative value congruent to
the offset. -/
theorem set_next_animation_loop_spec (n : Nat) (hn : 1 ≤ n) :
    ∀ (fuel : Nat) (o : Int), -o ≤ fuel →
      ∃ r : Int, set_next_animation_loop n fuel o = some r ∧ 0 ≤ r ∧
        r % (n : Int) = o % (n : Int) := by
  intro fuel
  induction fuel with
  | zero =>
    intro o ho
    have : ¬ o < 0 := by omega
    exact ⟨o, by simp [set_next_animation_loop, this], by omega, rfl⟩
  | succ fuel ih =>
    intro o ho
    by_cases hneg : o < 0
    · obtain ⟨r, hr, hr0, hrm⟩ := ih (o + n) (by push_cast at ho ⊢; omega)
      refine ⟨r, by simp [set_next_animation_loop, hneg, hr], hr0, ?_⟩
      rw [hrm, Int.add_emod_self]
    · exact ⟨o, by simp [set_next_animation_loop, hneg], by omega, rfl⟩

theorem set_next_animation_index (c n : Nat) (o r : Int) (hn : 1 ≤ n) (hn256 : n ≤ 256)
    (hr0 : 0 ≤ r) (hrm : r % (n : Int) = o % (n : Int)) :
    (((c + r.toNat % n) % n % 256 : Nat) : Int) = ((c : Int) + o) % (n : Int) := by
  have hlt : (c + r.toNat % n) % n < 256 :=
    Nat.lt_of_lt_of_le (Nat.mod_lt _ (by omega)) hn256
  rw [Nat.mod_eq_of_lt hlt]
  push_cast
  rw [Int.toNat_of_nonneg hr0, Int.add_emod, Int.emod_emod_of_dvd _ (dvd_refl _), hrm,
    ← Int.add_emod]

/-- C16: for a power source with `1 ≤ count ≤ 256` animations (indices are
stored in a `uint8_t`), every stored index `c` and every non-zero offset `o`
of either sign, `set_next_animation(o, source)` returns and leaves the stored
index equal to `(c + o) mod count` with the non-negative mathematical
modulo. -/
theorem C16_set_next_animation_modulo {σ : Type} (config : animation_control_config)
    (usb_powered : Bool) (o : Int) (power_source : animation_control_power_source)
    (st : Control σ) (ho : o ≠ 0)
    (hcount : 1 ≤ animation_count config (select_powered usb_powered power_source))
    (hcount256 : animation_count config (select_powered usb_powered power_source) ≤ 256) :
    ∃ st1,
      animation_control_api_impl_set_next_animation config usb_powered o power_source st
        = some st1 ∧
      (selected_index (select_powered usb_powered power_source) st1.data.s : Int)
        = ((selected_index (select_powered usb_powered power_source) st.data.s : Int) + o)
            % (animation_count config (select_powered usb_powered power_source) : Int) := by
  unfold animation_control_api_impl_set_next_animation
  unfold animation_count at hcount hcount256
  unfold animation_count selected_index
  cases hp : select_powered usb_powered power_source
  · simp only [hp, Bool.false_eq_true, if_false] at hcount hcount256 ⊢
    obtain ⟨r, hr, hr0, hrm⟩ := set_next_animation_loop_spec
      config.battery_animations.length hcount o.natAbs o (by omega)
    have hne : config.battery_animations.length ≠ 0 := by omega
    simp only [ho, if_false, hr, hne]
    exact ⟨_, rfl, set_next_animation_index _ _ o r hcount hcount256 hr0 hrm⟩
  · simp only [hp, if_true] at hcount hcount256 ⊢
    obtain ⟨r, hr, hr0, hrm⟩ := set_next_animation_loop_spec
      config.powered_animations.length hcount o.natAbs o (by omega)
    have hne : config.powered_animations.length ≠ 0 := by omega
    simp only [ho, if_false, hr, hne]
    exact ⟨_, rfl, set_next_animation_index _ _ o r hcount hcount256 hr0 hrm⟩

theorem C16_set_next_animation_modulo_witness :
    ∃ st1,
      animation_control_api_impl_set_next_animation example_control_config2 true (-1)
        .ANIMATION_CONTROL_POWER_SOURCE_CURRENT example_control = some st1 ∧
      (selected_index (select_powered true .ANIMATION_CONTROL_POWER_SOURCE_CURRENT)
          st1.data.s : Int)
        = ((selected_index (select_powered true .ANIMATION_CONTROL_POWER_SOURCE_CURRENT)
              example_control.data.s : Int) + (-1))
            % (animation_count example_control_config2
                (select_powered true .ANIMATION_CONTROL_POWER_SOURCE_CURRENT) : Int) :=
  C16_set_next_animation_modulo example_control_config2 true (-1)
    .ANIMATION_CONTROL_POWER_SOURCE_CURRENT example_control (by decide) (by decide)
    (by decide)

/-- What `set_next_animation` leaves alone: when it returns, the index of the
other power source, both brightness values, the active flag and the running
flag are as before. -/
theorem set_next_animation_frame {σ : Type} (config : animation_control_config)
    (usb_powered : Bool) (o : Int) (power_source : animation_control_power_source)
    (st st1 : Control σ)
    (h : animation_control_api_impl_set_next_animation config usb_powered o
      power_source st = some st1) :
    selected_index (!select_powered usb_powered power_source) st1.data.s
        = selected_index (!select_powered usb_powered power_source) st.data.s
    ∧ st1.data.s.powered_brightness = st.data.s.powered_brightness
    ∧ st1.data.s.battery_brightness = st.data.s.battery_brightness
    ∧ st1.data.s.active = st.data.s.active
    ∧ st1.data.running = st.data.running := by
  unfold animation_control_api_impl_set_next_animation at h
  by_cases ho : o = 0
  · simp only [ho, if_true, Option.some.injEq] at h
    rw [← h]; exact ⟨rfl, rfl, rfl, rfl, rfl⟩
  · simp only [ho, if_false] at h
    cases hp : select_powered usb_powered power_source
    · simp only [hp, Bool.false_eq_true, if_false] at h
      cases hl : set_next_animation_loop config.battery_animations.length o.natAbs o with
      | none => simp [hl] at h
      | some r =>
        simp only [hl] at h
        by_cases hn : config.battery_animations.length = 0
        · simp [hn] at h
        · simp only [hn, if_false, Option.some.injEq] at h
          rw [← h]; simp [selected_index]
    · simp only [hp, if_true] at h
      cases hl : set_next_animation_loop config.powered_animations.length o.natAbs o with
      | none => simp [hl] at h
      | some r =>
        simp only [hl] at h
        by_cases hn : config.powered_animations.length = 0
        · simp [hn] at h
        · simp only [hn, if_false, Option.some.injEq] at h
          rw [← h]; simp [selected_index]

/-- C17 (failing input): running controller with two animations per power
source, USB index 0, battery index 1. `set_animation(1, USB)` stores the index
through a `size_t *` aimed at the one-byte member
`s.current_powered_animation`: the four-byte store also overwrites the two
members that follow it, so the battery index goes from 1 to 0 and `running`
goes from true to false (the current animation record stays set). -/
theorem C17_set_animation_clobbers_neighbours :
    ∃ st1,
      animation_control_api_impl_set_animation example_control_config2 true 1
        .ANIMATION_CONTROL_POWER_SOURCE_USB
        { example_control with
          data := { example_control.data with
                    s := { example_control.data.s with
                           current_battery_animation := 1 } } } = some st1 ∧
      st1.data.s.current_powered_animation = 1 ∧
      st1.data.s.current_battery_animation = 0 ∧
      st1.data.running = false ∧
      st1.data.running_animation.animation = some 0 :=
  ⟨_, rfl, rfl, rfl, rfl, rfl⟩

/-- C18: when the controller is inactive or not running, `enqueue` and
`play_now` return the state they were given: queue, current record, running
flag, frame counter, device data and recorded calls are all unchanged. -/
theorem C18_rejected_requests_change_nothing {σ : Type}
    (api : Nat → animation_api σ) (ready : Nat → Bool)
    (config : animation_control_config) (usb_powered : Bool)
    (animation : Option Nat) (cancelable : Bool) (duration_ms : Nat)
    (st : Control σ)
    (h : st.data.s.active = false ∨ st.data.running = false) :
    (animation_control_api_impl_enqueue_animation config animation cancelable
        duration_ms st).1 = st
    ∧ (animation_control_api_impl_play_now api ready config usb_powered animation
        cancelable duration_ms st).map Prod.fst = some st := by
  unfold animation_control_api_impl_enqueue_animation animation_control_api_impl_play_now
  rcases h with h | h
  · simp [h]
  · by_cases hact : st.data.s.active = true
    · simp [h, hact]
    · simp only [Bool.not_eq_true] at hact
      simp [hact]

theorem C18_rejected_requests_change_nothing_witness :
    (animation_control_api_impl_enqueue_animation example_control_config (some 0) false
        100 example_control_init).1 = example_control_init
    ∧ (animation_control_api_impl_play_now (fun _ => countdown_api) (fun _ => true)
        example_control_config true (some 0) false 100 example_control_init).map
        Prod.fst = some example_control_init :=
  C18_rejected_requests_change_nothing (fun _ => countdown_api) (fun _ => true)
    example_control_config true (some 0) false 100 example_control_init (Or.inr rfl)

/-- C19 (failing input): on the statically initialised controller (active,
not running) `enqueue` rejects the request, yet the returned status is 0, not
negative, although nothing was put in the queue: the rejection is not
reported. -/
theorem C19_rejected_enqueue_returns_zero :
    example_control_init.data.running = false
    ∧ (animation_control_api_impl_enqueue_animation example_control_config (some 0)
        false 100 example_control_init).2 = 0
    ∧ ¬ (animation_control_api_impl_enqueue_animation example_control_config (some 0)
        false 100 example_control_init).2 < 0
    ∧ (animation_control_api_impl_enqueue_animation example_control_config (some 0)
        false 100 example_control_init).1.que = [] :=
  ⟨rfl, rfl, by decide, rfl⟩

/-- The status of `enqueue` by cases: it is non-zero exactly when the
controller is active and running and the queue is full; that status is
negative and the state is unchanged. When the controller is inactive or not
running the request is dropped with status 0 and the state is unchanged. For
an active, running controller the status is 0 exactly when the record was
appended to the queue. -/
theorem enqueue_status_cases {σ : Type} (config : animation_control_config)
    (animation : Option Nat) (cancelable : Bool) (duration_ms : Nat)
    (st : Control σ) :
    ((animation_control_api_impl_enqueue_animation config animation cancelable
          duration_ms st).2 ≠ 0
        ↔ (st.data.s.active = true ∧ st.data.running = true
            ∧ config.que_size ≤ st.que.length))
    ∧ ((animation_control_api_impl_enqueue_animation config animation cancelable
          duration_ms st).2 ≠ 0 →
        (animation_control_api_impl_enqueue_animation config animation cancelable
            duration_ms st).2 < 0
        ∧ (animation_control_api_impl_enqueue_animation config animation cancelable
            duration_ms st).1 = st)
    ∧ ((st.data.s.active = false ∨ st.data.running = false) →
        (animation_control_api_impl_enqueue_animation config animation cancelable
            duration_ms st).2 = 0
        ∧ (animation_control_api_impl_enqueue_animation config animation cancelable
            duration_ms st).1 = st)
    ∧ (st.data.s.active = true → st.data.running = true →
        ((animation_control_api_impl_enqueue_animation config animation cancelable
            duration_ms st).2 = 0
          ↔ (animation_control_api_impl_enqueue_animation config animation cancelable
              duration_ms st).1.que
            = st.que ++ [{ animation := animation, cancelable := cancelable
                           duration_ms := duration_ms }])) := by
  unfold animation_control_api_impl_enqueue_animation
  by_cases hact : st.data.s.active = true
  · by_cases hrun : st.data.running = true
    · by_cases hq : st.que.length < config.que_size
      · have hq' : ¬ config.que_size ≤ st.que.length := by omega
        simp [hact, hrun, hq, hq']
      · have hq' : config.que_size ≤ st.que.length := by omega
        simp [hact, hrun, hq, hq', ENOMSG]
    · simp only [Bool.not_eq_true] at hrun
      simp [hact, hrun]
  · simp only [Bool.not_eq_true] at hact
    simp [hact]

/-- C20: for an active, running controller whose queue holds (at least)
`que_size` records, `enqueue` returns a non-zero status and the state is
unchanged: same queue contents in the same order, no frame requested. With
capacity 2 on a running controller: enqueue A and enqueue B return 0, enqueue
C returns non-zero with the queue still [A, B], and the next
`change_animation` without override makes A the current record and leaves
[B]. -/
theorem C20_enqueue_on_full_queue {σ : Type} (config : animation_control_config)
    (animation : Option Nat) (cancelable : Bool) (duration_ms : Nat)
    (st : Control σ) (hact : st.data.s.active = true)
    (hrun : st.data.running = true) (hfull : config.que_size ≤ st.que.length) :
    ((animation_control_api_impl_enqueue_animation config animation cancelable
        duration_ms st).2 ≠ 0
     ∧ (animation_control_api_impl_enqueue_animation config animation cancelable
        duration_ms st).1 = st)
    ∧ ((example_enqueue example_record_A example_control).2 = 0
       ∧ (example_enqueue example_record_B
            (example_enqueue example_record_A example_control).1).2 = 0
       ∧ (example_enqueue example_record_C
            (example_enqueue example_record_B
              (example_enqueue example_record_A example_control).1).1).2 ≠ 0
       ∧ (example_enqueue example_record_C
            (example_enqueue example_record_B
              (example_enqueue example_record_A example_control).1).1).1.que
          = [example_record_A, example_record_B]
       ∧ ∃ st1,
          change_animation (fun _ => countdown_api) (fun _ => true)
            example_control_config2 true none
            (example_enqueue example_record_C
              (example_enqueue example_record_B
                (example_enqueue example_record_A example_control).1).1).1
            = some st1
          ∧ st1.data.running_animation = example_record_A
          ∧ st1.que = [example_record_B]) := by
  refine ⟨?_, rfl, rfl, by decide, rfl, _, rfl, rfl, rfl⟩
  unfold animation_control_api_impl_enqueue_animation
  have hq : ¬ st.que.length < config.que_size := by omega
  simp [hact, hrun, hq, ENOMSG]

theorem C20_enqueue_on_full_queue_witness :
    (example_enqueue example_record_C
        (example_enqueue example_record_B
          (example_enqueue example_record_A example_control).1).1).2 ≠ 0
    ∧ (example_enqueue example_record_C
        (example_enqueue example_record_B
          (example_enqueue example_record_A example_control).1).1).1
      = (example_enqueue example_record_B
          (example_enqueue example_record_A example_control).1).1 :=
  (C20_enqueue_on_full_queue example_control_config2 example_record_C.animation
    example_record_C.cancelable example_record_C.duration_ms
    (example_enqueue example_record_B
      (example_enqueue example_record_A example_control).1).1
    rfl rfl (by decide)).1


/-! ## Theorems: animation controller, selection and preemption -/

/-- The lock section with a ready next animation: the record is installed,
the queue is untouched, and the calls are: stop of the previous animation (if
any), power rail on (if there is one), start of the new animation with the
record's duration, one frame requested. -/
theorem change_animation_set_ready {σ : Type} (api : Nat → animation_api σ)
    (ready : Nat → Bool) (config : animation_control_config)
    (next : animation_queue_record) (st : Control σ) (a : Nat)
    (hrun : st.data.running = true) (hn : next.animation = some a)
    (hr : ready a = true) :
    (change_animation_set api ready config next st).data
        = { st.data with running_animation := next }
    ∧ (change_animation_set api ready config next st).que = st.que
    ∧ (change_animation_set api ready config next st).world.trace
        = st.world.trace ++ stop_calls st.data.running_animation
            ++ power_calls ready config true
            ++ [Call.start a next.duration_ms, Call.request_frames 1]
    ∧ (device_is_ready ready config.ext_power = true →
        (change_animation_set api ready config next st).ext_power_on = true) := by
  have hrdy : device_is_ready ready next.animation = true := by
    rw [hn]; exact hr
  have hrdy2 : device_is_ready ready (some a) = true := hr
  unfold change_animation_set
  simp only [hrun, if_true, hrdy, Bool.not_true, Bool.false_eq_true, if_false, hn]
  cases hc : st.data.running_animation.animation <;>
    cases hp : device_is_ready ready config.ext_power <;>
    simp [set_power, hp, hc, hrdy2, hrun, stop_calls, power_calls, animation_start,
      animation_stop, World.request_frames]

/-- The lock section with a next animation that is not ready (or NULL): the
current record is emptied, running is kept, the queue is untouched, and the
calls are: stop of the previous animation (if any), power rail off (if there
is one). -/
theorem change_animation_set_not_ready {σ : Type} (api : Nat → animation_api σ)
    (ready : Nat → Bool) (config : animation_control_config)
    (next : animation_queue_record) (st : Control σ)
    (hrun : st.data.running = true)
    (hr : device_is_ready ready next.animation = false) :
    (change_animation_set api ready config next st).data
        = { st.data with running_animation := animation_queue_record.empty }
    ∧ (change_animation_set api ready config next st).que = st.que
    ∧ (change_animation_set api ready config next st).world.trace
        = st.world.trace ++ stop_calls st.data.running_animation
            ++ power_calls ready config false
    ∧ (change_animation_set api ready config next st).world.env.sched
        = (match st.data.running_animation.animation with
           | some c => (animation_stop api c st.world).env.sched
           | none => st.world.env.sched)
    ∧ (device_is_ready ready config.ext_power = true →
        (change_animation_set api ready config next st).ext_power_on = false) := by
  unfold change_animation_set
  simp only [hrun, if_true, hr, Bool.not_false]
  cases hc : st.data.running_animation.animation <;>
    cases hp : device_is_ready ready config.ext_power <;>
    simp [set_power, hp, hc, hrun, stop_calls, power_calls, animation_stop]

theorem change_animation_set_que {σ : Type} (api : Nat → animation_api σ)
    (ready : Nat → Bool) (config : animation_control_config)
    (next : animation_queue_record) (st : Control σ) :
    (change_animation_set api ready config next st).que = st.que := by
  unfold change_animation_set
  by_cases hrun : st.data.running = true
  · simp only [hrun, if_true]
    cases hc : st.data.running_animation.animation <;>
      cases hn : next.animation <;>
      simp only [device_is_ready] <;>
      (try split) <;>
      simp [(set_power_data ready config _ _).2]
  · simp only [Bool.not_eq_true] at hrun
    simp [hrun]

theorem device_is_ready_some (ready : Nat → Bool) (x : Option Nat)
    (h : device_is_ready ready x = true) : ∃ a, x = some a ∧ ready a = true := by
  cases x with
  | none => simp [device_is_ready] at h
  | some a => exact ⟨a, rfl, h⟩

/-- An ad-hoc record (from the parameter or the queue) on a running
controller: what `change_animation_adhoc` leaves, by readiness of the
record's animation. -/
theorem change_animation_adhoc_result {σ : Type} (api : Nat → animation_api σ)
    (ready : Nat → Bool) (config : animation_control_config)
    (next : animation_queue_record) (st : Control σ)
    (hrun : st.data.running = true) :
    (change_animation_adhoc api ready config next st).que = st.que
    ∧ (change_animation_adhoc api ready config next st).data.running = true
    ∧ (∀ a, next.animation = some a → ready a = true →
        (change_animation_adhoc api ready config next st).data.running_animation = next
        ∧ (change_animation_adhoc api ready config next st).world.trace
            = st.world.trace ++ stop_calls st.data.running_animation
                ++ power_calls ready config true
                ++ [Call.start a next.duration_ms, Call.request_frames 1])
    ∧ (device_is_ready ready next.animation = false →
        (change_animation_adhoc api ready config next st).data.running_animation
            = animation_queue_record.empty
        ∧ (change_animation_adhoc api ready config next st).world.trace
            = st.world.trace ++ [Call.request_frames 1]
                ++ stop_calls st.data.running_animation
                ++ power_calls ready config false
        ∧ (device_is_ready ready config.ext_power = true →
            (change_animation_adhoc api ready config next st).ext_power_on = false)) := by
  refine ⟨?_, ?_, ?_, ?_⟩
  · unfold change_animation_adhoc
    rw [change_animation_set_que]
    split <;> rfl
  · rw [(change_animation_adhoc_frame api ready config next st).2, hrun]
  · intro a hn hr
    have hrdy : device_is_ready ready next.animation = true := by rw [hn]; exact hr
    unfold change_animation_adhoc
    simp only [hrdy, if_true]
    obtain ⟨h1, _, h3, _⟩ := change_animation_set_ready api ready config next
      { st with data := { st.data with playing_adhoc_animation := true } } a hrun hn hr
    exact ⟨by rw [h1], h3⟩
  · intro hnr
    unfold change_animation_adhoc
    simp only [hnr, Bool.false_eq_true, if_false]
    obtain ⟨h1, _, h3, _, h5⟩ := change_animation_set_not_ready api ready config next
      { st with
        world := World.request_frames 1 st.world
        data := { st.data with playing_adhoc_animation := true } } hrun hnr
    exact ⟨by rw [h1], by rw [h3]; simp [World.request_frames], h5⟩

/-- C21: for an active, running controller, `change_animation(override)`
returns and acts on the record that the priority order of the spec selects:
the override if given (queue untouched), else the head of the queue (exactly
that record removed, the rest kept in order), else the animation of the
current power source at its stored index, cancelable and with duration
Forever. When the selected animation is ready it becomes the current one; an
ad-hoc selection is installed as given, and a power-state selection is
installed as given unless the same animation is already current and no ad-hoc
animation is playing. -/
theorem C21_change_animation_selection {σ : Type} (api : Nat → animation_api σ)
    (ready : Nat → Bool) (config : animation_control_config)
    (usb_powered : Bool) (override : Option animation_queue_record)
    (st : Control σ) (r : animation_queue_record)
    (hact : st.data.s.active = true) (hrun : st.data.running = true)
    (hsel : spec_selected_record config usb_powered override st = some r) :
    ∃ st1,
      change_animation api ready config usb_powered override st = some st1 ∧
      st1.que = spec_remaining_queue override st ∧
      (selects_adhoc override st = true →
        device_is_ready ready r.animation = true →
        st1.data.running_animation = r) ∧
      (selects_adhoc override st = false →
        r.cancelable = true ∧ r.duration_ms = ANIMATION_DURATION_FOREVER ∧
        (device_is_ready ready r.animation = true →
          st1.data.running_animation.animation = r.animation ∧
          ((st.data.running_animation.animation ≠ r.animation
              ∨ st.data.playing_adhoc_animation = true) →
            st1.data.running_animation = r))) := by
  have hg1 : ¬ ((!st.data.s.active) = true) := by simp [hact]
  have hg2 : ¬ ((!st.data.running) = true) := by simp [hrun]
  unfold change_animation
  rw [if_neg hg1, if_neg hg2]
  cases override with
  | some n =>
    simp only [spec_selected_record, Option.some.injEq] at hsel
    subst hsel
    obtain ⟨hq, _, hready, _⟩ := change_animation_adhoc_result api ready config n
      { st with data := { st.data with change_animation_if_cancelable := false
                                       last_powered := usb_powered } } hrun
    refine ⟨_, rfl, hq, fun _ hr => ?_, fun h => by simp [selects_adhoc] at h⟩
    obtain ⟨a, ha, hra⟩ := device_is_ready_some ready _ hr
    exact (hready a ha hra).1
  | none =>
    cases hque : st.que with
    | cons n rest =>
      simp only [spec_selected_record, hque, Option.some.injEq] at hsel
      subst hsel
      obtain ⟨hq, _, hready, _⟩ := change_animation_adhoc_result api ready config n
        { st with
          que := rest
          data := { st.data with change_animation_if_cancelable := false
                                 last_powered := usb_powered } } hrun
      refine ⟨_, rfl, by rw [hq]; simp [spec_remaining_queue, hque],
        fun _ hr => ?_, fun h => by simp [selects_adhoc, hque] at h⟩
      obtain ⟨a, ha, hra⟩ := device_is_ready_some ready _ hr
      exact (hready a ha hra).1
    | nil =>
      simp only [spec_selected_record, hque, Option.map_eq_some'] at hsel
      obtain ⟨a, ha, hr⟩ := hsel
      have hg : get_animation_for_current_power_state config
          { st.data with change_animation_if_cancelable := false
                         last_powered := usb_powered } = some a := by
        unfold get_animation_for_current_power_state
        exact ha
      simp only [hg]
      subst hr
      by_cases hsame : (st.data.running_animation.animation == some a
          && !st.data.playing_adhoc_animation) = true
      · simp only [hsame, if_true]
        simp only [Bool.and_eq_true, beq_iff_eq, Bool.not_eq_true'] at hsame
        refine ⟨_, rfl, by simp [spec_remaining_queue, hque],
          fun h => by simp [selects_adhoc, hque] at h,
          fun _ => ⟨by simp, by simp, fun _ => ⟨hsame.1, fun hor => ?_⟩⟩⟩
        rcases hor with h1 | h2
        · exact absurd hsame.1 h1
        · rw [hsame.2] at h2; cases h2
      · simp only [hsame, Bool.false_eq_true, if_false]
        refine ⟨_, rfl, by rw [change_animation_set_que]; simp [spec_remaining_queue, hque],
          fun h => by simp [selects_adhoc, hque] at h,
          fun _ => ⟨by simp, by simp, fun hrdy => ?_⟩⟩
        have h1 := (change_animation_set_ready api ready config
          { animation := some a, cancelable := true
            duration_ms := ANIMATION_DURATION_FOREVER }
          { st with
            que := []
            data := { st.data with change_animation_if_cancelable := false
                                   last_powered := usb_powered
                                   playing_adhoc_animation := false } }
          a hrun rfl hrdy).1
        exact ⟨congrArg (fun d => d.running_animation.animation) h1,
          fun _ => congrArg (fun d => d.running_animation) h1⟩

theorem C21_change_animation_selection_witness :
    ∃ st1,
      change_animation (fun _ => countdown_api) (fun _ => true) example_control_config2
        true none
        (example_enqueue example_record_B
          (example_enqueue example_record_A example_control).1).1 = some st1 ∧
      st1.que = spec_remaining_queue none
        (example_enqueue example_record_B
          (example_enqueue example_record_A example_control).1).1 ∧
      (selects_adhoc none
          (example_enqueue example_record_B
            (example_enqueue example_record_A example_control).1).1 = true →
        device_is_ready (fun _ => true) example_record_A.animation = true →
        st1.data.running_animation = example_record_A) ∧
      (selects_adhoc none
          (example_enqueue example_record_B
            (example_enqueue example_record_A example_control).1).1 = false →
        example_record_A.cancelable = true ∧
        example_record_A.duration_ms = ANIMATION_DURATION_FOREVER ∧
        (device_is_ready (fun _ => true) example_record_A.animation = true →
          st1.data.running_animation.animation = example_record_A.animation ∧
          (((example_enqueue example_record_B
                (example_enqueue example_record_A
                  example_control).1).1.data.running_animation.animation
              ≠ example_record_A.animation
              ∨ (example_enqueue example_record_B
                  (example_enqueue example_record_A
                    example_control).1).1.data.playing_adhoc_animation = true) →
            st1.data.running_animation = example_record_A))) :=
  C21_change_animation_selection (fun _ => countdown_api) (fun _ => true)
    example_control_config2 true none
    (example_enqueue example_record_B
      (example_enqueue example_record_A example_control).1).1
    example_record_A rfl rfl rfl

/-- C22: for an active, running controller and a ready animation `a`,
`play_now` returns status 0 with the current record equal to
`{a, cancelable, duration}`, the queue unchanged and the controller still
running; the calls it made are, in order: stop of the previously current
animation (if any, cancelable or not), power rail on (if there is one),
`start` of `a` with the given duration, one frame requested. -/
theorem C22_play_now_preempts {σ : Type} (api : Nat → animation_api σ)
    (ready : Nat → Bool) (config : animation_control_config)
    (usb_powered : Bool) (a : Nat) (cancelable : Bool) (duration_ms : Nat)
    (st : Control σ) (hact : st.data.s.active = true)
    (hrun : st.data.running = true) (hr : ready a = true) :
    ∃ st1,
      animation_control_api_impl_play_now api ready config usb_powered (some a)
        cancelable duration_ms st = some (st1, 0) ∧
      st1.data.running_animation
        = { animation := some a, cancelable := cancelable, duration_ms := duration_ms } ∧
      st1.que = st.que ∧
      st1.data.running = true ∧
      st1.world.trace = st.world.trace ++ stop_calls st.data.running_animation
        ++ power_calls ready config true
        ++ [Call.start a duration_ms, Call.request_frames 1] := by
  have hg1 : ¬ ((!st.data.s.active) = true) := by simp [hact]
  have hg2 : ¬ ((!st.data.running) = true) := by simp [hrun]
  obtain ⟨hq, hrunning, hready, _⟩ := change_animation_adhoc_result api ready config
    { animation := some a, cancelable := cancelable, duration_ms := duration_ms }
    { st with data := { st.data with change_animation_if_cancelable := false
                                     last_powered := usb_powered } } hrun
  obtain ⟨hrec, htrace⟩ := hready a rfl hr
  refine ⟨_, ?_, hrec, hq, hrunning, htrace⟩
  unfold animation_control_api_impl_play_now
  rw [if_neg hg1, if_neg hg2]
  dsimp only
  unfold change_animation
  rw [if_neg hg1, if_neg hg2]

theorem C22_play_now_preempts_witness :
    ∃ st1,
      animation_control_api_impl_play_now (fun _ => countdown_api) (fun _ => true)
        example_control_config2 true (some 4) false 100 example_control_bright
        = some (st1, 0) ∧
      st1.data.running_animation
        = { animation := some 4, cancelable := false, duration_ms := 100 } ∧
      st1.que = example_control_bright.que ∧
      st1.data.running = true ∧
      st1.world.trace = example_control_bright.world.trace
        ++ stop_calls example_control_bright.data.running_animation
        ++ power_calls (fun _ => true) example_control_config2 true
        ++ [Call.start 4 100, Call.request_frames 1] :=
  C22_play_now_preempts (fun _ => countdown_api) (fun _ => true)
    example_control_config2 true 4 false 100 example_control_bright rfl rfl rfl

/-- C23 (failing input): running controller whose current animation is
device 0, queue empty; request: play device 4 now. The operation
`animation_control_api_impl_play_now` installs device 4 as the current record
and leaves the queue empty. The public entry point
`animation_control_play_now` instead appends the record to the queue and
leaves device 0 current: it goes through `enqueue_animation`. -/
theorem C23_public_play_now_enqueues :
    (animation_control_play_now example_control_config2 (some 4) false 100
        example_control).1.que
      = [{ animation := some 4, cancelable := false, duration_ms := 100 }]
    ∧ (animation_control_play_now example_control_config2 (some 4) false 100
        example_control).1.data.running_animation.animation = some 0
    ∧ (animation_control_play_now example_control_config2 (some 4) false 100
        example_control).1.world.trace = [Call.request_frames 1]
    ∧ ∃ st1,
        animation_control_api_impl_play_now (fun _ => countdown_api) (fun _ => true)
          example_control_config2 true (some 4) false 100 example_control
          = some (st1, 0)
        ∧ st1.que = []
        ∧ st1.data.running_animation.animation = some 4
        ∧ st1.world.trace
          = [Call.stop 0, Call.ext_power true, Call.start 4 100, Call.request_frames 1] :=
  ⟨rfl, rfl, rfl, _, rfl, rfl, rfl, rfl⟩

/-- C24: for an active, running controller whose current animation (if any)
is ready, when the record selected by `change_animation` has an animation
that is not ready (or is NULL), the call returns with the current record
empty, `running` still true and the power rail (if there is one) off; the
calls it made are: one frame requested when the record was ad-hoc, stop of
the previous current animation (if any), power rail off. -/
theorem C24_not_ready_goes_idle {σ : Type} (api : Nat → animation_api σ)
    (ready : Nat → Bool) (config : animation_control_config)
    (usb_powered : Bool) (override : Option animation_queue_record)
    (st : Control σ) (r : animation_queue_record)
    (hact : st.data.s.active = true) (hrun : st.data.running = true)
    (hsel : spec_selected_record config usb_powered override st = some r)
    (hnr : device_is_ready ready r.animation = false)
    (hcur : ∀ c, st.data.running_animation.animation = some c → ready c = true) :
    ∃ st1,
      change_animation api ready config usb_powered override st = some st1 ∧
      st1.data.running_animation = animation_queue_record.empty ∧
      st1.data.running_animation.animation = none ∧
      st1.data.running = true ∧
      (device_is_ready ready config.ext_power = true → st1.ext_power_on = false) ∧
      st1.world.trace = st.world.trace
        ++ (if selects_adhoc override st then [Call.request_frames 1] else [])
        ++ stop_calls st.data.running_animation
        ++ power_calls ready config false := by
  have hg1 : ¬ ((!st.data.s.active) = true) := by simp [hact]
  have hg2 : ¬ ((!st.data.running) = true) := by simp [hrun]
  unfold change_animation
  rw [if_neg hg1, if_neg hg2]
  cases override with
  | some n =>
    simp only [spec_selected_record, Option.some.injEq] at hsel
    subst hsel
    obtain ⟨_, hrunning, _, hnot⟩ := change_animation_adhoc_result api ready config n
      { st with data := { st.data with change_animation_if_cancelable := false
                                       last_powered := usb_powered } } hrun
    obtain ⟨hrec, htrace, hpow⟩ := hnot hnr
    exact ⟨_, rfl, hrec, by rw [hrec]; rfl, hrunning, hpow,
      by rw [htrace]; simp [selects_adhoc]⟩
  | none =>
    cases hque : st.que with
    | cons n rest =>
      simp only [spec_selected_record, hque, Option.some.injEq] at hsel
      subst hsel
      obtain ⟨_, hrunning, _, hnot⟩ := change_animation_adhoc_result api ready config n
        { st with
          que := rest
          data := { st.data with change_animation_if_cancelable := false
                                 last_powered := usb_powered } } hrun
      obtain ⟨hrec, htrace, hpow⟩ := hnot hnr
      exact ⟨_, rfl, hrec, by rw [hrec]; rfl, hrunning, hpow,
        by rw [htrace]; simp [selects_adhoc, hque]⟩
    | nil =>
      simp only [spec_selected_record, hque, Option.map_eq_some'] at hsel
      obtain ⟨a, ha, hr⟩ := hsel
      have hg : get_animation_for_current_power_state config
          { st.data with change_animation_if_cancelable := false
                         last_powered := usb_powered } = some a := by
        unfold get_animation_for_current_power_state
        exact ha
      simp only [hg]
      subst hr
      have hsame : ¬ (st.data.running_animation.animation == some a
          && !st.data.playing_adhoc_animation) = true := by
        intro h
        simp only [Bool.and_eq_true, beq_iff_eq] at h
        have := hcur a h.1
        simp only [device_is_ready] at hnr
        rw [this] at hnr
        cases hnr
      simp only [hsame, Bool.false_eq_true, if_false]
      obtain ⟨h1, _, h3, _, h5⟩ := change_animation_set_not_ready api ready config
        { animation := some a, cancelable := true
          duration_ms := ANIMATION_DURATION_FOREVER }
        { st with
          que := []
          data := { st.data with change_animation_if_cancelable := false
                                 last_powered := usb_powered
                                 playing_adhoc_animation := false } } hrun hnr
      exact ⟨_, rfl, congrArg (fun d => d.running_animation) h1,
        congrArg (fun d => d.running_animation.animation) h1,
        (congrArg (fun d => d.running) h1).trans hrun, h5,
        by rw [h3]; simp [selects_adhoc, hque]⟩

theorem C24_not_ready_goes_idle_witness :
    ∃ st1,
      change_animation (fun _ => countdown_api) (fun dev => dev != 4)
        example_control_config2 true (some example_record_A) example_control
        = some st1 ∧
      st1.data.running_animation = animation_queue_record.empty ∧
      st1.data.running_animation.animation = none ∧
      st1.data.running = true ∧
      (device_is_ready (fun dev => dev != 4) example_control_config2.ext_power = true →
        st1.ext_power_on = false) ∧
      st1.world.trace = example_control.world.trace
        ++ (if selects_adhoc (some example_record_A) example_control
            then [Call.request_frames 1] else [])
        ++ stop_calls example_control.data.running_animation
        ++ power_calls (fun dev => dev != 4) example_control_config2 false :=
  C24_not_ready_goes_idle (fun _ => countdown_api) (fun dev => dev != 4)
    example_control_config2 true (some example_record_A) example_control
    example_record_A rfl rfl rfl rfl (fun c hc => by
      have : c = 0 := by
        have h0 : example_control.data.running_animation.animation = some 0 := rfl
        rw [h0] at hc
        exact (Option.some.inj hc).symm
      subst this
      rfl)

/-! ## Theorems: animation controller, rendering and invariants -/

/-- On an active, running controller `render_frame` is: render the current
animation and scale, then `change_animation(NULL)` when the current animation
is absent or finished or may be cancelled, else nothing more. -/
theorem control_render_frame_eq {σ : Type} (api : Nat → animation_api σ)
    (ready : Nat → Bool) (config : animation_control_config)
    (usb_powered : Bool) (st : Control σ)
    (hact : st.data.s.active = true) (hrun : st.data.running = true) :
    animation_control_api_impl_render_frame api ready config usb_powered st
      = if ((match st.data.running_animation.animation with
              | some a => animation_is_finished api a
                  (control_render_current api config st).world
              | none => true)
            || (st.data.running_animation.cancelable
                && ((control_render_current api config st).data.change_animation_if_cancelable
                    || decide ((control_render_current api config st).que.length > 0))))
          = true
        then change_animation api ready config usb_powered none
          (control_render_current api config st)
        else some (control_render_current api config st) := by
  have hg1 : ¬ ((!st.data.s.active) = true) := by simp [hact]
  have hg2 : ¬ ((!st.data.running) = true) := by simp [hrun]
  unfold animation_control_api_impl_render_frame
  rw [if_neg hg1, if_neg hg2]
  rfl

theorem control_render_current_data {σ : Type} (api : Nat → animation_api σ)
    (config : animation_control_config) (st : Control σ) :
    (control_render_current api config st).data = st.data
    ∧ (control_render_current api config st).que = st.que
    ∧ (control_render_current api config st).ext_power_on = st.ext_power_on := by
  unfold control_render_current
  cases st.data.running_animation.animation with
  | none => exact ⟨rfl, rfl, rfl⟩
  | some a =>
    simp only
    split <;> split <;> exact ⟨rfl, rfl, rfl⟩

/-- C25: for an active, running controller, `render_frame` goes on to
`change_animation(NULL)` exactly when the current record has no animation, or
the current animation reports finished after being rendered, or the record is
cancelable and the change-if-cancelable flag is set or the queue is
non-empty; otherwise it stops after rendering. In particular a
non-cancelable, unfinished current animation is left in place with the queue
untouched, whatever is queued. -/
theorem C25_render_frame_advances_iff {σ : Type} (api : Nat → animation_api σ)
    (ready : Nat → Bool) (config : animation_control_config)
    (usb_powered : Bool) (st : Control σ)
    (hact : st.data.s.active = true) (hrun : st.data.running = true) :
    ((st.data.running_animation.animation = none
        ∨ (∃ a, st.data.running_animation.animation = some a
            ∧ animation_is_finished api a (control_render_current api config st).world
                = true)
        ∨ (st.data.running_animation.cancelable = true
            ∧ (st.data.change_animation_if_cancelable = true ∨ st.que ≠ []))) →
      animation_control_api_impl_render_frame api ready config usb_powered st
        = change_animation api ready config usb_powered none
            (control_render_current api config st))
    ∧ (¬ (st.data.running_animation.animation = none
        ∨ (∃ a, st.data.running_animation.animation = some a
            ∧ animation_is_finished api a (control_render_current api config st).world
                = true)
        ∨ (st.data.running_animation.cancelable = true
            ∧ (st.data.change_animation_if_cancelable = true ∨ st.que ≠ []))) →
      animation_control_api_impl_render_frame api ready config usb_powered st
        = some (control_render_current api config st))
    ∧ (∀ a, st.data.running_animation.animation = some a →
        st.data.running_animation.cancelable = false →
        animation_is_finished api a (control_render_current api config st).world = false →
        ∃ st1,
          animation_control_api_impl_render_frame api ready config usb_powered st
            = some st1
          ∧ st1.data.running_animation = st.data.running_animation
          ∧ st1.que = st.que) := by
  obtain ⟨hd, hq, _⟩ := control_render_current_data api config st
  rw [control_render_frame_eq api ready config usb_powered st hact hrun, hd, hq]
  refine ⟨?_, ?_, ?_⟩
  · intro h
    rw [if_pos]
    rcases h with h | ⟨a, ha, hf⟩ | ⟨hc, hflag | hne⟩
    · simp [h]
    · simp [ha, hf]
    · simp [hc, hflag]
    · have : st.que.length > 0 := List.length_pos.mpr hne
      simp [hc, this]
  · intro h
    rw [if_neg]
    intro hcond
    apply h
    simp only [Bool.or_eq_true, Bool.and_eq_true, decide_eq_true_eq] at hcond
    rcases hcond with hfin | ⟨hc, hflag | hlen⟩
    · cases ha : st.data.running_animation.animation with
      | none => exact Or.inl rfl
      | some a =>
        rw [ha] at hfin
        exact Or.inr (Or.inl ⟨a, rfl, hfin⟩)
    · exact Or.inr (Or.inr ⟨hc, Or.inl hflag⟩)
    · exact Or.inr (Or.inr ⟨hc, Or.inr (List.length_pos.mp hlen)⟩)
  · intro a ha hc hf
    refine ⟨control_render_current api config st, ?_, by rw [hd], hq⟩
    rw [if_neg]
    simp [ha, hc, hf]

theorem C25_render_frame_advances_iff_witness :
    ∃ st1,
      animation_control_api_impl_render_frame (fun _ => countdown_api) (fun _ => true)
        example_control_config2 true
        (example_enqueue example_record_A example_control_bright).1 = some st1
      ∧ st1.data.running_animation
        = (example_enqueue example_record_A example_control_bright).1.data.running_animation
      ∧ st1.que = (example_enqueue example_record_A example_control_bright).1.que :=
  (C25_render_frame_advances_iff (fun _ => countdown_api) (fun _ => true)
    example_control_config2 true
    (example_enqueue example_record_A example_control_bright).1 rfl rfl).2.2 0 rfl rfl rfl

theorem control_stop_idle {σ : Type} (api : Nat → animation_api σ)
    (ready : Nat → Bool) (config : animation_control_config) (st : Control σ)
    (h : st.idle_when_stopped) :
    (animation_control_api_impl_stop api ready config st).idle_when_stopped := by
  intro _
  by_cases hrun : st.data.running = true
  · exact (control_stop_frame api ready config st).2 hrun
  · simp only [Bool.not_eq_true] at hrun
    rw [control_stop_of_stopped api ready config st hrun]
    exact h hrun

theorem change_animation_idle {σ : Type} (api : Nat → animation_api σ)
    (ready : Nat → Bool) (config : animation_control_config)
    (usb_powered : Bool) (next : Option animation_queue_record)
    (st st1 : Control σ) (h : st.idle_when_stopped)
    (hres : change_animation api ready config usb_powered next st = some st1) :
    st1.idle_when_stopped := by
  by_cases hrun : st.data.running = true
  · intro h1
    rw [(change_animation_frame api ready config usb_powered next st st1 hres).2, hrun] at h1
    cases h1
  · simp only [Bool.not_eq_true] at hrun
    have : change_animation api ready config usb_powered next st = some st := by
      unfold change_animation
      by_cases hact : st.data.s.active = true <;> simp [hact, hrun]
    rw [this] at hres
    cases hres
    exact h

theorem control_start_idle {σ : Type} (api : Nat → animation_api σ)
    (ready : Nat → Bool) (config : animation_control_config)
    (usb_powered : Bool) (st st1 : Control σ) (h : st.idle_when_stopped)
    (hres : animation_control_api_impl_start api ready config usb_powered st = some st1) :
    st1.idle_when_stopped := by
  unfold animation_control_api_impl_start at hres
  by_cases hact : st.data.s.active = true
  · by_cases hrun : st.data.running = true
    · simp only [hact, hrun, Bool.not_true, Bool.false_eq_true, if_false, if_true,
        Option.some.injEq] at hres
      rw [← hres]; exact h
    · simp only [Bool.not_eq_true] at hrun
      simp only [hact, hrun, Bool.not_true, Bool.false_eq_true, if_false] at hres
      intro h1
      rw [(change_animation_frame api ready config usb_powered none _ st1 hres).2] at h1
      cases h1
  · simp only [Bool.not_eq_true] at hact
    simp only [hact, Bool.not_false, if_true, Option.some.injEq] at hres
    rw [← hres]; exact h

theorem change_brightness_shape {σ : Type} (api : Nat → animation_api σ)
    (ready : Nat → Bool) (config : animation_control_config)
    (usb_powered : Bool) (o : Int) (power_source : animation_control_power_source)
    (st : Control σ) :
    ∃ st0 : Control σ,
      st0.data.running = st.data.running ∧
      st0.data.running_animation = st.data.running_animation ∧
      (animation_control_api_impl_change_brightness api ready config usb_powered o
          power_source st = some st
        ∨ animation_control_api_impl_change_brightness api ready config usb_powered o
          power_source st = some (animation_control_api_impl_stop api ready config st0)
        ∨ animation_control_api_impl_change_brightness api ready config usb_powered o
          power_source st = animation_control_api_impl_start api ready config usb_powered st0
        ∨ animation_control_api_impl_change_brightness api ready config usb_powered o
          power_source st = some st0) := by
  have hc := brightness_clamp_eq
    (selected_brightness (select_powered usb_powered power_source) st.data.s)
    config.brightness_steps o
  generalize hm : min (config.brightness_steps : Int)
    (max 0 ((selected_brightness (select_powered usb_powered power_source)
      st.data.s : Int) + o)) = m at hc
  unfold animation_control_api_impl_change_brightness
  unfold selected_brightness at hc
  cases hp : select_powered usb_powered power_source
  · simp only [hp, Bool.false_eq_true, if_false] at hc ⊢
    rw [hc]
    by_cases hbn : (st.data.s.battery_brightness : Int) = m
    · exact ⟨st, rfl, rfl, Or.inl (by simp [hbn])⟩
    · refine ⟨{ st with data := { st.data with
          s := { st.data.s with battery_brightness := m.toNat % 256 } } }, rfl, rfl, ?_⟩
      simp only [ne_eq, hbn, not_false_eq_true, if_true]
      by_cases hz : m = 0
      · right; left; simp [hz]
      · by_cases hb0 : (st.data.s.battery_brightness : Int) = 0
        · right; right; left; simp [hz, hb0]
        · right; right; right; simp [hz, hb0]
  · simp only [hp, if_true] at hc ⊢
    rw [hc]
    by_cases hbn : (st.data.s.powered_brightness : Int) = m
    · exact ⟨st, rfl, rfl, Or.inl (by simp [hbn])⟩
    · refine ⟨{ st with data := { st.data with
          s := { st.data.s with powered_brightness := m.toNat % 256 } } }, rfl, rfl, ?_⟩
      simp only [ne_eq, hbn, not_false_eq_true, if_true]
      by_cases hz : m = 0
      · right; left; simp [hz]
      · by_cases hb0 : (st.data.s.powered_brightness : Int) = 0
        · right; right; left; simp [hz, hb0]
        · right; right; right; simp [hz, hb0]

theorem idle_when_stopped_of_eq {σ : Type} (st st0 : Control σ)
    (h : st.idle_when_stopped) (h1 : st0.data.running = st.data.running)
    (h2 : st0.data.running_animation = st.data.running_animation) :
    st0.idle_when_stopped := by
  intro hr
  rw [h2]
  exact h (h1 ▸ hr)

theorem control_step_idle {σ : Type} (api : Nat → animation_api σ)
    (ready : Nat → Bool) (config : animation_control_config)
    (st st1 : Control σ) (op : ControlOp) (h : st.idle_when_stopped)
    (hres : control_step api ready config st op = some st1) :
    st1.idle_when_stopped := by
  cases op with
  | start usb => exact control_start_idle api ready config usb st st1 h hres
  | stop =>
    simp only [control_step, Option.some.injEq] at hres
    rw [← hres]; exact control_stop_idle api ready config st h
  | set_enabled usb e =>
    simp only [control_step, animation_control_api_impl_set_enabled] at hres
    by_cases hsame : (st.data.s.active == e) = true
    · rw [if_pos hsame] at hres
      cases hres; exact h
    · rw [if_neg hsame] at hres
      have h0 : Control.idle_when_stopped
          { st with data := { st.data with s := { st.data.s with active := e } } } :=
        idle_when_stopped_of_eq st _ h rfl rfl
      cases e with
      | true =>
        simp only [if_true] at hres
        exact control_start_idle api ready config usb _ st1 h0 hres
      | false =>
        simp only [Bool.false_eq_true, if_false, Option.some.injEq] at hres
        rw [← hres]; exact control_stop_idle api ready config _ h0
  | change_brightness usb o src =>
    simp only [control_step] at hres
    obtain ⟨st0, h1, h2, hshape⟩ := change_brightness_shape api ready config usb o src st
    have h0 := idle_when_stopped_of_eq st st0 h h1 h2
    rcases hshape with hs | hs | hs | hs
    · rw [hs] at hres; cases hres; exact h
    · rw [hs] at hres; cases hres; exact control_stop_idle api ready config st0 h0
    · rw [hs] at hres; exact control_start_idle api ready config usb st0 st1 h0 hres
    · rw [hs] at hres; cases hres; exact h0
  | change_animation usb next =>
    exact change_animation_idle api ready config usb next st st1 h hres
  | render_frame usb =>
    simp only [control_step] at hres
    by_cases hact : st.data.s.active = true
    · by_cases hrun : st.data.running = true
      · rw [control_render_frame_eq api ready config usb st hact hrun] at hres
        have hd := (control_render_current_data api config st).1
        split at hres
        · intro h1
          rw [(change_animation_frame api ready config usb none _ st1 hres).2, hd,
            hrun] at h1
          cases h1
        · cases hres
          intro h1
          rw [hd, hrun] at h1
          cases h1
      · simp only [Bool.not_eq_true] at hrun
        simp only [animation_control_api_impl_render_frame, hact, hrun, Bool.not_true,
          Bool.not_false, Bool.false_eq_true, if_false, if_true, Option.some.injEq] at hres
        rw [← hres]; exact h
    · simp only [Bool.not_eq_true] at hact
      simp only [animation_control_api_impl_render_frame, hact, Bool.not_false, if_true,
        Option.some.injEq] at hres
      rw [← hres]; exact h
  | enqueue a c d =>
    simp only [control_step, Option.some.injEq] at hres
    rw [← hres]
    unfold animation_control_api_impl_enqueue_animation
    split
    · exact h
    · split
      · exact h
      · split
        · exact h
        · exact h
  | play_now usb a c d =>
    simp only [control_step, animation_control_api_impl_play_now] at hres
    split at hres
    · cases hres; exact h
    · split at hres
      · cases hres; exact h
      · split at hres
        · cases hres
        · rename_i st2 hca
          cases hres
          exact change_animation_idle api ready config usb _ st st2 h hca

theorem control_run_idle {σ : Type} (api : Nat → animation_api σ)
    (ready : Nat → Bool) (config : animation_control_config) :
    ∀ (ops : List ControlOp) (st st1 : Control σ), st.idle_when_stopped →
      control_run api ready config st ops = some st1 → st1.idle_when_stopped := by
  intro ops
  induction ops with
  | nil =>
    intro st st1 h hres
    cases hres
    exact h
  | cons op ops ih =>
    intro st st1 h hres
    simp only [control_run] at hres
    split at hres
    · cases hres
    · rename_i st2 hstep
      exact ih st2 st1 (control_step_idle api ready config st st2 op h hstep) hres

/-- C26: in every controller state reached from the initial state
(`running = false`, empty current record) through any sequence of `start`,
`stop`, `set_enabled`, `change_brightness`, `change_animation`,
`render_frame`, `enqueue` and `play_now`, `running = false` implies that the
current record has no animation. -/
theorem C26_stopped_has_no_animation {σ : Type} (api : Nat → animation_api σ)
    (ready : Nat → Bool) (config : animation_control_config)
    (ops : List ControlOp) (st0 st1 : Control σ)
    (_hinit_running : st0.data.running = false)
    (hinit_record : st0.data.running_animation.animation = none)
    (hrun : control_run api ready config st0 ops = some st1) :
    st1.data.running = false → st1.data.running_animation.animation = none :=
  control_run_idle api ready config ops st0 st1 (fun _ => hinit_record) hrun

theorem C26_stopped_has_no_animation_witness :
    ∃ st1,
      control_run (fun _ => countdown_api) (fun _ => true) example_control_config2
        example_control_init
        [ControlOp.start true, ControlOp.play_now true (some 4) false 100,
          ControlOp.stop] = some st1 ∧
      st1.data.running = false ∧
      st1.data.running_animation.animation = none :=
  ⟨_, rfl, rfl,
    C26_stopped_has_no_animation (fun _ => countdown_api) (fun _ => true)
      example_control_config2
      [ControlOp.start true, ControlOp.play_now true (some 4) false 100, ControlOp.stop]
      example_control_init _ rfl rfl rfl rfl⟩

/-! ## Theorems: animation controller, enabling, index entry points, brightness -/

/-- C27: on a controller with valid stored indices in which "not running"
goes with "no current animation": `set_enabled(e)` with `e` equal to the
persisted active flag changes nothing; `set_enabled(false)` on an active
controller returns with `active = false`, not running and no current
animation; `set_enabled(true)` on an inactive controller returns with
`active = true` and running. -/
theorem C27_set_enabled {σ : Type} (api : Nat → animation_api σ)
    (ready : Nat → Bool) (config : animation_control_config)
    (usb_powered : Bool) (st : Control σ)
    (hp : st.data.s.current_powered_animation < config.powered_animations.length)
    (hb : st.data.s.current_battery_animation < config.battery_animations.length)
    (hidle : st.idle_when_stopped) :
    (∀ e, st.data.s.active = e →
      animation_control_api_impl_set_enabled api ready config usb_powered e st = some st)
    ∧ (st.data.s.active = true →
        ∃ st1,
          animation_control_api_impl_set_enabled api ready config usb_powered false st
            = some st1 ∧
          st1.data.s.active = false ∧ st1.data.running = false ∧
          st1.data.running_animation.animation = none)
    ∧ (st.data.s.active = false →
        ∃ st1,
          animation_control_api_impl_set_enabled api ready config usb_powered true st
            = some st1 ∧
          st1.data.s.active = true ∧ st1.data.running = true) := by
  refine ⟨?_, ?_, ?_⟩
  · intro e he
    unfold animation_control_api_impl_set_enabled
    rw [if_pos (by simp [he])]
  · intro hact
    have hne : ¬ ((st.data.s.active == false) = true) := by simp [hact]
    unfold animation_control_api_impl_set_enabled
    rw [if_neg hne]
    refine ⟨_, rfl, ?_, control_stop_running api ready config _, ?_⟩
    · rw [(control_stop_frame api ready config _).1]
    · by_cases hrun : st.data.running = true
      · exact (control_stop_frame api ready config _).2 hrun
      · simp only [Bool.not_eq_true] at hrun
        have h0 := control_stop_of_stopped api ready config
          { st with data := { st.data with s := { st.data.s with active := false } } } hrun
        rw [h0]
        exact hidle hrun
  · intro hact
    have hne : ¬ ((st.data.s.active == true) = true) := by simp [hact]
    unfold animation_control_api_impl_set_enabled
    rw [if_neg hne]
    obtain ⟨st1, h1⟩ := control_start_total api ready config usb_powered
      { st with data := { st.data with s := { st.data.s with active := true } } } hp hb
    obtain ⟨hs, hr⟩ := control_start_frame api ready config usb_powered _ st1 h1
    refine ⟨st1, h1, ?_, hr rfl⟩
    rw [hs]

theorem C27_set_enabled_witness :
    ∃ st1,
      animation_control_api_impl_set_enabled (fun _ => countdown_api) (fun _ => true)
        example_control_config true false example_control = some st1 ∧
      st1.data.s.active = false ∧ st1.data.running = false ∧
      st1.data.running_animation.animation = none :=
  (C27_set_enabled (fun _ => countdown_api) (fun _ => true) example_control_config
    true example_control (by decide) (by decide) (fun _ => by contradiction)).2.1 rfl

/-- C28: for every index at or beyond the number of behaviour-triggered
animations, `enqueue_by_index`, `play_now_by_index` and `stop_by_index`
return `-EINVAL` (a negative status) and the controller state, the leaf
devices and the call trace are all as before: queue, current record and
frame counter unchanged, no animation started or stopped. -/
theorem C28_index_out_of_range {σ : Type} (api : Nat → animation_api σ)
    (ready : Nat → Bool) (config : animation_control_config)
    (usb_powered : Bool) (index : Nat) (cancelable : Bool) (duration_ms : Nat)
    (st : Control σ) (h : config.behavior_animations.length ≤ index) :
    animation_control_api_impl_enqueue_by_index config index cancelable duration_ms st
      = (st, -EINVAL)
    ∧ animation_control_api_impl_play_now_by_index api ready config usb_powered index
        cancelable duration_ms st = some (st, -EINVAL)
    ∧ animation_control_api_impl_stop_by_index api config index st = (st, -EINVAL)
    ∧ -EINVAL < 0 := by
  refine ⟨?_, ?_, ?_, by decide⟩
  · unfold animation_control_api_impl_enqueue_by_index
    exact dif_pos h
  · unfold animation_control_api_impl_play_now_by_index
    exact dif_pos h
  · unfold animation_control_api_impl_stop_by_index
    exact dif_pos h

theorem C28_index_out_of_range_witness :
    animation_control_api_impl_enqueue_by_index example_control_config2 3 true 100
        example_control = (example_control, -EINVAL)
    ∧ animation_control_api_impl_play_now_by_index (fun _ => countdown_api)
        (fun _ => true) example_control_config2 true 3 true 100 example_control
        = some (example_control, -EINVAL)
    ∧ animation_control_api_impl_stop_by_index (fun _ => countdown_api)
        example_control_config2 3 example_control = (example_control, -EINVAL)
    ∧ -EINVAL < 0 :=
  C28_index_out_of_range (fun _ => countdown_api) (fun _ => true)
    example_control_config2 true 3 true 100 example_control (by decide)

theorem scale_pixel_one (p : animation_pixel) : scale_pixel 1 p = p := by
  cases p with
  | mk x y v =>
    cases v
    simp [scale_pixel]

/-- Where the scaling of `render_frame` agrees with the spec's factor: below
full brightness always, and at full brightness when `max_brightness` is
255. -/
theorem control_render_current_scaled {σ : Type} (api : Nat → animation_api σ)
    (config : animation_control_config) (st : Control σ) (a : Nat)
    (ha : st.data.running_animation.animation = some a)
    (hb : brightness_in_use st.data < config.brightness_steps
      ∨ (brightness_in_use st.data = config.brightness_steps
          ∧ 0 < config.brightness_steps ∧ config.max_brightness = 255)) :
    (control_render_current api config st).world.env.pixels
      = (animation_render_frame api a st.world).env.pixels.map
          (scale_pixel (spec_brightness_multiplier config (brightness_in_use st.data))) := by
  unfold control_render_current
  rw [ha]
  unfold brightness_in_use at hb
  unfold spec_brightness_multiplier brightness_in_use
  rcases hb with hlt | ⟨heq, hpos, hmax⟩
  · simp only [if_pos hlt]
    have hsteps : (0 : ℚ) < (config.brightness_steps : ℚ) := by
      exact_mod_cast Nat.lt_of_le_of_lt (Nat.zero_le _) hlt
    have hle : ((if st.data.last_powered = true then st.data.s.powered_brightness
        else st.data.s.battery_brightness : Nat) : ℚ) / (config.brightness_steps : ℚ) ≤ 1 := by
      rw [div_le_one hsteps]
      exact_mod_cast hlt.le
    rw [min_eq_right hle]
  · have hnlt : ¬ ((if st.data.last_powered = true then st.data.s.powered_brightness
        else st.data.s.battery_brightness) < config.brightness_steps) := by omega
    simp only [if_neg hnlt]
    have hsteps : (config.brightness_steps : ℚ) ≠ 0 := by
      exact_mod_cast Nat.pos_iff_ne_zero.mp hpos
    rw [heq, hmax, div_self hsteps]
    have h1 : min (1 : ℚ) 1 * (((255 : Nat) : ℚ) / 255) = 1 := by norm_num
    rw [h1]
    have hid : scale_pixel 1 = id := funext scale_pixel_one
    rw [hid, List.map_id]

/-- C29 (failing input): an active, running controller on USB power at full
brightness (4 of 4 steps) with `max_brightness` 128, whose current animation
leaves the one white pixel as it is. `render_frame` skips the multiplication,
so the pixel stays at 1 in every channel, while the factor
`min(1, 4/4) * (128/255)` gives 128/255: the configured maximum is not
applied at full brightness. One step lower (3 of 4) the factor
`(3/4) * (128/255)` is applied. -/
theorem C29_full_brightness_skips_max_brightness :
    brightness_in_use example_control_bright.data
        = example_control_config_capped.brightness_steps
    ∧ (animation_render_frame (fun _ => countdown_api) 0
        example_control_bright.world).env.pixels
        = [{ position_x := 0, position_y := 0, value := { r := 1, g := 1, b := 1 } }]
    ∧ (∃ st1,
        animation_control_api_impl_render_frame (fun _ => countdown_api) (fun _ => true)
          example_control_config_capped true example_control_bright = some st1 ∧
        st1.world.env.pixels
          = [{ position_x := 0, position_y := 0, value := { r := 1, g := 1, b := 1 } }])
    ∧ (animation_render_frame (fun _ => countdown_api) 0
        example_control_bright.world).env.pixels.map
          (scale_pixel (spec_brightness_multiplier example_control_config_capped
            (brightness_in_use example_control_bright.data)))
        = [{ position_x := 0, position_y := 0
             value := { r := 128 / 255, g := 128 / 255, b := 128 / 255 } }]
    ∧ (1 : ℚ) ≠ 128 / 255 := by
  refine ⟨rfl, rfl, ⟨_, rfl, rfl⟩, ?_, by norm_num⟩
  simp [animation_render_frame, countdown_api, example_control_bright, scale_pixel,
    spec_brightness_multiplier, brightness_in_use, example_control_config_capped,
    example_control_config]

/-! ## Theorems: animation controller, frame requests of `change_animation` -/

theorem request_frames_one_pos (s : Sched) :
    1 ≤ (zmk_animation_request_frames 1 s).animation_timer_countdown := by
  unfold zmk_animation_request_frames
  split
  · assumption
  · exact Nat.le_refl 1

/-- The lock section with a ready next animation ends with the frame
request: the frame counter is at least 1 afterwards. -/
theorem change_animation_set_ready_counter {σ : Type} (api : Nat → animation_api σ)
    (ready : Nat → Bool) (config : animation_control_config)
    (next : animation_queue_record) (st : Control σ) (a : Nat)
    (hrun : st.data.running = true) (hn : next.animation = some a)
    (hr : ready a = true) :
    1 ≤ (change_animation_set api ready config next st).world.env.sched.animation_timer_countdown := by
  have hrdy : device_is_ready ready next.animation = true := by
    rw [hn]; exact hr
  have hrdy2 : device_is_ready ready (some a) = true := hr
  unfold change_animation_set
  simp only [hrun, if_true, hrdy, hrdy2, Bool.not_true, Bool.false_eq_true, if_false, hn]
  exact request_frames_one_pos _

/-- Power-state selection on an active, running controller with an empty
queue: nothing is done when the selected animation is already current and no
ad-hoc animation is playing; otherwise the lock section runs on the selected
record. -/
theorem change_animation_power_state {σ : Type} (api : Nat → animation_api σ)
    (ready : Nat → Bool) (config : animation_control_config)
    (usb_powered : Bool) (st : Control σ) (a : Nat)
    (hact : st.data.s.active = true) (hrun : st.data.running = true)
    (hque : st.que = [])
    (ha : (if usb_powered then
            config.powered_animations[st.data.s.current_powered_animation]?
          else config.battery_animations[st.data.s.current_battery_animation]?) = some a) :
    change_animation api ready config usb_powered none st
      = some
          (if (st.data.running_animation.animation == some a
                && !st.data.playing_adhoc_animation) = true then
            { st with data := { st.data with change_animation_if_cancelable := false
                                             last_powered := usb_powered } }
          else
            change_animation_set api ready config
              { animation := some a, cancelable := true
                duration_ms := ANIMATION_DURATION_FOREVER }
              { st with data := { st.data with change_animation_if_cancelable := false
                                               last_powered := usb_powered
                                               playing_adhoc_animation := false } }) := by
  have hg1 : ¬ ((!st.data.s.active) = true) := by simp [hact]
  have hg2 : ¬ ((!st.data.running) = true) := by simp [hrun]
  have hg : get_animation_for_current_power_state config
      { st.data with change_animation_if_cancelable := false
                     last_powered := usb_powered } = some a := by
    unfold get_animation_for_current_power_state
    exact ha
  unfold change_animation
  rw [if_neg hg1, if_neg hg2]
  simp only [hque, hg]
  split <;> rfl

/-- C31 (amended): for an active, running controller, a `change_animation`
call that installs a ready animation (any ad-hoc record, or a power-state
selection that differs from the current animation or follows an ad-hoc one)
ends with a request for one frame, so the frame counter is at least 1 after
the call; a call that finds its ad-hoc record not ready requests one frame
and empties the current record; a call whose power-state selection is not
ready stops the current animation, turns the rail off, empties the current
record and requests no frame. -/
theorem C31_change_animation_frame_request {σ : Type} (api : Nat → animation_api σ)
    (ready : Nat → Bool) (config : animation_control_config)
    (usb_powered : Bool) (override : Option animation_queue_record)
    (st : Control σ) (r : animation_queue_record)
    (hact : st.data.s.active = true) (hrun : st.data.running = true)
    (hsel : spec_selected_record config usb_powered override st = some r)
    (hrepl : selects_adhoc override st = true
      ∨ st.data.running_animation.animation ≠ r.animation
      ∨ st.data.playing_adhoc_animation = true) :
    ∃ st1,
      change_animation api ready config usb_powered override st = some st1 ∧
      (device_is_ready ready r.animation = true →
        st1.data.running_animation = r ∧
        (∃ pre, st1.world.trace = pre ++ [Call.request_frames 1]) ∧
        1 ≤ st1.world.env.sched.animation_timer_countdown) ∧
      (device_is_ready ready r.animation = false →
        selects_adhoc override st = true →
        st1.data.running_animation = animation_queue_record.empty ∧
        st1.world.trace = st.world.trace ++ [Call.request_frames 1]
          ++ stop_calls st.data.running_animation ++ power_calls ready config false) ∧
      (device_is_ready ready r.animation = false →
        selects_adhoc override st = false →
        st1.data.running_animation = animation_queue_record.empty ∧
        st1.world.trace = st.world.trace
          ++ stop_calls st.data.running_animation ++ power_calls ready config false) := by
  have hg1 : ¬ ((!st.data.s.active) = true) := by simp [hact]
  have hg2 : ¬ ((!st.data.running) = true) := by simp [hrun]
  have hadhoc : ∀ (n : animation_queue_record) (st0 : Control σ),
      st0.data.running = true →
      (device_is_ready ready n.animation = true →
        (change_animation_adhoc api ready config n st0).data.running_animation = n ∧
        (∃ pre, (change_animation_adhoc api ready config n st0).world.trace
          = pre ++ [Call.request_frames 1]) ∧
        1 ≤ (change_animation_adhoc api ready config n
          st0).world.env.sched.animation_timer_countdown) ∧
      (device_is_ready ready n.animation = false →
        (change_animation_adhoc api ready config n st0).data.running_animation
          = animation_queue_record.empty ∧
        (change_animation_adhoc api ready config n st0).world.trace
          = st0.world.trace ++ [Call.request_frames 1]
            ++ stop_calls st0.data.running_animation ++ power_calls ready config false) := by
    intro n st0 hrun0
    obtain ⟨_, _, hready, hnot⟩ := change_animation_adhoc_result api ready config n st0 hrun0
    refine ⟨fun hr => ?_, fun hnr => ⟨(hnot hnr).1, (hnot hnr).2.1⟩⟩
    obtain ⟨a, hna, hra⟩ := device_is_ready_some ready _ hr
    obtain ⟨hrec, htrace⟩ := hready a hna hra
    refine ⟨hrec, ⟨st0.world.trace ++ stop_calls st0.data.running_animation
      ++ power_calls ready config true ++ [Call.start a n.duration_ms], ?_⟩, ?_⟩
    · rw [htrace]; simp
    unfold change_animation_adhoc
    simp only [hr, if_true]
    exact change_animation_set_ready_counter api ready config n _ a hrun0 hna hra
  cases override with
  | some n =>
    simp only [spec_selected_record, Option.some.injEq] at hsel
    subst hsel
    obtain ⟨h1, h2⟩ := hadhoc n
      { st with data := { st.data with change_animation_if_cancelable := false
                                       last_powered := usb_powered } } hrun
    unfold change_animation
    rw [if_neg hg1, if_neg hg2]
    exact ⟨_, rfl, h1, fun hnr _ => h2 hnr, fun _ h => by simp [selects_adhoc] at h⟩
  | none =>
    cases hque : st.que with
    | cons n rest =>
      simp only [spec_selected_record, hque, Option.some.injEq] at hsel
      subst hsel
      obtain ⟨h1, h2⟩ := hadhoc n
        { st with
          que := rest
          data := { st.data with change_animation_if_cancelable := false
                                 last_powered := usb_powered } } hrun
      unfold change_animation
      rw [if_neg hg1, if_neg hg2]
      simp only [hque]
      exact ⟨_, rfl, h1, fun hnr _ => h2 hnr,
        fun _ h => by simp [selects_adhoc, hque] at h⟩
    | nil =>
      simp only [spec_selected_record, hque, Option.map_eq_some'] at hsel
      obtain ⟨a, ha, hr⟩ := hsel
      subst hr
      have hsame : ¬ (st.data.running_animation.animation == some a
          && !st.data.playing_adhoc_animation) = true := by
        intro h
        simp only [Bool.and_eq_true, beq_iff_eq, Bool.not_eq_true'] at h
        rcases hrepl with h0 | h1 | h2
        · simp [selects_adhoc, hque] at h0
        · exact h1 h.1
        · rw [h.2] at h2; cases h2
      rw [change_animation_power_state api ready config usb_powered st a hact hrun hque ha,
        if_neg hsame]
      refine ⟨_, rfl, fun hrdy => ?_, fun _ h => by simp [selects_adhoc, hque] at h,
        fun hnr _ => ?_⟩
      · obtain ⟨h1, _, h3, _⟩ := change_animation_set_ready api ready config
          { animation := some a, cancelable := true
            duration_ms := ANIMATION_DURATION_FOREVER }
          { st with data := { st.data with change_animation_if_cancelable := false
                                           last_powered := usb_powered
                                           playing_adhoc_animation := false } }
          a hrun rfl hrdy
        refine ⟨congrArg (fun d => d.running_animation) h1,
          ⟨st.world.trace ++ stop_calls st.data.running_animation
            ++ power_calls ready config true
            ++ [Call.start a ANIMATION_DURATION_FOREVER], ?_⟩,
          change_animation_set_ready_counter api ready config _ _ a hrun rfl hrdy⟩
        rw [h3]; simp
      · obtain ⟨h1, _, h3, _, _⟩ := change_animation_set_not_ready api ready config
          { animation := some a, cancelable := true
            duration_ms := ANIMATION_DURATION_FOREVER }
          { st with data := { st.data with change_animation_if_cancelable := false
                                           last_powered := usb_powered
                                           playing_adhoc_animation := false } } hrun hnr
        exact ⟨congrArg (fun d => d.running_animation) h1, h3⟩

theorem C31_change_animation_frame_request_witness :
    ∃ st1,
      change_animation (fun _ => countdown_api) (fun _ => true) example_control_config
        false none example_control = some st1 ∧
      (device_is_ready (fun _ => true) (some 1) = true →
        st1.data.running_animation
          = { animation := some 1, cancelable := true
              duration_ms := ANIMATION_DURATION_FOREVER } ∧
        (∃ pre, st1.world.trace = pre ++ [Call.request_frames 1]) ∧
        1 ≤ st1.world.env.sched.animation_timer_countdown) ∧
      (device_is_ready (fun _ => true) (some 1) = false →
        selects_adhoc none example_control = true →
        st1.data.running_animation = animation_queue_record.empty ∧
        st1.world.trace = example_control.world.trace ++ [Call.request_frames 1]
          ++ stop_calls example_control.data.running_animation
          ++ power_calls (fun _ => true) example_control_config false) ∧
      (device_is_ready (fun _ => true) (some 1) = false →
        selects_adhoc none example_control = false →
        st1.data.running_animation = animation_queue_record.empty ∧
        st1.world.trace = example_control.world.trace
          ++ stop_calls example_control.data.running_animation
          ++ power_calls (fun _ => true) example_control_config false) :=
  C31_change_animation_frame_request (fun _ => countdown_api) (fun _ => true)
    example_control_config false none example_control
    { animation := some 1, cancelable := true, duration_ms := ANIMATION_DURATION_FOREVER }
    rfl rfl rfl (Or.inr (Or.inl (by decide)))

/-- C31 (counterexample): a running controller whose current animation is
device 0 finds itself on battery power, where the configured animation
(device 1) is not ready. `change_animation(NULL)` replaces the current record
by the empty record; the calls it makes are stop of device 0 and rail off,
no frame is requested, and the frame counter is 0 after the call. -/
theorem C31_not_ready_power_state_requests_nothing :
    ∃ st1,
      change_animation (fun _ => countdown_api) (fun dev => dev != 1)
        example_control_config false none example_control = some st1 ∧
      example_control.data.running_animation.animation = some 0 ∧
      st1.data.running_animation = animation_queue_record.empty ∧
      st1.world.trace = [Call.stop 0, Call.ext_power false] ∧
      st1.world.env.sched.animation_timer_countdown = 0 :=
  ⟨_, rfl, rfl, rfl, rfl, rfl⟩

/-- C32 (amended): when `change_animation` on an active, running controller
falls through to power-state selection (no override, empty queue), it
requests no frame when the selected animation is already current with no
ad-hoc animation playing (the world is untouched) and when the selected
animation is not ready (current animation stopped, rail off); when it
installs the selected animation it stops the current one, turns the rail on,
starts the selected one with duration Forever and requests one frame. -/
theorem C32_power_state_frame_request {σ : Type} (api : Nat → animation_api σ)
    (ready : Nat → Bool) (config : animation_control_config)
    (usb_powered : Bool) (st : Control σ) (a : Nat)
    (hact : st.data.s.active = true) (hrun : st.data.running = true)
    (hque : st.que = [])
    (ha : (if usb_powered then
            config.powered_animations[st.data.s.current_powered_animation]?
          else config.battery_animations[st.data.s.current_battery_animation]?) = some a) :
    ∃ st1,
      change_animation api ready config usb_powered none st = some st1 ∧
      (st.data.running_animation.animation = some a →
        st.data.playing_adhoc_animation = false → st1.world = st.world) ∧
      ((st.data.running_animation.animation ≠ some a
          ∨ st.data.playing_adhoc_animation = true) →
        ready a = false →
        st1.world.trace = st.world.trace ++ stop_calls st.data.running_animation
          ++ power_calls ready config false) ∧
      ((st.data.running_animation.animation ≠ some a
          ∨ st.data.playing_adhoc_animation = true) →
        ready a = true →
        st1.world.trace = st.world.trace ++ stop_calls st.data.running_animation
          ++ power_calls ready config true
          ++ [Call.start a ANIMATION_DURATION_FOREVER, Call.request_frames 1]) := by
  rw [change_animation_power_state api ready config usb_powered st a hact hrun hque ha]
  by_cases hsame : (st.data.running_animation.animation == some a
      && !st.data.playing_adhoc_animation) = true
  · rw [if_pos hsame]
    simp only [Bool.and_eq_true, beq_iff_eq, Bool.not_eq_true'] at hsame
    refine ⟨_, rfl, fun _ _ => rfl, fun hor => ?_, fun hor => ?_⟩ <;>
    · rcases hor with h1 | h2
      · exact absurd hsame.1 h1
      · rw [hsame.2] at h2; cases h2
  · rw [if_neg hsame]
    refine ⟨_, rfl, fun h1 h2 => ?_, fun _ hnr => ?_, fun _ hr => ?_⟩
    · exact absurd (by simp [h1, h2]) hsame
    · exact (change_animation_set_not_ready api ready config
        { animation := some a, cancelable := true
          duration_ms := ANIMATION_DURATION_FOREVER }
        { st with data := { st.data with change_animation_if_cancelable := false
                                         last_powered := usb_powered
                                         playing_adhoc_animation := false } }
        hrun hnr).2.2.1
    · exact (change_animation_set_ready api ready config
        { animation := some a, cancelable := true
          duration_ms := ANIMATION_DURATION_FOREVER }
        { st with data := { st.data with change_animation_if_cancelable := false
                                         last_powered := usb_powered
                                         playing_adhoc_animation := false } }
        a hrun rfl hr).2.2.1

theorem C32_power_state_frame_request_witness :
    ∃ st1,
      change_animation (fun _ => countdown_api) (fun dev => dev != 1)
        example_control_config false none example_control = some st1 ∧
      (example_control.data.running_animation.animation = some 1 →
        example_control.data.playing_adhoc_animation = false →
        st1.world = example_control.world) ∧
      ((example_control.data.running_animation.animation ≠ some 1
          ∨ example_control.data.playing_adhoc_animation = true) →
        (fun dev => dev != 1) 1 = false →
        st1.world.trace = example_control.world.trace
          ++ stop_calls example_control.data.running_animation
          ++ power_calls (fun dev => dev != 1) example_control_config false) ∧
      ((example_control.data.running_animation.animation ≠ some 1
          ∨ example_control.data.playing_adhoc_animation = true) →
        (fun dev => dev != 1) 1 = true →
        st1.world.trace = example_control.world.trace
          ++ stop_calls example_control.data.running_animation
          ++ power_calls (fun dev => dev != 1) example_control_config true
          ++ [Call.start 1 ANIMATION_DURATION_FOREVER, Call.request_frames 1]) :=
  C32_power_state_frame_request (fun _ => countdown_api) (fun dev => dev != 1)
    example_control_config false example_control 1 rfl rfl rfl rfl

/-- C32 (counterexample): a running controller on device 0 with an empty
queue finds itself on battery power, whose configured animation (device 1) is
ready. `change_animation(NULL)` selects by power state and the controller
itself requests a frame: its calls are stop of device 0, rail on, start of
device 1, `request_frames(1)`. -/
theorem C32_power_state_selection_requests_frame :
    ∃ st1,
      change_animation (fun _ => countdown_api) (fun _ => true)
        example_control_config false none example_control = some st1 ∧
      example_control.que = [] ∧
      st1.world.trace
        = [Call.stop 0, Call.ext_power true,
            Call.start 1 ANIMATION_DURATION_FOREVER, Call.request_frames 1] ∧
      st1.world.env.sched.animation_timer_countdown = 1 :=
  ⟨_, rfl, rfl, rfl, rfl⟩

/-! ## Theorems: start guards and idempotence of `change_animation` -/

/-- C33: controller `start` on an inactive or already running controller,
and combinator `start` on an already running combinator, return the state
they were given: no field changes and no call is made on any child. -/
theorem C33_start_noop {σ : Type} (api : Nat → animation_api σ)
    (ready : Nat → Bool) (config : animation_control_config)
    (usb_powered : Bool) (st : Control σ)
    (compose_config : animation_compose_config) (request_duration_ms : Nat)
    (cst : Compose σ) :
    ((st.data.s.active = false ∨ st.data.running = true) →
      animation_control_api_impl_start api ready config usb_powered st = some st)
    ∧ (cst.data.running = true →
      animation_compose_start api compose_config request_duration_ms cst = some cst) := by
  constructor
  · intro h
    unfold animation_control_api_impl_start
    rcases h with h | h
    · simp [h]
    · simp [h]
  · intro h
    unfold animation_compose_start
    simp [h]

theorem C33_start_noop_witness :
    animation_control_api_impl_start (fun _ => countdown_api) (fun _ => true)
        example_control_config true example_control = some example_control
    ∧ animation_compose_start (fun _ => countdown_api) example_sequential 7
        example_running = some example_running :=
  ⟨(C33_start_noop (fun _ => countdown_api) (fun _ => true) example_control_config true
      example_control example_sequential 7 example_running).1 (Or.inr rfl),
   (C33_start_noop (fun _ => countdown_api) (fun _ => true) example_control_config true
      example_control example_sequential 7 example_running).2 rfl⟩

/-- C39: for an active, running controller with an empty queue and valid
stored indices, under an unchanged power source, `change_animation(NULL)`
applied twice leaves the same current record, running flag, playing-adhoc
flag and change-if-cancelable flag as applied once. When the animation of
the power source is ready the second application changes nothing at all (no
call is made); when it is not ready the second application makes no call
besides switching the rail off again. -/
theorem C39_change_animation_idempotent {σ : Type} (api : Nat → animation_api σ)
    (ready : Nat → Bool) (config : animation_control_config)
    (usb_powered : Bool) (st : Control σ) (a : Nat)
    (hact : st.data.s.active = true) (hrun : st.data.running = true)
    (hque : st.que = [])
    (ha : (if usb_powered then
            config.powered_animations[st.data.s.current_powered_animation]?
          else config.battery_animations[st.data.s.current_battery_animation]?) = some a) :
    ∃ st1 st2,
      change_animation api ready config usb_powered none st = some st1 ∧
      change_animation api ready config usb_powered none st1 = some st2 ∧
      st2.data.running_animation = st1.data.running_animation ∧
      st2.data.running = st1.data.running ∧
      st2.data.playing_adhoc_animation = st1.data.playing_adhoc_animation ∧
      st2.data.change_animation_if_cancelable
        = st1.data.change_animation_if_cancelable ∧
      (ready a = true → st2 = st1) ∧
      (st2.world.trace = st1.world.trace
        ∨ st2.world.trace = st1.world.trace ++ power_calls ready config false) := by
  rw [change_animation_power_state api ready config usb_powered st a hact hrun hque ha]
  by_cases hsame : (st.data.running_animation.animation == some a
      && !st.data.playing_adhoc_animation) = true
  · rw [if_pos hsame]
    have h2 := change_animation_power_state api ready config usb_powered
      { st with data := { st.data with change_animation_if_cancelable := false
                                       last_powered := usb_powered } } a hact hrun hque ha
    rw [if_pos hsame] at h2
    exact ⟨_, _, rfl, h2, rfl, rfl, rfl, rfl, fun _ => rfl, Or.inl rfl⟩
  · rw [if_neg hsame]
    cases hr : ready a with
    | true =>
      obtain ⟨h1, hq1, _, _⟩ := change_animation_set_ready api ready config
        { animation := some a, cancelable := true
          duration_ms := ANIMATION_DURATION_FOREVER }
        { st with data := { st.data with change_animation_if_cancelable := false
                                         last_powered := usb_powered
                                         playing_adhoc_animation := false } }
        a hrun rfl hr
      generalize change_animation_set api ready config
        { animation := some a, cancelable := true
          duration_ms := ANIMATION_DURATION_FOREVER }
        { st with data := { st.data with change_animation_if_cancelable := false
                                         last_powered := usb_powered
                                         playing_adhoc_animation := false } } = st1 at h1 hq1
      rcases st1 with ⟨data1, que1, ext1, world1⟩
      simp only at h1 hq1
      subst h1
      have h2 := change_animation_power_state api ready config usb_powered
        { data := { st.data with change_animation_if_cancelable := false
                                 last_powered := usb_powered
                                 playing_adhoc_animation := false
                                 running_animation :=
                                   { animation := some a, cancelable := true
                                     duration_ms := ANIMATION_DURATION_FOREVER } }
          que := que1, ext_power_on := ext1, world := world1 }
        a hact hrun (hq1.trans hque) ha
      rw [if_pos (by simp)] at h2
      exact ⟨_, _, rfl, h2, rfl, rfl, rfl, rfl, fun _ => rfl, Or.inl rfl⟩
    | false =>
      obtain ⟨h1, hq1, _, _, _⟩ := change_animation_set_not_ready api ready config
        { animation := some a, cancelable := true
          duration_ms := ANIMATION_DURATION_FOREVER }
        { st with data := { st.data with change_animation_if_cancelable := false
                                         last_powered := usb_powered
                                         playing_adhoc_animation := false } }
        hrun hr
      generalize change_animation_set api ready config
        { animation := some a, cancelable := true
          duration_ms := ANIMATION_DURATION_FOREVER }
        { st with data := { st.data with change_animation_if_cancelable := false
                                         last_powered := usb_powered
                                         playing_adhoc_animation := false } } = st1 at h1 hq1
      rcases st1 with ⟨data1, que1, ext1, world1⟩
      simp only at h1 hq1
      subst h1
      have h2 := change_animation_power_state api ready config usb_powered
        { data := { st.data with change_animation_if_cancelable := false
                                 last_powered := usb_powered
                                 playing_adhoc_animation := false
                                 running_animation := animation_queue_record.empty }
          que := que1, ext_power_on := ext1, world := world1 }
        a hact hrun (hq1.trans hque) ha
      rw [if_neg (by simp [animation_queue_record.empty])] at h2
      obtain ⟨h3, _, h5, _, _⟩ := change_animation_set_not_ready api ready config
        { animation := some a, cancelable := true
          duration_ms := ANIMATION_DURATION_FOREVER }
        { data := { st.data with change_animation_if_cancelable := false
                                 last_powered := usb_powered
                                 playing_adhoc_animation := false
                                 running_animation := animation_queue_record.empty }
          que := que1, ext_power_on := ext1, world := world1 }
        hrun hr
      refine ⟨_, _, rfl, h2, ?_, ?_, ?_, ?_, ?_, Or.inr ?_⟩
      · exact congrArg (fun d => d.running_animation) h3
      · exact congrArg (fun d => d.running) h3
      · exact congrArg (fun d => d.playing_adhoc_animation) h3
      · exact congrArg (fun d => d.change_animation_if_cancelable) h3
      · intro h; cases h
      · rw [h5]; simp [stop_calls, animation_queue_record.empty]

theorem C39_change_animation_idempotent_witness :
    ∃ st1 st2,
      change_animation (fun _ => countdown_api) (fun _ => true) example_control_config
        false none example_control = some st1 ∧
      change_animation (fun _ => countdown_api) (fun _ => true) example_control_config
        false none st1 = some st2 ∧
      st2.data.running_animation = st1.data.running_animation ∧
      st2.data.running = st1.data.running ∧
      st2.data.playing_adhoc_animation = st1.data.playing_adhoc_animation ∧
      st2.data.change_animation_if_cancelable
        = st1.data.change_animation_if_cancelable ∧
      ((fun _ => true) 1 = true → st2 = st1) ∧
      (st2.world.trace = st1.world.trace
        ∨ st2.world.trace = st1.world.trace
            ++ power_calls (fun _ => true) example_control_config false) :=
  C39_change_animation_idempotent (fun _ => countdown_api) (fun _ => true)
    example_control_config false example_control 1 rfl rfl rfl rfl

/-! ## Theorems: frame scheduler, helper bound and render pass -/

/-- With frames left (`r > 0`) the helper passes at most `r` frames to
`zmk_animation_request_frames`: from an idle scheduler the counter it leaves
is at most `r`. -/
theorem request_frames_if_required_le (fps r : Nat) (initial : Bool)
    (hr : 0 < r) :
    (zmk_animation_request_frames_if_required fps r initial
      Sched.init).animation_timer_countdown ≤ r := by
  unfold zmk_animation_request_frames_if_required zmk_animation_request_frames Sched.init
  cases initial with
  | true =>
    simp only [if_true]
    split
    · split
      · simp_all
      · simp_all; omega
    · split <;> simp_all
  | false =>
    simp only [Bool.false_eq_true, if_false]
    by_cases hm : r % fps = 0
    · have hle : fps ≤ r := Nat.le_of_dvd hr (Nat.dvd_of_mod_eq_zero hm)
      simp only [hm, if_true]
      split <;> simp_all
    · simp [hm]

/-- C34 (failing input): with no frame left (`r = 0`) and `initial = false`,
the helper requests a full `fps` frames: from an idle scheduler the counter
becomes `fps` (written `fps + 1` here to keep it positive) and the timer is
started. -/
theorem C34_zero_remaining_requests_fps (fps : Nat) :
    (zmk_animation_request_frames_if_required (fps + 1) 0 false
        Sched.init).animation_timer_countdown = fps + 1
    ∧ (zmk_animation_request_frames_if_required (fps + 1) 0 false
        Sched.init).timer_running = true
    ∧ ¬ (fps + 1 ≤ 0) := by
  refine ⟨?_, ?_, by omega⟩ <;>
    simp [zmk_animation_request_frames_if_required, zmk_animation_request_frames,
      Sched.init]

/-- The reset loop of the render pass: started at index `i` with `k`
iterations inside the buffer, it returns, keeps the length, resets the
pixels at `i .. i + k - 1` and leaves the others. -/
theorem zmk_animation_tick_loop_spec :
    ∀ (k i : Nat) (pixels : List animation_pixel), i + k ≤ pixels.length →
      ∃ out, zmk_animation_tick_loop i k pixels = some out ∧
        out.length = pixels.length ∧
        ∀ j, out[j]? = if i ≤ j ∧ j < i + k then pixels[j]?.map reset_pixel
                       else pixels[j]? := by
  intro k
  induction k with
  | zero =>
    intro i pixels _
    refine ⟨pixels, rfl, rfl, fun j => ?_⟩
    rw [if_neg (by omega)]
  | succ k ih =>
    intro i pixels h
    have hi : i < pixels.length := by omega
    obtain ⟨out, ho, hl, hj⟩ := ih (i + 1) (pixels.set i (reset_pixel pixels[i]))
      (by rw [List.length_set]; omega)
    refine ⟨out, ?_, by rw [hl, List.length_set], fun j => ?_⟩
    · simp only [zmk_animation_tick_loop, List.getElem?_eq_getElem hi]
      exact ho
    · rw [hj j, List.getElem?_set]
      by_cases hij : i = j
      · subst hij
        rw [if_neg (by omega), if_pos rfl, if_pos hi, if_pos (by omega),
          List.getElem?_eq_getElem hi]
        rfl
      · rw [if_neg hij]
        by_cases hc : i + 1 ≤ j ∧ j < i + 1 + k
        · rw [if_pos hc, if_pos (by omega)]
        · rw [if_neg hc, if_neg (by omega)]

/-- C35: a render pass whose root animation leaves the pixel positions (and
so the number of pixels) as they are, whatever colours it writes, returns
with every pixel at `r = g = b = 0`, the same number of pixels and every
`position_x`, `position_y` unchanged. -/
theorem C35_render_pass_resets_pixels {σ : Type} (api : Nat → animation_api σ)
    (animation_root : Nat) (w : World σ)
    (hpos : (animation_render_frame api animation_root w).env.pixels.map
        animation_pixel.position = w.env.pixels.map animation_pixel.position) :
    ∃ w1, zmk_animation_tick api animation_root w = some w1 ∧
      (∀ p ∈ w1.env.pixels, p.value.r = 0 ∧ p.value.g = 0 ∧ p.value.b = 0) ∧
      w1.env.pixels.length = w.env.pixels.length ∧
      w1.env.pixels.map animation_pixel.position
        = w.env.pixels.map animation_pixel.position := by
  have hlen : (animation_render_frame api animation_root w).env.pixels.length
      = w.env.pixels.length := by
    have := congrArg List.length hpos
    simpa using this
  obtain ⟨out, ho, hl, hj⟩ := zmk_animation_tick_loop_spec w.env.pixels.length 0
    (animation_render_frame api animation_root w).env.pixels (by omega)
  have hout : out = (animation_render_frame api animation_root w).env.pixels.map
      reset_pixel := by
    apply List.ext_getElem?
    intro j
    rw [hj j, List.getElem?_map]
    by_cases hc : j < w.env.pixels.length
    · rw [if_pos ⟨Nat.zero_le _, by omega⟩]
    · rw [if_neg (by omega), List.getElem?_eq_none (by omega)]
      rfl
  have htick : zmk_animation_tick api animation_root w
      = some { animation_render_frame api animation_root w with
               env := { (animation_render_frame api animation_root w).env with
                        pixels := out } } := by
    unfold zmk_animation_tick
    simp only [ho]
  refine ⟨_, htick, ?_, ?_, ?_⟩
  · intro p hp
    simp only [hout, List.mem_map] at hp
    obtain ⟨q, _, hq⟩ := hp
    rw [← hq]
    exact ⟨rfl, rfl, rfl⟩
  · simp only [hl, hlen]
  · simp only [hout, List.map_map]
    rw [← hpos]
    rfl

theorem C35_render_pass_resets_pixels_witness :
    ∃ w1, zmk_animation_tick (fun _ => countdown_api) 0 example_control_bright.world
        = some w1 ∧
      (∀ p ∈ w1.env.pixels, p.value.r = 0 ∧ p.value.g = 0 ∧ p.value.b = 0) ∧
      w1.env.pixels.length = example_control_bright.world.env.pixels.length ∧
      w1.env.pixels.map animation_pixel.position
        = example_control_bright.world.env.pixels.map animation_pixel.position :=
  C35_render_pass_resets_pixels (fun _ => countdown_api) 0 example_control_bright.world rfl

/-! ## Theorems: pixel distance table -/

/-- Cells before row `i + 1` of the packed triangular table: the cells
before row `i` and the `i + 1` cells of row `i`. -/
theorem triangle_succ (i : Nat) :
    ((i + 1 + 1) * (i + 1)) / 2 = ((i + 1) * i) / 2 + (i + 1) := by
  have h : (i + 1 + 1) * (i + 1) = (i + 1) * i + 2 * (i + 1) := by ring
  rw [h, Nat.add_mul_div_left _ _ (by decide : 0 < 2)]

theorem triangle_mono (i n : Nat) (h : i ≤ n) :
    ((i + 1) * i) / 2 ≤ ((n + 1) * n) / 2 :=
  Nat.div_le_div_right (Nat.mul_le_mul (by omega) h)

/-- The inner prefill loop for row `i` from column `j` with `m` cells to go,
inside the table: it returns with `k` advanced by `m`, the length kept, the
cells `k .. k + m - 1` holding the values of columns `j .. j + m - 1`, and
every other cell as before. -/
theorem zmk_animation_init_inner_spec (distance : Nat → Nat → Nat) (i : Nat) :
    ∀ (m j k : Nat) (table : List Nat), k + m ≤ table.length →
      ∃ out, zmk_animation_init_inner distance i j m (k, table) = some (k + m, out) ∧
        out.length = table.length ∧
        ∀ x, out[x]? = if k ≤ x ∧ x < k + m then some (distance i (j + (x - k)))
                       else table[x]? := by
  intro m
  induction m with
  | zero =>
    intro j k table _
    refine ⟨table, rfl, rfl, fun x => ?_⟩
    rw [if_neg (by omega)]
  | succ m ih =>
    intro j k table h
    have hk : k < table.length := by omega
    obtain ⟨out, ho, hl, hx⟩ := ih (j + 1) (k + 1) (table.set k (distance i j))
      (by rw [List.length_set]; omega)
    refine ⟨out, ?_, by rw [hl, List.length_set], fun x => ?_⟩
    · simp only [zmk_animation_init_inner, hk, if_true]
      rw [ho]
      congr 2
      omega
    · rw [hx x, List.getElem?_set]
      by_cases hkx : k = x
      · subst hkx
        rw [if_neg (by omega), if_pos rfl, if_pos hk, if_pos (by omega)]
        simp
      · rw [if_neg hkx]
        by_cases hc : k + 1 ≤ x ∧ x < k + 1 + m
        · rw [if_pos hc, if_pos (by omega)]
          congr 2
          omega
        · rw [if_neg hc, if_neg (by omega)]

/-- The outer prefill loop from row `i` with `m` rows to go, entered with
`k` at the first cell of row `i`, inside the table: it returns, keeps the
length, leaves the cell `(r + 1) * r / 2 + c` of every pair `c ≤ r` of the
rows `i .. i + m - 1` holding the value for `(r, c)`, and the cells before
row `i` as before. -/
theorem zmk_animation_init_outer_spec (distance : Nat → Nat → Nat) :
    ∀ (m i : Nat) (table : List Nat),
      ((i + m + 1) * (i + m)) / 2 ≤ table.length →
      ∃ out, zmk_animation_init_outer distance i m (((i + 1) * i) / 2, table)
          = some ((((i + m + 1) * (i + m)) / 2), out) ∧
        out.length = table.length ∧
        (∀ r c, i ≤ r → r < i + m → c ≤ r →
          out[((r + 1) * r) / 2 + c]? = some (distance r c)) ∧
        (∀ x, x < ((i + 1) * i) / 2 → out[x]? = table[x]?) := by
  intro m
  induction m with
  | zero =>
    intro i table _
    exact ⟨table, rfl, rfl, fun r c h1 h2 _ => by omega, fun _ _ => rfl⟩
  | succ m ih =>
    intro i table h
    have hrow : ((i + 1 + 1) * (i + 1)) / 2 ≤ ((i + (m + 1) + 1) * (i + (m + 1))) / 2 :=
      triangle_mono (i + 1) (i + (m + 1)) (by omega)
    have hs := triangle_succ i
    obtain ⟨t1, h1, hl1, hx1⟩ := zmk_animation_init_inner_spec distance i (i + 1) 0
      (((i + 1) * i) / 2) table (by omega)
    have heq : i + 1 + m = i + (m + 1) := by omega
    obtain ⟨out, ho, hl, hrows, hbefore⟩ := ih (i + 1) t1 (by rw [heq, hl1]; exact h)
    refine ⟨out, ?_, by rw [hl, hl1], ?_, ?_⟩
    · simp only [zmk_animation_init_outer, h1]
      rw [← hs, ho, heq]
    · intro r c hir hr hc
      by_cases hri : r = i
      · subst hri
        rw [hbefore _ (by omega), hx1, if_pos (by omega)]
        congr 2
        omega
      · exact hrows r c (by omega) (by omega) hc
    · intro x hx
      rw [hbefore x (by omega), hx1, if_neg (by omega)]

/-- The prefill returns a table of `(n + 1) * n / 2` cells in which the cell
`(r + 1) * r / 2 + c` holds the value for the pair `(r, c)`, for all
`c ≤ r < n`. -/
theorem zmk_animation_init_pixel_distance_spec (distance : Nat → Nat → Nat) (n : Nat) :
    ∃ table, zmk_animation_init_pixel_distance distance n = some table ∧
      table.length = ((n + 1) * n) / 2 ∧
      ∀ r c, r < n → c ≤ r → table[((r + 1) * r) / 2 + c]? = some (distance r c) := by
  obtain ⟨out, ho, hl, hrows, _⟩ := zmk_animation_init_outer_spec distance n 0
    (List.replicate (((n + 1) * n) / 2) 0) (by simp)
  refine ⟨out, ?_, by rw [hl]; simp, fun r c hr hc => hrows r c (by omega) (by omega) hc⟩
  unfold zmk_animation_init_pixel_distance
  simp only [Nat.zero_add] at ho
  have h0 : ((0 + 1) * 0) / 2 = 0 := by decide
  rw [h0] at ho
  rw [ho]
  rfl

/-- The lookup with the larger index first, for indices small enough for
`size_t`: it reads the cell `(i + 1) * i / 2 + j`. -/
theorem get_pixel_distance_ordered (table : List Nat) (fuel i j n : Nat)
    (hn : (n + 1) * n < SIZE_MOD) (hi : i < n) (hji : j ≤ i) :
    zmk_animation_get_pixel_distance table (fuel + 1) i j
      = table[((i + 1) * i) / 2 + j]? := by
  have hprod : (i + 1) * i ≤ (n + 1) * n := Nat.mul_le_mul (by omega) (by omega)
  have hrow : (i + 1) * i / 2 + i < (i + 1 + 1) * (i + 1) / 2 := by
    rw [triangle_succ]; omega
  have hrown : (i + 1 + 1) * (i + 1) / 2 ≤ (n + 1) * n / 2 :=
    triangle_mono (i + 1) n (by omega)
  have hdiv : (n + 1) * n / 2 ≤ (n + 1) * n := Nat.div_le_self _ _
  have hmod : ((i + 1) * i) % SIZE_MOD = (i + 1) * i := Nat.mod_eq_of_lt (by omega)
  unfold zmk_animation_get_pixel_distance
  rw [if_neg (by omega), hmod, Nat.shiftRight_eq_div_pow, Nat.pow_one,
    Nat.mod_eq_of_lt (by omega)]

/-- C36: for `n` pixels (with `(n + 1) * n` inside `size_t`) and all pixel
indices `i, j < n`, the lookup on the table filled by the init loop returns
(with any fuel of at least 2), the cell index
`(max(i,j) + 1) * max(i,j) / 2 + min(i,j)` lies inside the table of
`(n + 1) * n / 2` cells, the value read is the one the init loop stored for
the pair `(max(i,j), min(i,j))`, and the lookup is symmetric. -/
theorem C36_pixel_distance_lookup (distance : Nat → Nat → Nat) (n i j fuel : Nat)
    (hn : (n + 1) * n < SIZE_MOD) (hi : i < n) (hj : j < n) :
    ∃ table, zmk_animation_init_pixel_distance distance n = some table ∧
      table.length = ((n + 1) * n) / 2 ∧
      ((max i j + 1) * max i j) / 2 + min i j < ((n + 1) * n) / 2 ∧
      table[((max i j + 1) * max i j) / 2 + min i j]?
        = some (distance (max i j) (min i j)) ∧
      zmk_animation_get_pixel_distance table (fuel + 2) i j
        = some (distance (max i j) (min i j)) ∧
      zmk_animation_get_pixel_distance table (fuel + 2) i j
        = zmk_animation_get_pixel_distance table (fuel + 2) j i := by
  obtain ⟨table, ht, hl, hcell⟩ := zmk_animation_init_pixel_distance_spec distance n
  have hmax : max i j < n := max_lt hi hj
  have hmin : min i j ≤ max i j := le_trans (min_le_left i j) (le_max_left i j)
  have hc := hcell (max i j) (min i j) hmax hmin
  have hrow : (max i j + 1) * max i j / 2 + max i j
      < (max i j + 1 + 1) * (max i j + 1) / 2 := by
    rw [triangle_succ]; omega
  have hrown : (max i j + 1 + 1) * (max i j + 1) / 2 ≤ (n + 1) * n / 2 :=
    triangle_mono (max i j + 1) n (by omega)
  have hget : ∀ a b, a < n → b < n →
      zmk_animation_get_pixel_distance table (fuel + 2) a b
        = some (distance (max a b) (min a b)) := by
    intro a b ha hb
    by_cases hab : a < b
    · have h1 : zmk_animation_get_pixel_distance table (fuel + 2) a b
          = zmk_animation_get_pixel_distance table (fuel + 1) b a := by
        rw [zmk_animation_get_pixel_distance, if_pos hab]
      rw [h1, get_pixel_distance_ordered table fuel b a n hn hb (by omega),
        max_eq_right (by omega), min_eq_left (by omega)]
      exact hcell b a hb (by omega)
    · rw [get_pixel_distance_ordered table (fuel + 1) a b n hn ha (by omega),
        max_eq_left (by omega), min_eq_right (by omega)]
      exact hcell a b ha (by omega)
  refine ⟨table, ht, hl, by omega, hc, hget i j hi hj, ?_⟩
  rw [hget i j hi hj, hget j i hj hi, max_comm, min_comm]

theorem C36_pixel_distance_lookup_witness :
    ∃ table, zmk_animation_init_pixel_distance (fun r c => 10 * r + c) 3 = some table ∧
      table.length = ((3 + 1) * 3) / 2 ∧
      ((max 1 2 + 1) * max 1 2) / 2 + min 1 2 < ((3 + 1) * 3) / 2 ∧
      table[((max 1 2 + 1) * max 1 2) / 2 + min 1 2]?
        = some ((fun r c => 10 * r + c) (max 1 2) (min 1 2)) ∧
      zmk_animation_get_pixel_distance table (0 + 2) 1 2
        = some ((fun r c => 10 * r + c) (max 1 2) (min 1 2)) ∧
      zmk_animation_get_pixel_distance table (0 + 2) 1 2
        = zmk_animation_get_pixel_distance table (0 + 2) 2 1 :=
  C36_pixel_distance_lookup (fun r c => 10 * r + c) 3 1 2 0 (by decide) (by decide)
    (by decide)

/-! ## Theorems: the helper protocol of a leaf effect -/

theorem pred_mod_of_mod_ne_zero (fps x : Nat) (hm : x % fps ≠ 0) :
    (x - 1) % fps = x % fps - 1 := by
  rcases Nat.eq_zero_or_pos fps with h0 | hfps
  · subst h0
    simp only [Nat.mod_zero]
  have hlt : x % fps < fps := Nat.mod_lt _ hfps
  have hx : x = fps * (x / fps) + x % fps := (Nat.div_add_mod x fps).symm
  have h1 : x - 1 = fps * (x / fps) + (x % fps - 1) := by omega
  rw [h1, Nat.mul_add_mod, Nat.mod_eq_of_lt (by omega)]

theorem tick_handler_armed (n : Nat) (t : Bool) (h1 : 1 ≤ n) (hn : n < UINT32_MOD) :
    zmk_animation_tick_handler ⟨n, t⟩
      = ⟨n - 1, if n - 1 = 0 then false else t⟩ := by
  have hM : UINT32_MOD = 4294967296 := by norm_num [UINT32_MOD]
  have hc : (n + (UINT32_MOD - 1)) % UINT32_MOD = n - 1 := by
    have h2 : n + (UINT32_MOD - 1) = (n - 1) + UINT32_MOD := by omega
    rw [h2, Nat.add_mod_right, Nat.mod_eq_of_lt (by omega)]
  unfold zmk_animation_tick_handler
  simp only [hc]

/-- One frame of the protocol on the scheduler: the tick handler fires on an
armed timer whose counter covers the frames up to the next multiple of
`fps`, then the effect, with `x > 0` frames left after this one, calls the
helper with `initial = false`. The counter again covers the frames up to
the next multiple, and the timer is still armed. -/
theorem helper_frame_step (fps x n : Nat) (hfps : 0 < fps) (hfps32 : fps < UINT32_MOD)
    (h : x % fps + 1 ≤ n) (hn : n < UINT32_MOD) :
    (x - 1) % fps + 1
        ≤ (zmk_animation_request_frames_if_required fps x false
            (zmk_animation_tick_handler ⟨n, true⟩)).animation_timer_countdown
    ∧ (zmk_animation_request_frames_if_required fps x false
        (zmk_animation_tick_handler ⟨n, true⟩)).animation_timer_countdown < UINT32_MOD
    ∧ (zmk_animation_request_frames_if_required fps x false
        (zmk_animation_tick_handler ⟨n, true⟩)).timer_running = true := by
  have hlt : (x - 1) % fps < fps := Nat.mod_lt _ hfps
  rw [tick_handler_armed n true (by omega) hn]
  unfold zmk_animation_request_frames_if_required
  simp only [Bool.false_eq_true, if_false]
  by_cases hm : x % fps = 0
  · rw [if_pos hm]
    unfold zmk_animation_request_frames
    by_cases hle : fps ≤ n - 1
    · rw [if_pos hle]
      refine ⟨by simp only; omega, by simp only; omega, ?_⟩
      simp only
      rw [if_neg (by omega)]
    · rw [if_neg hle]
      refine ⟨by simp only; omega, by simp only; omega, ?_⟩
      simp only
      by_cases h0 : n - 1 = 0
      · rw [if_pos h0]
      · rw [if_neg h0, if_neg h0]
  · rw [if_neg hm]
    have hp := pred_mod_of_mod_ne_zero fps x hm
    refine ⟨by simp only; omega, by simp only; omega, ?_⟩
    simp only
    rw [if_neg (by omega)]

/-- The start of the protocol on a consistent scheduler: after the helper
call with `initial = true` the counter covers the frames up to the next
multiple of `fps` and the timer is armed. -/
theorem helper_start_step (fps c : Nat) (s : Sched) (hfps : 0 < fps)
    (hfps32 : fps < UINT32_MOD) (hc : 0 < c) (hinv : s.inv)
    (hs32 : s.animation_timer_countdown < UINT32_MOD) :
    (c - 1) % fps + 1
        ≤ (zmk_animation_request_frames_if_required fps c true s).animation_timer_countdown
    ∧ (zmk_animation_request_frames_if_required fps c true s).animation_timer_countdown
        < UINT32_MOD
    ∧ (zmk_animation_request_frames_if_required fps c true s).timer_running = true := by
  have hlt : (c - 1) % fps < fps := Nat.mod_lt _ hfps
  have hle : (c - 1) % fps ≤ c - 1 := Nat.mod_le _ _
  unfold Sched.inv at hinv
  unfold zmk_animation_request_frames_if_required zmk_animation_request_frames
  simp only [if_true]
  by_cases hcf : c > fps
  · rw [if_pos hcf]
    by_cases hreq : fps ≤ s.animation_timer_countdown
    · rw [if_pos hreq]
      exact ⟨by omega, hs32, hinv.mp (by omega)⟩
    · rw [if_neg hreq]
      refine ⟨by simp only; omega, by simp only; omega, ?_⟩
      simp only
      by_cases h0 : s.animation_timer_countdown = 0
      · rw [if_pos h0]
      · rw [if_neg h0]; exact hinv.mp (by omega)
  · rw [if_neg hcf]
    have hcm : (c - 1) % fps = c - 1 := Nat.mod_eq_of_lt (by omega)
    by_cases hreq : c ≤ s.animation_timer_countdown
    · rw [if_pos hreq]
      exact ⟨by omega, hs32, hinv.mp (by omega)⟩
    · rw [if_neg hreq]
      refine ⟨by simp only; omega, by simp only; omega, ?_⟩
      simp only
      by_cases h0 : s.animation_timer_countdown = 0
      · rw [if_pos h0]
      · rw [if_neg h0]; exact hinv.mp (by omega)

/-- One frame of the effect with more than one frame left keeps the
invariant of the protocol, with the countdown one lower. -/
theorem battery_status_frame_inv (fps uptime cnt : Nat)
    (st : animation_battery_status_data × Sched)
    (hfps : 0 < fps) (hfps32 : fps < UINT32_MOD) (hcnt : 1 < cnt)
    (hcounter : st.1.counter = cnt)
    (hcover : (cnt - 1) % fps + 1 ≤ st.2.animation_timer_countdown)
    (h32 : st.2.animation_timer_countdown < UINT32_MOD)
    (harmed : st.2.timer_running = true) :
    (battery_status_frame fps uptime st).1.counter = cnt - 1
    ∧ (cnt - 1 - 1) % fps + 1
        ≤ (battery_status_frame fps uptime st).2.animation_timer_countdown
    ∧ (battery_status_frame fps uptime st).2.animation_timer_countdown < UINT32_MOD
    ∧ (battery_status_frame fps uptime st).2.timer_running = true := by
  obtain ⟨data, s⟩ := st
  obtain ⟨n, t⟩ := s
  simp only at hcounter hcover h32 harmed
  subst harmed
  have hstep := helper_frame_step fps (cnt - 1) n hfps hfps32 hcover h32
  unfold battery_status_frame animation_battery_status_render_frame
  simp only [hcounter]
  rw [if_neg (by omega), if_neg (by omega)]
  exact ⟨rfl, hstep⟩

/-- The invariant of the protocol over `k` frames, while frames are left. -/
theorem battery_status_frames_inv (fps uptime : Nat) (hfps : 0 < fps)
    (hfps32 : fps < UINT32_MOD) :
    ∀ (k cnt : Nat) (st : animation_battery_status_data × Sched), k < cnt →
      st.1.counter = cnt →
      (cnt - 1) % fps + 1 ≤ st.2.animation_timer_countdown →
      st.2.animation_timer_countdown < UINT32_MOD →
      st.2.timer_running = true →
      (battery_status_frames fps uptime k st).1.counter = cnt - k
      ∧ (cnt - k - 1) % fps + 1
          ≤ (battery_status_frames fps uptime k st).2.animation_timer_countdown
      ∧ (battery_status_frames fps uptime k st).2.animation_timer_countdown < UINT32_MOD
      ∧ (battery_status_frames fps uptime k st).2.timer_running = true := by
  intro k
  induction k with
  | zero =>
    intro cnt st _ h1 h2 h3 h4
    exact ⟨h1, h2, h3, h4⟩
  | succ k ih =>
    intro cnt st hk h1 h2 h3 h4
    obtain ⟨g1, g2, g3, g4⟩ := battery_status_frame_inv fps uptime cnt st hfps hfps32
      (by omega) h1 h2 h3 h4
    have := ih (cnt - 1) (battery_status_frame fps uptime st) (by omega) g1 g2 g3 g4
    have he : cnt - 1 - k = cnt - (k + 1) := by omega
    rw [he] at this
    exact this

/-- C37: an effect that follows the helper protocol (here the battery status
effect: helper call with `initial = true` at start, and in every frame one
tick-handler firing followed by a render pass that decrements the countdown
and calls the helper with `initial = false`), started with countdown `c > 0`
on a consistent scheduler. After any `k < c` frames the countdown is
`c - k > 0`, the frame counter is at least `((c - k - 1) mod fps) + 1`, hence
at least 1, and the tick timer is armed. -/
theorem C37_helper_protocol_keeps_tick_armed (fps uptime c k : Nat)
    (data : animation_battery_status_data) (s : Sched)
    (hfps : 0 < fps) (hfps32 : fps < UINT32_MOD) (hk : k < c)
    (hinv : s.inv) (hs32 : s.animation_timer_countdown < UINT32_MOD) :
    (battery_status_frames fps uptime k
        (animation_battery_status_start fps c uptime data s)).1.counter = c - k
    ∧ (c - k - 1) % fps + 1
        ≤ (battery_status_frames fps uptime k
            (animation_battery_status_start fps c uptime data s)).2.animation_timer_countdown
    ∧ 1 ≤ (battery_status_frames fps uptime k
            (animation_battery_status_start fps c uptime data s)).2.animation_timer_countdown
    ∧ (battery_status_frames fps uptime k
        (animation_battery_status_start fps c uptime data s)).2.timer_running = true := by
  obtain ⟨h1, h2, h3⟩ := helper_start_step fps c s hfps hfps32 (by omega) hinv hs32
  obtain ⟨g1, g2, _, g4⟩ := battery_status_frames_inv fps uptime hfps hfps32 k c
    (animation_battery_status_start fps c uptime data s) hk rfl h1 h2 h3
  exact ⟨g1, g2, by omega, g4⟩

theorem C37_helper_protocol_keeps_tick_armed_witness :
    (battery_status_frames 30 0 44
        (animation_battery_status_start 30 45 0
          { running := false, counter := 0, last_alert_time := 0 } Sched.init)).1.counter
      = 45 - 44
    ∧ (45 - 44 - 1) % 30 + 1
        ≤ (battery_status_frames 30 0 44
            (animation_battery_status_start 30 45 0
              { running := false, counter := 0, last_alert_time := 0 }
              Sched.init)).2.animation_timer_countdown
    ∧ 1 ≤ (battery_status_frames 30 0 44
            (animation_battery_status_start 30 45 0
              { running := false, counter := 0, last_alert_time := 0 }
              Sched.init)).2.animation_timer_countdown
    ∧ (battery_status_frames 30 0 44
        (animation_battery_status_start 30 45 0
          { running := false, counter := 0, last_alert_time := 0 }
          Sched.init)).2.timer_running = true :=
  C37_helper_protocol_keeps_tick_armed 30 0 45 44
    { running := false, counter := 0, last_alert_time := 0 } Sched.init
    (by decide) (by decide) (by decide)
    (by simp [Sched.inv, Sched.init]) (by decide)

/-! ## Theorems: composition combinator, index range -/

theorem render_frame_for_parallel_loop_total {σ : Type}
    (api : Nat → animation_api σ) (config : animation_compose_config) :
    ∀ (k i : Nat) (acc : World σ × Bool), i + k ≤ config.animations.length →
      ∃ r, render_frame_for_parallel_loop api config i k acc = some r := by
  intro k
  induction k with
  | zero => intro i acc _; exact ⟨acc, rfl⟩
  | succ k ih =>
    intro i acc h
    obtain ⟨w, still_running⟩ := acc
    have ha : i < config.animations.length := by omega
    simp only [render_frame_for_parallel_loop, List.getElem?_eq_getElem ha]
    split
    · exact ih (i + 1) _ (by omega)
    · exact ih (i + 1) _ (by omega)

/-- One combinator operation on a combinator with at least one and at most
255 children, each with a configured duration: from a state whose index
names a child the operation returns and the index again names a child. -/
theorem compose_step_index {σ : Type} (api : Nat → animation_api σ)
    (config : animation_compose_config) (st : Compose σ) (op : ComposeOp)
    (hN : 1 ≤ config.animations.length) (h256 : config.animations.length < 256)
    (hdur : config.animations.length ≤ config.durations.length)
    (hidx : st.data.current_index < config.animations.length) :
    ∃ st1, compose_step api config st op = some st1 ∧
      st1.data.current_index < config.animations.length := by
  have hnum : config.num_animations = config.animations.length :=
    Nat.mod_eq_of_lt h256
  cases op with
  | start req =>
    simp only [compose_step]
    unfold animation_compose_start
    by_cases hrun : st.data.running = true
    · exact ⟨st, by simp [hrun], hidx⟩
    · simp only [Bool.not_eq_true] at hrun
      have hub : (if config.parallel = true then config.num_animations else 1)
          ≤ config.animations.length := by
        split
        · omega
        · exact hN
      obtain ⟨w1, hw1, _⟩ := animation_compose_start_loop_trace api config req
        (if config.parallel = true then config.num_animations else 1) 0 st.world
        (by omega) (by omega)
      refine ⟨{ data := { current_index := 0, running := true }
                world := World.request_frames 1 w1 }, ?_, by simp only; omega⟩
      simp only [hrun, Bool.false_eq_true, if_false, Bool.not_false, if_true, hw1]
  | stop =>
    simp only [compose_step]
    unfold animation_compose_stop
    by_cases hrun : st.data.running = true
    · simp only [hrun, Bool.not_true, Bool.false_eq_true, if_false, if_true]
      by_cases hpar : config.parallel = true
      · obtain ⟨w1, hw1⟩ := animation_compose_stop_loop_total api config
          config.num_animations 0 st.world (by omega)
        refine ⟨{ data := { current_index := 0, running := false }, world := w1 }, ?_,
          by simp only; omega⟩
        simp only [hpar, if_true, hw1]
      · refine ⟨{ data := { current_index := 0, running := false }
                  world := animation_stop api config.animations[st.data.current_index]
                    st.world }, ?_, by simp only; omega⟩
        simp only [hpar, Bool.false_eq_true, if_false, List.getElem?_eq_getElem hidx]
    · simp only [Bool.not_eq_true] at hrun
      exact ⟨st, by simp [hrun], hidx⟩
  | render_frame =>
    simp only [compose_step]
    unfold animation_compose_render_frame
    by_cases hrun : st.data.running = true
    · simp only [hrun, Bool.not_true, Bool.false_eq_true, if_false]
      by_cases hpar : config.parallel = true
      · simp only [hpar, if_true]
        obtain ⟨r, hr⟩ := render_frame_for_parallel_loop_total api config
          config.num_animations 0 (st.world, false) (by omega)
        obtain ⟨w, still_running⟩ := r
        unfold render_frame_for_parallel
        simp only [hr]
        split
        · exact ⟨_, rfl, hidx⟩
        · exact ⟨_, rfl, hidx⟩
      · simp only [hpar, Bool.false_eq_true, if_false]
        obtain ⟨a, _, hnot, hlast, hnext⟩ := render_frame_for_sequential_cases api config st
          hrun (by omega) (by omega)
        cases hfin : animation_is_finished api a (animation_render_frame api a st.world) with
        | false => exact ⟨_, hnot hfin, hidx⟩
        | true =>
          by_cases hl : config.num_animations ≤ st.data.current_index + 1
          · exact ⟨_, hlast hfin hl, by simp only; omega⟩
          · obtain ⟨b, d, _, _, hres⟩ := hnext hfin (by omega)
            exact ⟨_, hres, by simp only; omega⟩
    · simp only [Bool.not_eq_true] at hrun
      exact ⟨st, by simp [hrun], hidx⟩

theorem compose_run_index {σ : Type} (api : Nat → animation_api σ)
    (config : animation_compose_config)
    (hN : 1 ≤ config.animations.length) (h256 : config.animations.length < 256)
    (hdur : config.animations.length ≤ config.durations.length) :
    ∀ (ops : List ComposeOp) (st : Compose σ),
      st.data.current_index < config.animations.length →
      ∃ st1, compose_run api config st ops = some st1 ∧
        st1.data.current_index < config.animations.length := by
  intro ops
  induction ops with
  | nil => intro st h; exact ⟨st, rfl, h⟩
  | cons op ops ih =>
    intro st h
    obtain ⟨st2, h2, hi2⟩ := compose_step_index api config st op hN h256 hdur h
    obtain ⟨st1, h1, hi1⟩ := ih st2 hi2
    exact ⟨st1, by simp only [compose_run, h2]; exact h1, hi1⟩

/-- C38: for a combinator with `1 ≤ N ≤ 255` children (the count is a
`uint8_t`), each with a configured duration, every sequence of `start`,
`stop` and `render_frame` from a state whose index is below `N` (the initial
state has index 0) returns, with `current_index < N`, so the child lookup by
the index succeeds. For a sequential combinator without children, `start`
on the stopped combinator looks up child 0, which does not exist. -/
theorem C38_current_index_in_range {σ : Type} (api : Nat → animation_api σ)
    (config : animation_compose_config) (ops : List ComposeOp) (st0 : Compose σ)
    (empty_config : animation_compose_config) (request_duration_ms : Nat)
    (hN : 1 ≤ config.animations.length) (h256 : config.animations.length < 256)
    (hdur : config.animations.length ≤ config.durations.length)
    (h0 : st0.data.current_index < config.animations.length) :
    (∃ st1, compose_run api config st0 ops = some st1 ∧
      st1.data.current_index < config.animations.length ∧
      ∃ a, config.animations[st1.data.current_index]? = some a)
    ∧ (empty_config.animations = [] → empty_config.parallel = false →
        st0.data.running = false →
        empty_config.animations[0]? = none ∧
        animation_compose_start api empty_config request_duration_ms st0 = none) := by
  constructor
  · obtain ⟨st1, h1, hi1⟩ := compose_run_index api config hN h256 hdur ops st0 h0
    exact ⟨st1, h1, hi1, _, List.getElem?_eq_getElem hi1⟩
  · intro he hp hr
    refine ⟨by rw [he]; rfl, ?_⟩
    unfold animation_compose_start
    simp [hr, hp, animation_compose_start_loop, he]

theorem C38_current_index_in_range_witness :
    (∃ st1, compose_run (fun _ => countdown_api) example_sequential example_stopped
        [ComposeOp.start 0, ComposeOp.render_frame, ComposeOp.render_frame,
          ComposeOp.stop, ComposeOp.start 3] = some st1 ∧
      st1.data.current_index < example_sequential.animations.length ∧
      ∃ a, example_sequential.animations[st1.data.current_index]? = some a)
    ∧ (({ animations := [], durations := [], parallel := false } :
          animation_compose_config).animations = [] →
        ({ animations := [], durations := [], parallel := false } :
          animation_compose_config).parallel = false →
        example_stopped.data.running = false →
        ({ animations := [], durations := [], parallel := false } :
          animation_compose_config).animations[0]? = none ∧
        animation_compose_start (fun _ => countdown_api)
          { animations := [], durations := [], parallel := false } 0 example_stopped
          = none) :=
  C38_current_index_in_range (fun _ => countdown_api) example_sequential
    [ComposeOp.start 0, ComposeOp.render_frame, ComposeOp.render_frame,
      ComposeOp.stop, ComposeOp.start 3]
    example_stopped { animations := [], durations := [], parallel := false } 0
    (by decide) (by decide) (by decide) (by decide)

/-! ## Theorems: trigger behaviour, stop work -/

/-- The value `min_remaining` holds after the loop of the stop-work handler
is the largest remaining duration among the slots that are still triggered
(or the value it was entered with, if that is larger). -/
theorem stop_work_handler_loop_max (elapsed extend_ms : Nat) :
    ∀ (slots : List trigger_status) (m : Nat) (stopped : List Nat),
      (animation_stop_work_handler_loop elapsed extend_ms slots (m, stopped)).2.1
        = (((animation_stop_work_handler_loop elapsed extend_ms slots
              (m, stopped)).1.filter (fun s => s.triggered)).map
            (fun s => s.remaining_duration_ms)).foldl max m := by
  intro slots
  induction slots with
  | nil => intro m stopped; rfl
  | cons s rest ih =>
    intro m stopped
    unfold animation_stop_work_handler_loop
    by_cases ht : s.triggered = true
    · have hg : ¬ ((!s.triggered) = true) := by simp [ht]
      rw [if_neg hg]
      by_cases hgt : s.remaining_duration_ms > elapsed
      · rw [if_pos hgt]
        simp only [ht, List.filter_cons_of_pos, List.map_cons, List.foldl_cons]
        rw [ih]
        congr 1
        by_cases hlt : m < s.remaining_duration_ms - elapsed
        · rw [if_pos hlt, max_eq_right (by omega)]
        · rw [if_neg hlt, max_eq_left (by omega)]
      · rw [if_neg hgt]
        by_cases hp : s.num_pressed > 0
        · rw [if_pos hp]
          simp only [ht, List.filter_cons_of_pos, List.map_cons, List.foldl_cons]
          rw [ih]
          congr 1
          by_cases hlt : m < extend_ms
          · rw [if_pos hlt, max_eq_right (by omega)]
          · rw [if_neg hlt, max_eq_left (by omega)]
        · rw [if_neg hp]
          simp only [Bool.false_eq_true, not_false_eq_true, List.filter_cons_of_neg]
          rw [ih]
    · simp only [Bool.not_eq_true] at ht
      have hg : (!s.triggered) = true := by simp [ht]
      rw [if_pos hg]
      simp only [ht, Bool.false_eq_true, not_false_eq_true, List.filter_cons_of_neg]
      rw [ih]

/-- The stop-work handler schedules the work again after the largest
remaining duration among the slots that are still triggered, and does not
schedule it when that is 0 (in particular when no slot is triggered). -/
theorem stop_work_handler_scheduled (extend_ms now : Nat) (st : TriggerState) :
    (animation_stop_work_handler extend_ms now st).scheduled
      = if ((((animation_stop_work_handler extend_ms now st).trigger_statuses.filter
                (fun s => s.triggered)).map
              (fun s => s.remaining_duration_ms)).foldl max 0) > 0
        then some ((((animation_stop_work_handler extend_ms now st).trigger_statuses.filter
                (fun s => s.triggered)).map
              (fun s => s.remaining_duration_ms)).foldl max 0)
        else none := by
  unfold animation_stop_work_handler
  simp only
  rw [stop_work_handler_loop_max]

/-- C40 (failing input): two triggered slots with released keys, 300 ms and
100 ms left, and a handler run 50 ms after the previous one. The slots are
left with 250 ms and 50 ms; the minimum remaining duration over the slots
still triggered is 50 ms, but the work is scheduled again after 250 ms, the
maximum: `min_remaining` starts at 0 and is raised whenever it is smaller
than a slot's remaining duration. -/
theorem C40_stop_work_rescheduled_after_maximum :
    (animation_stop_work_handler 200 50 example_trigger).trigger_statuses
      = [ { triggered := true, index := 0, num_pressed := 0, remaining_duration_ms := 250 },
          { triggered := true, index := 1, num_pressed := 0, remaining_duration_ms := 50 } ]
    ∧ (animation_stop_work_handler 200 50 example_trigger).scheduled = some 250
    ∧ spec_reschedule (animation_stop_work_handler 200 50 example_trigger).trigger_statuses
        = some 50
    ∧ (animation_stop_work_handler 200 50 example_trigger).stopped = [] := by
  refine ⟨by decide, by decide, by decide, by decide⟩


end ZmkAnimation
